import Mathlib

/-!
# Chat application: coin ledger, match engine and messaging

A shallow embedding of the persistent-store operations of the chat backend:

* `services/coinService.js` : `deductCoins`, `addCoins`, `processCoinPurchase`
* `routes/coins.js`         : `POST /purchase/confirm`, `POST /webhook/stripe`
* `routes/auth.js`          : `POST /login` (the daily-reward part)
* `routes/matching.js`      : `POST /action`
* `socket/socketHandlers.js`: `send_message`, `mark_messages_read`, the call handlers
* `config/redis.js`         : the presence registry
* `middleware/auth.js`      : `requireCoins`
* `routes/chat.js`          : `PUT` / `DELETE /messages/:messageId`,
                              `POST /messages/:messageId/reactions`

The relational store is a record of tables, each table a list of rows in
insertion order.  A knex transaction is a working copy of the store: the
writes are applied to the copy, `commit` publishes the copy and `rollback`
(or a thrown error caught by the handler) returns the store it started from.
Columns of type `integer` are `Int`; uuid keys are natural numbers.
-/

namespace ChatApp

/-! ## Data model (migrations) -/

abbrev UserId := Nat
abbrev MatchId := Nat
abbrev ConversationId := Nat
abbrev MessageId := Nat

/-- Column `coin_transactions.type` (enum of the migration). -/
inductive TxType where
  | purchase
  | daily_reward
  | referral_bonus
  | ad_reward
  | message_cost
  | video_call_cost
  | voice_call_cost
  | super_match_cost
  | profile_boost_cost
  | gift_cost
  | refund
  | admin_adjustment
  deriving DecidableEq, Repr

/-- Rows of table `users`, restricted to the columns the modelled handlers
read or write. Timestamps are milliseconds. -/
structure User where
  id : UserId
  email : String
  is_active : Bool
  is_banned : Bool
  coin_balance : Int
  total_coins_earned : Int
  total_coins_spent : Int
  login_streak : Int
  last_login : Option Int
  last_active : Option Int
  last_daily_reward : Option Int
  allow_video_calls : Bool
  allow_voice_calls : Bool
  deriving DecidableEq, Repr

/-- Column `coin_transactions.description`: the text is a template chosen by
the transaction type and filled with amounts, kept here as the template name
and its arguments. `template t n` is the text `getTransactionDescription`
builds for type `t` and absolute amount `n`; `loginReward d b` is the text the
login route writes (`Daily login reward (d + b streak bonus)`). -/
inductive Description where
  | template (t : TxType) (absAmount : Nat)
  | loginReward (dailyCoins bonusCoins : Int)
  deriving DecidableEq, Repr

/-- Rows of table `coin_transactions` (the `metadata` json text and the
`payment_amount` / `payment_currency` columns are left out). -/
structure CoinTransaction where
  user_id : UserId
  type : TxType
  amount : Int
  balance_before : Int
  balance_after : Int
  description : Description
  related_user_id : Option UserId
  related_message_id : Option MessageId
  related_match_id : Option MatchId
  payment_provider : Option String
  payment_transaction_id : Option String
  payment_status : Option String
  deriving DecidableEq, Repr

/-- Column `matches.status`. -/
inductive MatchStatus where
  | pending
  | matched
  | rejected
  | blocked
  deriving DecidableEq, Repr

/-- Rows of table `matches`. -/
structure Match where
  id : MatchId
  user1_id : UserId
  user2_id : UserId
  status : MatchStatus
  compatibility_score : Option Nat
  matched_at : Option Int
  is_super_match : Bool
  initiated_by : Option UserId
  deriving DecidableEq, Repr

/-- Column `conversations.status`. -/
inductive ConversationStatus where
  | active
  | archived
  | deleted
  deriving DecidableEq, Repr

/-- Rows of table `conversations`. -/
structure Conversation where
  id : ConversationId
  match_id : MatchId
  user1_id : UserId
  user2_id : UserId
  status : ConversationStatus
  last_message : Option String
  last_message_at : Option Int
  last_message_by : Option UserId
  unread_count_user1 : Int
  unread_count_user2 : Int
  is_blocked : Bool
  deriving DecidableEq, Repr

/-- Column `messages.type`. -/
inductive MessageType where
  | text
  | image
  | audio
  | video
  | file
  | system
  | gift
  | location
  deriving DecidableEq, Repr

/-- Column `messages.status`. -/
inductive MessageStatus where
  | sent
  | delivered
  | read
  | failed
  deriving DecidableEq, Repr

/-- One entry of the json array kept in `messages.edit_history`. -/
structure EditEntry where
  content : Option String
  edited_at : Int
  deriving DecidableEq, Repr

/-- The json object kept in `messages.reactions`: its keys (emoji) in
insertion order, each with its array of user ids. The json text is kept as
the value it encodes. -/
abbrev Reactions := List (String × List UserId)

/-- Rows of table `messages` (the `media_urls`, `metadata`, translation,
system and moderation-flag columns are left out). `edit_history` is `none`
for SQL `NULL`. -/
structure Message where
  id : MessageId
  conversation_id : ConversationId
  sender_id : UserId
  recipient_id : UserId
  content : Option String
  type : MessageType
  status : MessageStatus
  delivered_at : Option Int
  read_at : Option Int
  reactions : Reactions
  is_edited : Bool
  edited_at : Option Int
  edit_history : Option (List EditEntry)
  is_deleted : Bool
  deleted_at : Option Int
  coins_cost : Int
  created_at : Int
  deriving DecidableEq, Repr

/-- The persistent store. `next_id` stands for `gen_random_uuid()`: the key
given to the next inserted match, conversation or message row. -/
structure Store where
  users : List User
  coin_transactions : List CoinTransaction
  matches_ : List Match
  conversations : List Conversation
  messages : List Message
  next_id : Nat
  deriving DecidableEq, Repr

/-! ## Coin ledger (`services/coinService.js`) -/

/-- The `metadata` argument of the ledger calls: the keys the ledger reads. -/
structure Metadata where
  recipientId : Option UserId
  messageId : Option MessageId
  matchId : Option MatchId
  paymentProvider : Option String
  paymentTransactionId : Option String
  paymentStatus : Option String
  deriving DecidableEq, Repr

/-- The empty metadata object `{}` (also any object without the keys above). -/
def Metadata.empty : Metadata :=
  { recipientId := none, messageId := none, matchId := none,
    paymentProvider := none, paymentTransactionId := none, paymentStatus := none }

/-- JavaScript `x || null` on an optional string: a missing or empty string
gives `null`. -/
def orNull (x : Option String) : Option String :=
  match x with
  | some v => if v = "" then none else some v
  | none => none

/-- Which store writes of one ledger transaction throw. -/
structure TrxFaults where
  update_fails : Bool
  insert_fails : Bool
  commit_fails : Bool
  deriving DecidableEq, Repr

/-- No write fails. -/
def TrxFaults.ok : TrxFaults :=
  { update_fails := false, insert_fails := false, commit_fails := false }

/-- Query `users.where('id', userId).first()`. -/
def findUser (s : Store) (userId : UserId) : Option User :=
  s.users.find? (fun u => u.id == userId)

/-- Function `getTransactionDescription(type, amount, metadata)`. -/
def getTransactionDescription (type : TxType) (amount : Int) : Description :=
  Description.template type amount.natAbs

/-- The row `deductCoins` inserts, `user` being the row it read. -/
def debitRow (userId : UserId) (user : User) (amount : Int) (type : TxType)
    (metadata : Metadata) : CoinTransaction :=
  { user_id := userId,
    type := type,
    amount := -amount,
    balance_before := user.coin_balance,
    balance_after := user.coin_balance - amount,
    description := getTransactionDescription type amount,
    related_user_id := metadata.recipientId,
    related_message_id := metadata.messageId,
    related_match_id := metadata.matchId,
    payment_provider := none,
    payment_transaction_id := none,
    payment_status := none }

/-- The row `addCoins` inserts, `user` being the row it read. -/
def creditRow (userId : UserId) (user : User) (amount : Int) (type : TxType)
    (metadata : Metadata) : CoinTransaction :=
  { user_id := userId,
    type := type,
    amount := amount,
    balance_before := user.coin_balance,
    balance_after := user.coin_balance + amount,
    description := getTransactionDescription type amount,
    related_user_id := metadata.recipientId,
    related_message_id := none,
    related_match_id := none,
    payment_provider := orNull metadata.paymentProvider,
    payment_transaction_id := orNull metadata.paymentTransactionId,
    payment_status := orNull metadata.paymentStatus }

/-- The `users` update of `deductCoins`: every row with key `userId` gets the
new balance and `total_coins_spent + amount`. -/
def debitUsers (users : List User) (userId : UserId) (newBalance amount : Int) : List User :=
  users.map (fun u =>
    if u.id == userId then
      { u with coin_balance := newBalance,
               total_coins_spent := u.total_coins_spent + amount }
    else u)

/-- The `users` update of `addCoins`: every row with key `userId` gets the new
balance and `total_coins_earned + amount`. -/
def creditUsers (users : List User) (userId : UserId) (newBalance amount : Int) : List User :=
  users.map (fun u =>
    if u.id == userId then
      { u with coin_balance := newBalance,
               total_coins_earned := u.total_coins_earned + amount }
    else u)

/-- Function `deductCoins(userId, amount, type, metadata)`: the boolean it
returns and the store after the call. -/
def deductCoins (s : Store) (userId : UserId) (amount : Int) (type : TxType)
    (metadata : Metadata) (f : TrxFaults) : Bool × Store :=
  match findUser s userId with
  | none => (false, s)
  | some user =>
    if user.coin_balance < amount then (false, s)
    else
      let newBalance := user.coin_balance - amount
      if f.update_fails then (false, s)
      else
        let trx1 : Store := { s with users := debitUsers s.users userId newBalance amount }
        if f.insert_fails then (false, s)
        else
          let trx2 : Store :=
            { trx1 with coin_transactions :=
                trx1.coin_transactions ++ [debitRow userId user amount type metadata] }
          if f.commit_fails then (false, s) else (true, trx2)

/-- Function `addCoins(userId, amount, type, metadata)`. -/
def addCoins (s : Store) (userId : UserId) (amount : Int) (type : TxType)
    (metadata : Metadata) (f : TrxFaults) : Bool × Store :=
  match findUser s userId with
  | none => (false, s)
  | some user =>
    let newBalance := user.coin_balance + amount
    if f.update_fails then (false, s)
    else
      let trx1 : Store := { s with users := creditUsers s.users userId newBalance amount }
      if f.insert_fails then (false, s)
      else
        let trx2 : Store :=
          { trx1 with coin_transactions :=
              trx1.coin_transactions ++ [creditRow userId user amount type metadata] }
        if f.commit_fails then (false, s) else (true, trx2)

/-- Function `getCoinBalance(userId)`. -/
def getCoinBalance (s : Store) (userId : UserId) : Option Int :=
  (findUser s userId).map (fun u => u.coin_balance)

/-- The transaction history of one user, oldest first. -/
def historyOf (s : Store) (userId : UserId) : List CoinTransaction :=
  s.coin_transactions.filter (fun t => t.user_id == userId)

/-- A store with no rows. -/
def Store.empty : Store :=
  { users := [], coin_transactions := [], matches_ := [], conversations := [], messages := [],
    next_id := 0 }

/-- The ledger calls of one user: `debit` is `deductCoins`, `credit` is
`addCoins`, each with the faults its transaction meets. -/
inductive LedgerCall where
  | debit (amount : Int) (type : TxType) (metadata : Metadata) (f : TrxFaults)
  | credit (amount : Int) (type : TxType) (metadata : Metadata) (f : TrxFaults)
  deriving DecidableEq, Repr

/-- Run one ledger call for user `userId`. -/
def LedgerCall.run (s : Store) (userId : UserId) : LedgerCall → Bool × Store
  | LedgerCall.debit amount type metadata f => deductCoins s userId amount type metadata f
  | LedgerCall.credit amount type metadata f => addCoins s userId amount type metadata f

/-- The signed amount of a ledger call: what it adds to the balance when it
succeeds. -/
def LedgerCall.signedAmount : LedgerCall → Int
  | LedgerCall.debit amount _ _ _ => -amount
  | LedgerCall.credit amount _ _ _ => amount

/-- Run ledger calls for one user one after the other (serial commit order). -/
def runCalls (s : Store) (userId : UserId) : List LedgerCall → Store
  | [] => s
  | c :: cs => runCalls (c.run s userId).2 userId cs

/-- Sum of the signed amounts of the calls that succeed when run serially
from `s`. -/
def successfulSum (s : Store) (userId : UserId) : List LedgerCall → Int
  | [] => 0
  | c :: cs =>
    (if (c.run s userId).1 then c.signedAmount else 0)
      + successfulSum (c.run s userId).2 userId cs

/-- The history of a user is consistent: each row's `balance_after` is the
next row's `balance_before`, and the last row's `balance_after` is the stored
balance. -/
def historyConsistent (s : Store) (userId : UserId) : Prop :=
  List.Chain' (fun a b : CoinTransaction => a.balance_after = b.balance_before)
      (historyOf s userId)
    ∧ ∀ t ∈ (historyOf s userId).getLast?, getCoinBalance s userId = some t.balance_after

/-! ## Environment -/

/-- The integer settings read with `parseInt(process.env.X)`; `none` is an
unset or non-numeric variable (`NaN`). -/
structure Env where
  MESSAGE_COST_COINS : Option Int
  VIDEO_CALL_COST_COINS : Option Int
  VOICE_CALL_COST_COINS : Option Int
  SUPER_MATCH_COST_COINS : Option Int
  PROFILE_BOOST_COST_COINS : Option Int
  GIFT_COST_COINS : Option Int
  DAILY_LOGIN_COINS : Option Int
  deriving DecidableEq, Repr

/-- No variable is set. -/
def Env.unset : Env :=
  { MESSAGE_COST_COINS := none, VIDEO_CALL_COST_COINS := none,
    VOICE_CALL_COST_COINS := none, SUPER_MATCH_COST_COINS := none,
    PROFILE_BOOST_COST_COINS := none, GIFT_COST_COINS := none,
    DAILY_LOGIN_COINS := none }

/-- JavaScript `parseInt(x) || d`: `NaN` and `0` give the default. -/
def envOr (x : Option Int) (d : Int) : Int :=
  match x with
  | some v => if v = 0 then d else v
  | none => d

/-! ## Login daily reward (`routes/auth.js`, `POST /login`) -/

/-- Twenty hours and forty-eight hours in milliseconds. -/
def hours20 : Int := 20 * 60 * 60 * 1000

def hours48 : Int := 48 * 60 * 60 * 1000

/-- The row the login route reads first:
`users.where({ email, is_active: true }).first()`. -/
def loginFindUser (s : Store) (email : String) : Option User :=
  s.users.find? (fun u => u.email == email && u.is_active)

/-- The `loginStreak` the route computes from the row it read. -/
def loginStreak (user : User) (now : Int) : Int :=
  match user.last_login with
  | none => 1
  | some lastLogin =>
    if now - lastLogin < hours48 ∧ now - lastLogin > hours20 then user.login_streak + 1
    else 1

/-- The `canClaimDailyReward` test of the route. -/
def canClaimDailyReward (user : User) (now : Int) : Bool :=
  match user.last_daily_reward with
  | none => true
  | some last => decide (now - last > hours20)

/-- The store writes of the login route once the credentials are accepted,
computed from `user`, the row read at the start of the request: the update of
the login columns, then (when the daily reward can be claimed) the
transaction that writes the coin columns and inserts the `daily_reward`
row. -/
def loginWrites (env : Env) (s : Store) (user : User) (now : Int) : Store :=
  let streak := loginStreak user now
  let s1 : Store :=
    { s with users := s.users.map (fun u =>
        if u.id == user.id then
          { u with last_login := some now, last_active := some now, login_streak := streak }
        else u) }
  if canClaimDailyReward user now then
    let dailyCoins := envOr env.DAILY_LOGIN_COINS 10
    let bonusCoins := min (streak * 2) 50
    let totalCoins := dailyCoins + bonusCoins
    let row : CoinTransaction :=
      { user_id := user.id,
        type := TxType.daily_reward,
        amount := totalCoins,
        balance_before := user.coin_balance,
        balance_after := user.coin_balance + totalCoins,
        description := Description.loginReward dailyCoins bonusCoins,
        related_user_id := none,
        related_message_id := none,
        related_match_id := none,
        payment_provider := none,
        payment_transaction_id := none,
        payment_status := none }
    { s1 with
      users := s1.users.map (fun u =>
        if u.id == user.id then
          { u with coin_balance := user.coin_balance + totalCoins,
                   total_coins_earned := user.total_coins_earned + totalCoins,
                   last_daily_reward := some now }
        else u),
      coin_transactions := s1.coin_transactions ++ [row] }
  else s1

/-- Route `POST /login` run without interleaving: the status code and the
store after it. `passwordOk` is the outcome of the password check (true for
OAuth users, whose check is skipped). -/
def login (env : Env) (s : Store) (email : String) (passwordOk : Bool) (now : Int) :
    Nat × Store :=
  match loginFindUser s email with
  | none => (401, s)
  | some user =>
    if user.is_banned then (401, s)
    else if !passwordOk then (401, s)
    else (200, loginWrites env s user now)

/-! ## Coin purchase (`routes/coins.js`) -/

/-- Keys of `COIN_PACKAGES`. -/
inductive CoinPackage where
  | small
  | medium
  | large
  | mega
  deriving DecidableEq, Repr

/-- Field `coins` of a package. -/
def CoinPackage.coins : CoinPackage → Int
  | CoinPackage.small => 100
  | CoinPackage.medium => 250
  | CoinPackage.large => 500
  | CoinPackage.mega => 1000

/-- Field `bonus` of a package. -/
def CoinPackage.bonus : CoinPackage → Int
  | CoinPackage.small => 0
  | CoinPackage.medium => 50
  | CoinPackage.large => 150
  | CoinPackage.mega => 400

/-- Function `processCoinPurchase(userId, coinAmount, paymentAmount,
paymentProvider, transactionId, currency)`. -/
def processCoinPurchase (s : Store) (userId : UserId) (coinAmount : Int)
    (paymentProvider : String) (transactionId : String) (f : TrxFaults) : Bool × Store :=
  addCoins s userId coinAmount TxType.purchase
    { recipientId := none, messageId := none, matchId := none,
      paymentProvider := some paymentProvider,
      paymentTransactionId := some transactionId,
      paymentStatus := some "completed" } f

/-- Query `coin_transactions.where('payment_transaction_id', id).first()`. -/
def findPaymentTransaction (s : Store) (transactionId : String) : Option CoinTransaction :=
  s.coin_transactions.find? (fun t => t.payment_transaction_id == some transactionId)

/-- Route `POST /purchase/confirm` for the authenticated user `userId`: the
status code and the store after it. The package is a valid key by its type;
`payment_method` and `transaction_id` are checked as the validators do. -/
def purchaseConfirm (s : Store) (userId : UserId) (pkg : CoinPackage)
    (payment_method : String) (transaction_id : String) (f : TrxFaults) : Nat × Store :=
  if ¬ (payment_method = "google_play" ∨ payment_method = "app_store") then (400, s)
  else if transaction_id = "" then (400, s)
  else
    match findPaymentTransaction s transaction_id with
    | some _ => (409, s)
    | none =>
      let totalCoins := pkg.coins + pkg.bonus
      let r := processCoinPurchase s userId totalCoins payment_method transaction_id f
      if !r.1 then (500, r.2) else (200, r.2)

/-- The payment intent carried by a Stripe event: its id and the `user_id`
and `coins` (after `parseInt`) of its metadata. -/
structure PaymentIntent where
  id : String
  user_id : UserId
  coins : Int
  deriving DecidableEq, Repr

/-- A verified Stripe event: `payment_intent.succeeded` or any other type. -/
inductive StripeEvent where
  | payment_intent_succeeded (paymentIntent : PaymentIntent)
  | other
  deriving DecidableEq, Repr

/-- Route `POST /webhook/stripe`. `secretConfigured` tells whether
`STRIPE_WEBHOOK_SECRET` is set; `event` is the result of
`stripe.webhooks.constructEvent`, `none` when the signature check throws. -/
def stripeWebhook (s : Store) (secretConfigured : Bool) (event : Option StripeEvent)
    (f : TrxFaults) : Nat × Store :=
  if !secretConfigured then (500, s)
  else
    match event with
    | none => (400, s)
    | some StripeEvent.other => (200, s)
    | some (StripeEvent.payment_intent_succeeded paymentIntent) =>
      match findPaymentTransaction s paymentIntent.id with
      | some _ => (200, s)
      | none =>
        (200, (processCoinPurchase s paymentIntent.user_id paymentIntent.coins "stripe"
                paymentIntent.id f).2)

/-! ## Match engine (`routes/matching.js`, `POST /action`) -/

/-- The validated `action` of the request body. -/
inductive Action where
  | like
  | pass
  | super_like
  deriving DecidableEq, Repr

/-- Which store writes of one match action throw. The writes are issued on
`db` directly, outside any transaction, except the debit, which runs in the
transaction of `deductCoins`. `conversation_insert_fails` also covers the
insert being refused for its `user1_id` / `user2_id` values. -/
structure ActFaults where
  debit : TrxFaults
  reciprocal_update_fails : Bool
  match_insert_fails : Bool
  conversation_insert_fails : Bool
  pass_insert_fails : Bool
  deriving DecidableEq, Repr

/-- No write fails. -/
def ActFaults.ok : ActFaults :=
  { debit := TrxFaults.ok, reciprocal_update_fails := false, match_insert_fails := false,
    conversation_insert_fails := false, pass_insert_fails := false }

/-- The response of the match action. -/
inductive ActResult where
  | ok (is_match : Bool) (conversation_id : Option ConversationId)
  | cannotActOnSelf
  | targetNotFound
  | alreadyTaken
  | insufficientCoins (required : Int)
  | failed
  deriving DecidableEq, Repr

/-- The HTTP status of a response. -/
def ActResult.status : ActResult → Nat
  | ActResult.ok _ _ => 200
  | ActResult.cannotActOnSelf => 400
  | ActResult.targetNotFound => 404
  | ActResult.alreadyTaken => 409
  | ActResult.insufficientCoins _ => 402
  | ActResult.failed => 500

/-- The `existingMatch` query: a row of the pair in either direction, in any
status. -/
def findExistingMatch (s : Store) (actor target : UserId) : Option Match :=
  s.matches_.find? (fun m =>
    (m.user1_id == actor && m.user2_id == target)
      || (m.user1_id == target && m.user2_id == actor))

/-- The `reciprocalMatch` query: a pending row from the target to the actor. -/
def findReciprocalMatch (s : Store) (actor target : UserId) : Option Match :=
  s.matches_.find? (fun m =>
    m.user1_id == target && m.user2_id == actor && m.status == MatchStatus.pending)

/-- The conversation looked up for the response: a row of the pair in either
direction. -/
def findConversation (s : Store) (actor target : UserId) : Option Conversation :=
  s.conversations.find? (fun c =>
    (c.user1_id == actor && c.user2_id == target)
      || (c.user1_id == target && c.user2_id == actor))

/-- The `like` / `super_like` branch once the guards and the debit are
passed. -/
def likeBranch (s1 : Store) (actor target : UserId) (action : Action) (now : Int)
    (score : Nat) (f : ActFaults) : ActResult × Store :=
  let superLike : Bool := action == Action.super_like
  let reciprocalMatch := findReciprocalMatch s1 actor target
  let isMatch : Bool := reciprocalMatch.isSome
  let updated : Option Store :=
    match reciprocalMatch with
    | some r =>
      if f.reciprocal_update_fails then none
      else
        some { s1 with matches_ := s1.matches_.map (fun m =>
          if m.id == r.id then
            { m with status := MatchStatus.matched,
                     matched_at := some now,
                     is_super_match := superLike || r.is_super_match }
          else m) }
    | none => some s1
  match updated with
  | none => (ActResult.failed, s1)
  | some s2 =>
    match findUser s2 actor with
    | none => (ActResult.failed, s2)
    | some _ =>
      if f.match_insert_fails then (ActResult.failed, s2)
      else
        let newMatch : Match :=
          { id := s2.next_id,
            user1_id := actor,
            user2_id := target,
            status := if isMatch then MatchStatus.matched else MatchStatus.pending,
            compatibility_score := some score,
            matched_at := if isMatch then some now else none,
            is_super_match := superLike,
            initiated_by := some actor }
        let s3 : Store :=
          { s2 with matches_ := s2.matches_ ++ [newMatch], next_id := s2.next_id + 1 }
        match reciprocalMatch with
        | none => (ActResult.ok false none, s3)
        | some r =>
          if f.conversation_insert_fails then (ActResult.failed, s3)
          else
            let conversation : Conversation :=
              { id := s3.next_id,
                match_id := r.id,
                user1_id := min actor target,
                user2_id := max actor target,
                status := ConversationStatus.active,
                last_message := none,
                last_message_at := none,
                last_message_by := none,
                unread_count_user1 := 0,
                unread_count_user2 := 0,
                is_blocked := false }
            let s4 : Store :=
              { s3 with conversations := s3.conversations ++ [conversation],
                        next_id := s3.next_id + 1 }
            match findConversation s4 actor target with
            | none => (ActResult.failed, s4)
            | some c => (ActResult.ok true (some c.id), s4)

/-- Route `POST /action` for the authenticated user `actor`: the response
and the store after it. `now` is the clock and `score` the value
`calculateCompatibilityScore` returns for the new row. -/
def matchAction (env : Env) (s : Store) (actor target : UserId) (action : Action)
    (now : Int) (score : Nat) (f : ActFaults) : ActResult × Store :=
  if target = actor then (ActResult.cannotActOnSelf, s)
  else
    match s.users.find? (fun u => u.id == target && u.is_active && !u.is_banned) with
    | none => (ActResult.targetNotFound, s)
    | some _ =>
      match findExistingMatch s actor target with
      | some _ => (ActResult.alreadyTaken, s)
      | none =>
        let superLikeCost := envOr env.SUPER_MATCH_COST_COINS 10
        let debit : Bool × Store :=
          if action = Action.super_like then
            deductCoins s actor superLikeCost TxType.super_match_cost Metadata.empty f.debit
          else (true, s)
        if !debit.1 then (ActResult.insufficientCoins superLikeCost, debit.2)
        else
          match action with
          | Action.pass =>
            if f.pass_insert_fails then (ActResult.failed, debit.2)
            else
              let passRow : Match :=
                { id := debit.2.next_id,
                  user1_id := actor,
                  user2_id := target,
                  status := MatchStatus.rejected,
                  compatibility_score := none,
                  matched_at := none,
                  is_super_match := false,
                  initiated_by := some actor }
              (ActResult.ok false none,
                { debit.2 with matches_ := debit.2.matches_ ++ [passRow],
                               next_id := debit.2.next_id + 1 })
          | _ => likeBranch debit.2 actor target action now score f

/-- One request of the match engine: who acts on whom, how, and what the
environment supplies. -/
structure ActRequest where
  actor : UserId
  target : UserId
  action : Action
  now : Int
  score : Nat
  faults : ActFaults
  deriving DecidableEq, Repr

/-- Run match actions one after the other. -/
def runActions (env : Env) (s : Store) : List ActRequest → Store
  | [] => s
  | r :: rs =>
    runActions env (matchAction env s r.actor r.target r.action r.now r.score r.faults).2 rs

/-- The rows of the unordered pair `a`, `b` in the matches table. -/
def pairRows (s : Store) (a b : UserId) : List Match :=
  s.matches_.filter (fun m =>
    (m.user1_id == a && m.user2_id == b) || (m.user1_id == b && m.user2_id == a))

/-- The rows holding the key `(user1, user2)` of the unique index of the
matches table, which is on the ordered pair `(user1_id, user2_id)`. An insert
with that key is accepted when there is none. -/
def indexedRows (s : Store) (user1 user2 : UserId) : List Match :=
  s.matches_.filter (fun m => m.user1_id == user1 && m.user2_id == user2)

/-- The checks of `POST /action` that answer before any write: the self
check, the target lookup and the `existingMatch` query. `none` when the
request passes them. -/
def actionGuards (s : Store) (actor target : UserId) : Option ActResult :=
  if target = actor then some ActResult.cannotActOnSelf
  else
    match s.users.find? (fun u => u.id == target && u.is_active && !u.is_banned) with
    | none => some ActResult.targetNotFound
    | some _ =>
      match findExistingMatch s actor target with
      | some _ => some ActResult.alreadyTaken
      | none => none

/-- The rest of `POST /action`, after the checks: the debit of a super like,
then the branch of the action. -/
def actionWrites (env : Env) (s : Store) (actor target : UserId) (action : Action)
    (now : Int) (score : Nat) (f : ActFaults) : ActResult × Store :=
  let superLikeCost := envOr env.SUPER_MATCH_COST_COINS 10
  let debit : Bool × Store :=
    if action = Action.super_like then
      deductCoins s actor superLikeCost TxType.super_match_cost Metadata.empty f.debit
    else (true, s)
  if !debit.1 then (ActResult.insufficientCoins superLikeCost, debit.2)
  else
    match action with
    | Action.pass =>
      if f.pass_insert_fails then (ActResult.failed, debit.2)
      else
        let passRow : Match :=
          { id := debit.2.next_id,
            user1_id := actor,
            user2_id := target,
            status := MatchStatus.rejected,
            compatibility_score := none,
            matched_at := none,
            is_super_match := false,
            initiated_by := some actor }
        (ActResult.ok false none,
          { debit.2 with matches_ := debit.2.matches_ ++ [passRow],
                         next_id := debit.2.next_id + 1 })
    | _ => likeBranch debit.2 actor target action now score f

/-- Two requests whose handlers overlap. The handler awaits each query and
holds no transaction or lock across them, so the checks of the second request
can read the store `s` before the first request has written; the first
request then runs to its end and the second goes on from the store the first
left. The answer of the second request and the store after both. -/
def overlappedActions (env : Env) (s : Store) (first second : ActRequest) :
    ActResult × Store :=
  let s1 := (matchAction env s first.actor first.target first.action first.now first.score
    first.faults).2
  match actionGuards s second.actor second.target with
  | some r => (r, s1)
  | none =>
    actionWrites env s1 second.actor second.target second.action second.now second.score
      second.faults

/-! ## Messaging channel (`socket/socketHandlers.js`) -/

/-- The conversation query of `send_message`: key `conversationId`, `userId`
a participant, `is_blocked` false. -/
def findOpenConversation (s : Store) (conversationId : ConversationId) (userId : UserId) :
    Option Conversation :=
  s.conversations.find? (fun c =>
    c.id == conversationId && (c.user1_id == userId || c.user2_id == userId) && !c.is_blocked)

/-- The conversation query of `mark_messages_read`: key `conversationId`,
`userId` a participant. -/
def findParticipantConversation (s : Store) (conversationId : ConversationId)
    (userId : UserId) : Option Conversation :=
  s.conversations.find? (fun c =>
    c.id == conversationId && (c.user1_id == userId || c.user2_id == userId))

/-- Which steps of one `send_message` throw. The writes are issued on `db`
directly, outside any transaction, except the debit. `fanout_fails` stands
for an error between the conversation update and the delivery update (the
read-back of the message, the room emit, the push notification). -/
structure SendFaults where
  debit : TrxFaults
  message_insert_fails : Bool
  conversation_update_fails : Bool
  fanout_fails : Bool
  delivered_update_fails : Bool
  deriving DecidableEq, Repr

/-- No step fails. -/
def SendFaults.ok : SendFaults :=
  { debit := TrxFaults.ok, message_insert_fails := false, conversation_update_fails := false,
    fanout_fails := false, delivered_update_fails := false }

/-- What `send_message` emits back to the sending socket: `message_sent`
with the message id (and status `delivered`), or an `error` event:
`Conversation not found or access denied`, `Insufficient coins` with the
required amount, or `Failed to send message`. -/
inductive SendResult where
  | message_sent (messageId : MessageId)
  | denied
  | insufficientCoins (required : Int)
  | failed
  deriving DecidableEq, Repr

/-- Where `send_message` stands before its delivery update: it has stopped
with a result, or it has inserted the message with the given key. -/
inductive SendProgress where
  | stopped (r : SendResult)
  | inserted (messageId : MessageId)
  deriving DecidableEq, Repr

/-- The row `send_message` inserts. -/
def newMessage (id : MessageId) (conversationId : ConversationId) (userId recipientId : UserId)
    (content : Option String) (type : MessageType) (messageCost : Int) (now : Int) : Message :=
  { id := id,
    conversation_id := conversationId,
    sender_id := userId,
    recipient_id := recipientId,
    content := content,
    type := type,
    status := MessageStatus.sent,
    delivered_at := none,
    read_at := none,
    reactions := [],
    is_edited := false,
    edited_at := none,
    edit_history := none,
    is_deleted := false,
    deleted_at := none,
    coins_cost := if type ≠ MessageType.system then messageCost else 0,
    created_at := now }

/-- The conversation update of `send_message`: the rows with key
`conversationId` get the last-message columns and the unread counter of the
other side plus one (`senderIsUser1` tells which side the sender is in the
row the handler read). `String.take` stands for `substring(0, 100)`. -/
def touchConversation (conversations : List Conversation) (conversationId : ConversationId)
    (userId : UserId) (senderIsUser1 : Bool) (text : String) (now : Int) : List Conversation :=
  conversations.map (fun c =>
    if c.id == conversationId then
      if senderIsUser1 then
        { c with last_message := some (text.take 100), last_message_at := some now,
                 last_message_by := some userId,
                 unread_count_user2 := c.unread_count_user2 + 1 }
      else
        { c with last_message := some (text.take 100), last_message_at := some now,
                 last_message_by := some userId,
                 unread_count_user1 := c.unread_count_user1 + 1 }
    else c)

/-- Handler `send_message` up to its delivery update: the access check, the
debit (unless the type is `system`), the insert of the message with status
`sent`, the conversation update and the fan-out. `content` is `none` when the
payload has no content (`content.substring` then throws). -/
def sendMessageWrites (env : Env) (s : Store) (userId : UserId)
    (conversationId : ConversationId) (content : Option String) (type : MessageType)
    (now : Int) (f : SendFaults) : SendProgress × Store :=
  match findOpenConversation s conversationId userId with
  | none => (SendProgress.stopped SendResult.denied, s)
  | some conversation =>
    let recipientId :=
      if conversation.user1_id = userId then conversation.user2_id else conversation.user1_id
    let messageCost := envOr env.MESSAGE_COST_COINS 1
    let debit : Bool × Store :=
      if type ≠ MessageType.system then
        deductCoins s userId messageCost TxType.message_cost
          { recipientId := some recipientId, messageId := none, matchId := none,
            paymentProvider := none, paymentTransactionId := none, paymentStatus := none }
          f.debit
      else (true, s)
    if !debit.1 then (SendProgress.stopped (SendResult.insufficientCoins messageCost), debit.2)
    else if f.message_insert_fails then (SendProgress.stopped SendResult.failed, debit.2)
    else
      let message :=
        newMessage debit.2.next_id conversationId userId recipientId content type messageCost now
      let s2 : Store :=
        { debit.2 with messages := debit.2.messages ++ [message],
                       next_id := debit.2.next_id + 1 }
      match content with
      | none => (SendProgress.stopped SendResult.failed, s2)
      | some text =>
        if f.conversation_update_fails then (SendProgress.stopped SendResult.failed, s2)
        else
          let senderIsUser1 : Bool := decide (conversation.user1_id = userId)
          let s3 : Store :=
            { s2 with conversations :=
                touchConversation s2.conversations conversationId userId senderIsUser1 text now }
          if f.fanout_fails then (SendProgress.stopped SendResult.failed, s3)
          else (SendProgress.inserted message.id, s3)

/-- The delivery update of `send_message`: the rows with key `messageId` get
status `delivered`, whatever their status was. -/
def markDelivered (s : Store) (messageId : MessageId) (now : Int) : Store :=
  { s with messages := s.messages.map (fun m =>
      if m.id == messageId then
        { m with status := MessageStatus.delivered, delivered_at := some now }
      else m) }

/-- Handler `send_message` run without interleaving. -/
def send_message (env : Env) (s : Store) (userId : UserId) (conversationId : ConversationId)
    (content : Option String) (type : MessageType) (now : Int) (f : SendFaults) :
    SendResult × Store :=
  match sendMessageWrites env s userId conversationId content type now f with
  | (SendProgress.stopped r, s1) => (r, s1)
  | (SendProgress.inserted messageId, s1) =>
    if f.delivered_update_fails then (SendResult.failed, s1)
    else (SendResult.message_sent messageId, markDelivered s1 messageId now)

/-- Which writes of one `mark_messages_read` throw. -/
structure MarkReadFaults where
  messages_update_fails : Bool
  conversation_update_fails : Bool
  deriving DecidableEq, Repr

/-- No write fails. -/
def MarkReadFaults.ok : MarkReadFaults :=
  { messages_update_fails := false, conversation_update_fails := false }

/-- What `mark_messages_read` emits back: `messages_marked_read`, or an
`error` event (`Conversation not found`, `Failed to mark messages as read`). -/
inductive MarkReadResult where
  | messages_marked_read
  | notFound
  | failed
  deriving DecidableEq, Repr

/-- The `where` clause of the read update: key among `messageIds`, recipient
`userId`, status other than `read`. -/
def readable (userId : UserId) (messageIds : List MessageId) (m : Message) : Bool :=
  messageIds.contains m.id && m.recipient_id == userId && m.status != MessageStatus.read

/-- The messages update of `mark_messages_read`. -/
def markRead (messages : List Message) (userId : UserId) (messageIds : List MessageId)
    (now : Int) : List Message :=
  messages.map (fun m =>
    if readable userId messageIds m then
      { m with status := MessageStatus.read, read_at := some now }
    else m)

/-- The conversation update of `mark_messages_read`: the rows with key
`conversationId` get the reader's own unread counter set to 0. -/
def resetUnread (conversations : List Conversation) (conversationId : ConversationId)
    (readerIsUser1 : Bool) : List Conversation :=
  conversations.map (fun c =>
    if c.id == conversationId then
      if readerIsUser1 then { c with unread_count_user1 := 0 }
      else { c with unread_count_user2 := 0 }
    else c)

/-- Handler `mark_messages_read`. -/
def mark_messages_read (s : Store) (userId : UserId) (conversationId : ConversationId)
    (messageIds : List MessageId) (now : Int) (f : MarkReadFaults) : MarkReadResult × Store :=
  match findParticipantConversation s conversationId userId with
  | none => (MarkReadResult.notFound, s)
  | some conversation =>
    if f.messages_update_fails then (MarkReadResult.failed, s)
    else
      let s1 : Store := { s with messages := markRead s.messages userId messageIds now }
      if f.conversation_update_fails then (MarkReadResult.failed, s1)
      else
        let readerIsUser1 : Bool := decide (conversation.user1_id = userId)
        (MarkReadResult.messages_marked_read,
          { s1 with conversations :=
              resetUnread s1.conversations conversationId readerIsUser1 })

/-- The other participant of a conversation, seen from `userId`. -/
def otherParticipant (c : Conversation) (userId : UserId) : UserId :=
  if c.user1_id = userId then c.user2_id else c.user1_id

/-- The metadata `send_message` passes to the ledger. -/
def messageMetadata (recipientId : UserId) : Metadata :=
  { recipientId := some recipientId, messageId := none, matchId := none,
    paymentProvider := none, paymentTransactionId := none, paymentStatus := none }

/-! ## Message routes (`routes/chat.js`) -/

/-- The edit window: one hour in milliseconds. -/
def maxEditTime : Int := 60 * 60 * 1000

/-- The validator of a body text: not empty and at most `max` characters. -/
def validText (text : String) (max : Nat) : Bool :=
  text != "" && decide (text.length ≤ max)

/-- The history array the edit route starts from: the parsed column, or the
empty array when the column is empty. -/
def parseEditHistory (m : Message) : List EditEntry :=
  match m.edit_history with
  | some h => h
  | none => []

/-- Route `PUT /messages/:messageId` for the authenticated user `userId`:
the status code and the store after it. -/
def editMessage (s : Store) (userId : UserId) (messageId : MessageId) (content : String)
    (now : Int) (update_fails : Bool) : Nat × Store :=
  if !validText content 1000 then (400, s)
  else
    match s.messages.find? (fun m =>
        m.id == messageId && m.sender_id == userId && !m.is_deleted) with
    | none => (404, s)
    | some message =>
      if now - message.created_at > maxEditTime then (400, s)
      else
        let editHistory :=
          parseEditHistory message ++ [{ content := message.content, edited_at := now }]
        if update_fails then (500, s)
        else
          (200, { s with messages := s.messages.map (fun m =>
            if m.id == messageId then
              { m with content := some content, is_edited := true, edited_at := some now,
                       edit_history := some editHistory }
            else m) })

/-- Route `DELETE /messages/:messageId`: the soft delete. -/
def deleteMessage (s : Store) (userId : UserId) (messageId : MessageId) (now : Int)
    (update_fails : Bool) : Nat × Store :=
  match s.messages.find? (fun m => m.id == messageId && m.sender_id == userId) with
  | none => (404, s)
  | some _ =>
    if update_fails then (500, s)
    else
      (200, { s with messages := s.messages.map (fun m =>
        if m.id == messageId then
          { m with is_deleted := true, deleted_at := some now, content := none }
        else m) })

/-- JavaScript `reactions[emoji]`. -/
def reactionsGet (reactions : Reactions) (emoji : String) : Option (List UserId) :=
  (reactions.find? (fun kv => kv.1 == emoji)).map (fun kv => kv.2)

/-- JavaScript `reactions[emoji] = users`: the key keeps its place, a new key
goes last. -/
def reactionsSet (reactions : Reactions) (emoji : String) (users : List UserId) : Reactions :=
  if (reactionsGet reactions emoji).isSome then
    reactions.map (fun kv => if kv.1 == emoji then (kv.1, users) else kv)
  else reactions ++ [(emoji, users)]

/-- JavaScript `delete reactions[emoji]`. -/
def reactionsDelete (reactions : Reactions) (emoji : String) : Reactions :=
  reactions.filter (fun kv => kv.1 != emoji)

/-- The users recorded under an emoji (none when the key is absent). -/
def reactors (reactions : Reactions) (emoji : String) : List UserId :=
  (reactionsGet reactions emoji).getD []

/-- The toggle of the reactions route on the parsed object. -/
def toggleReaction (reactions : Reactions) (emoji : String) (userId : UserId) : Reactions :=
  let r1 := if (reactionsGet reactions emoji).isNone then reactionsSet reactions emoji []
            else reactions
  let users := reactors r1 emoji
  if userId ∈ users then
    let rest := users.erase userId
    if rest.length = 0 then reactionsDelete r1 emoji
    else reactionsSet r1 emoji rest
  else reactionsSet r1 emoji (users ++ [userId])

/-- The message query of the reactions route: key `messageId`, joined to a
conversation that has `userId` as a participant, not deleted. -/
def findReactableMessage (s : Store) (userId : UserId) (messageId : MessageId) :
    Option Message :=
  s.messages.find? (fun m =>
    m.id == messageId
      && s.conversations.any (fun c =>
          c.id == m.conversation_id && (c.user1_id == userId || c.user2_id == userId))
      && !m.is_deleted)

/-- The property names every JavaScript object inherits that pass the emoji
validator (at most 10 characters). For such a name that is not a key of the
parsed object, `reactions[emoji]` is the inherited member, not an array. -/
def inheritedNames : List String := ["toString", "valueOf", "__proto__"]

/-- Route `POST /messages/:messageId/reactions`. When `emoji` is an inherited
name and not a key of the object, `reactions[emoji].indexOf` is not a function
and the handler throws. -/
def reactToMessage (s : Store) (userId : UserId) (messageId : MessageId) (emoji : String)
    (update_fails : Bool) : Nat × Store :=
  if !validText emoji 10 then (400, s)
  else
    match findReactableMessage s userId messageId with
    | none => (404, s)
    | some message =>
      if (reactionsGet message.reactions emoji).isNone ∧ emoji ∈ inheritedNames then (500, s)
      else
      let reactions := toggleReaction message.reactions emoji userId
      if update_fails then (500, s)
      else
        (200, { s with messages := s.messages.map (fun m =>
          if m.id == messageId then { m with reactions := reactions } else m) })

/-! ## Daily reward (`services/coinService.js`, `routes/coins.js`) -/

/-- Function `getDailyRewardAmount(loginStreak)`. -/
def getDailyRewardAmount (env : Env) (loginStreak : Int) : Int :=
  let baseReward := envOr env.DAILY_LOGIN_COINS 10
  let streakBonus := min (loginStreak * 2) 50
  baseReward + streakBonus

/-- Which writes of one daily-reward claim throw. -/
structure DailyRewardFaults where
  credit : TrxFaults
  update_fails : Bool
  deriving DecidableEq, Repr

/-- No write fails. -/
def DailyRewardFaults.ok : DailyRewardFaults :=
  { credit := TrxFaults.ok, update_fails := false }

/-- Route `POST /daily-reward` for the authenticated user `userId`: the
status code and the store after it. -/
def dailyReward (env : Env) (s : Store) (userId : UserId) (now : Int)
    (f : DailyRewardFaults) : Nat × Store :=
  match findUser s userId with
  | none => (404, s)
  | some user =>
    if !canClaimDailyReward user now then (400, s)
    else
      let baseReward := envOr env.DAILY_LOGIN_COINS 10
      let streakBonus := min (user.login_streak * 2) 50
      let totalReward := baseReward + streakBonus
      let r := addCoins s userId totalReward TxType.daily_reward Metadata.empty f.credit
      if !r.1 then (500, r.2)
      else if f.update_fails then (500, r.2)
      else
        (200, { r.2 with users := r.2.users.map (fun u =>
          if u.id == userId then { u with last_daily_reward := some now } else u) })

/-! ## Error payloads -/

/-- The object sent to the client on an error: its text and, when the keys
are present, `required`, `current` and `type`. -/
structure ErrorBody where
  message : String
  required : Option Int
  current : Option Int
  type : Option String
  deriving DecidableEq, Repr

/-- The `error` event `send_message` emits, `none` for `message_sent`. -/
def SendResult.errorBody : SendResult → Option ErrorBody
  | SendResult.message_sent _ => none
  | SendResult.denied =>
    some { message := "Conversation not found or access denied", required := none,
           current := none, type := none }
  | SendResult.insufficientCoins required =>
    some { message := "Insufficient coins", required := some required, current := none,
           type := some "insufficient_coins" }
  | SendResult.failed =>
    some { message := "Failed to send message", required := none, current := none,
           type := none }

/-- The json body of an error answer of the match action, `none` for 200. -/
def ActResult.errorBody : ActResult → Option ErrorBody
  | ActResult.ok _ _ => none
  | ActResult.cannotActOnSelf =>
    some { message := "Cannot perform action on yourself", required := none, current := none,
           type := none }
  | ActResult.targetNotFound =>
    some { message := "Target user not found", required := none, current := none,
           type := none }
  | ActResult.alreadyTaken =>
    some { message := "Action already taken on this user", required := none, current := none,
           type := none }
  | ActResult.insufficientCoins required =>
    some { message := "Insufficient coins for super like", required := some required,
           current := none, type := some "insufficient_coins" }
  | ActResult.failed =>
    some { message := "Failed to perform match action", required := none, current := none,
           type := none }

/-- What the `requireCoins(minCoins)` middleware does: it calls `next` (with
the balance it stored on the request), or answers 401, 402 with a body, or
500. -/
inductive RequireCoinsResult where
  | next (coin_balance : Int)
  | unauthenticated
  | insufficient (body : ErrorBody)
  | failed
  deriving DecidableEq, Repr

/-- Middleware `requireCoins(minCoins)`; `reqUser` is `req.user.id`, `none`
when the request has no user. A missing user row makes `user.coin_balance`
throw. -/
def requireCoins (s : Store) (reqUser : Option UserId) (minCoins : Int) : RequireCoinsResult :=
  match reqUser with
  | none => RequireCoinsResult.unauthenticated
  | some userId =>
    match findUser s userId with
    | none => RequireCoinsResult.failed
    | some user =>
      if user.coin_balance < minCoins then
        RequireCoinsResult.insufficient
          { message := "Insufficient coins", required := some minCoins,
            current := some user.coin_balance, type := none }
      else RequireCoinsResult.next user.coin_balance

/-! ## Presence registry (`config/redis.js`) -/

abbrev SocketId := Nat

/-- The keys of the key-value store the presence functions use: the hash
`online_users`, the set `active_users`, the sets `room:<roomId>` (kept as
pairs of a room and a member) and the sets `user_rooms:<userId>` (pairs of a
user and a room). A set holds each member once. -/
structure Redis where
  online_users : List (UserId × SocketId)
  active_users : List UserId
  room : List (ConversationId × UserId)
  user_rooms : List (UserId × ConversationId)
  deriving DecidableEq, Repr

/-- The store with no key. -/
def Redis.empty : Redis :=
  { online_users := [], active_users := [], room := [], user_rooms := [] }

/-- Redis `SADD`. -/
def sAdd {α : Type} [DecidableEq α] (set : List α) (x : α) : List α :=
  if x ∈ set then set else set ++ [x]

/-- Redis `SREM`. -/
def sRem {α : Type} [DecidableEq α] (set : List α) (x : α) : List α :=
  set.filter (fun y => y ≠ x)

/-- Redis `HSET`. -/
def hSet (hash : List (UserId × SocketId)) (field : UserId) (value : SocketId) :
    List (UserId × SocketId) :=
  hash.filter (fun kv => kv.1 ≠ field) ++ [(field, value)]

/-- Redis `HDEL`. -/
def hDel (hash : List (UserId × SocketId)) (field : UserId) : List (UserId × SocketId) :=
  hash.filter (fun kv => kv.1 ≠ field)

/-- Function `setUserOnline(userId, socketId)`. -/
def setUserOnline (r : Redis) (userId : UserId) (socketId : SocketId) : Redis :=
  { r with online_users := hSet r.online_users userId socketId,
           active_users := sAdd r.active_users userId }

/-- Function `setUserOffline(userId)`. -/
def setUserOffline (r : Redis) (userId : UserId) : Redis :=
  { r with online_users := hDel r.online_users userId,
           active_users := sRem r.active_users userId }

/-- Function `isUserOnline(userId)`. -/
def isUserOnline (r : Redis) (userId : UserId) : Bool :=
  decide (userId ∈ r.active_users)

/-- Function `joinRoom(userId, roomId)`. -/
def joinRoom (r : Redis) (userId : UserId) (roomId : ConversationId) : Redis :=
  { r with room := sAdd r.room (roomId, userId),
           user_rooms := sAdd r.user_rooms (userId, roomId) }

/-- Function `leaveRoom(userId, roomId)`. -/
def leaveRoom (r : Redis) (userId : UserId) (roomId : ConversationId) : Redis :=
  { r with room := sRem r.room (roomId, userId),
           user_rooms := sRem r.user_rooms (userId, roomId) }

/-- Function `getRoomUsers(roomId)`. -/
def getRoomUsers (r : Redis) (roomId : ConversationId) : List UserId :=
  (r.room.filter (fun p => p.1 = roomId)).map (fun p => p.2)

/-- A call of the presence registry. -/
inductive PresenceCall where
  | setUserOnline (userId : UserId) (socketId : SocketId)
  | setUserOffline (userId : UserId)
  | joinRoom (userId : UserId) (roomId : ConversationId)
  | leaveRoom (userId : UserId) (roomId : ConversationId)
  deriving DecidableEq, Repr

/-- Run one call. -/
def PresenceCall.run (r : Redis) : PresenceCall → Redis
  | PresenceCall.setUserOnline userId socketId => ChatApp.setUserOnline r userId socketId
  | PresenceCall.setUserOffline userId => ChatApp.setUserOffline r userId
  | PresenceCall.joinRoom userId roomId => ChatApp.joinRoom r userId roomId
  | PresenceCall.leaveRoom userId roomId => ChatApp.leaveRoom r userId roomId

/-- Run calls one after the other. -/
def runPresence (r : Redis) : List PresenceCall → Redis
  | [] => r
  | c :: cs => runPresence (c.run r) cs

/-- What one call says about user `u` being online: `some true` for
`setUserOnline` of `u`, `some false` for `setUserOffline` of `u`. -/
def PresenceCall.online (u : UserId) : PresenceCall → Option Bool
  | PresenceCall.setUserOnline userId _ => if userId = u then some true else none
  | PresenceCall.setUserOffline userId => if userId = u then some false else none
  | _ => none

/-- What one call says about user `u` being in room `room`. -/
def PresenceCall.inRoom (u : UserId) (room : ConversationId) : PresenceCall → Option Bool
  | PresenceCall.joinRoom userId roomId =>
    if userId = u ∧ roomId = room then some true else none
  | PresenceCall.leaveRoom userId roomId =>
    if userId = u ∧ roomId = room then some false else none
  | _ => none

/-- The most recent call of the sequence that says something, under `about`:
`none` when no call does. -/
def mostRecent (about : PresenceCall → Option Bool) : List PresenceCall → Option Bool
  | [] => none
  | c :: cs =>
    match mostRecent about cs with
    | some b => some b
    | none => about c

/-! ## Compatibility score (`routes/matching.js`) -/

/-- The columns of a `users` row that `calculateCompatibilityScore` reads:
the year of `date_of_birth`, the parsed `interests` array, the coordinates and
`last_active` (milliseconds); `none` for an empty column. -/
structure Profile where
  birth_year : Option Int
  interests : Option (List String)
  latitude : Option ℚ
  longitude : Option ℚ
  last_active : Option Int
  deriving DecidableEq, Repr

/-- JavaScript `Math.round`: the nearest integer, halves going up. -/
def jsRound (x : ℚ) : Int := ⌊x + 1 / 2⌋

/-- JavaScript truthiness of an optional number: present and not zero. -/
def truthy (x : Option ℚ) : Bool :=
  match x with
  | some v => decide (v ≠ 0)
  | none => false

/-- The age part of the score; `year` is the current year. -/
def agePoints (year : Int) (user1 user2 : Profile) : Int :=
  match user1.birth_year, user2.birth_year with
  | some y1, some y2 =>
    let ageDiff := |(year - y1) - (year - y2)|
    if ageDiff ≤ 2 then 30 else if ageDiff ≤ 5 then 20 else if ageDiff ≤ 10 then 10 else 0
  | _, _ => 0

/-- The interests of `user1` that `user2` also has, compared after
`toLowerCase`. -/
def commonInterests (toLowerCase : String → String) (interests1 interests2 : List String) :
    List String :=
  interests1.filter (fun interest =>
    interests2.any (fun i => toLowerCase i == toLowerCase interest))

/-- The interests part of the score. -/
def interestPoints (toLowerCase : String → String) (user1 user2 : Profile) : Int :=
  match user1.interests, user2.interests with
  | some interests1, some interests2 =>
    min (((commonInterests toLowerCase interests1 interests2).length : Int) * 10) 40
  | _, _ => 0

/-- The location part of the score. `calculateDistance` is the haversine
function of the source, computed in floating point; `none` is `NaN`. -/
def locationPoints (calculateDistance : ℚ → ℚ → ℚ → ℚ → Option ℚ) (user1 user2 : Profile) :
    Int :=
  if truthy user1.latitude && truthy user1.longitude && truthy user2.latitude
      && truthy user2.longitude then
    match calculateDistance (user1.latitude.getD 0) (user1.longitude.getD 0)
        (user2.latitude.getD 0) (user2.longitude.getD 0) with
    | none => 0
    | some distance =>
      if distance ≤ 10 then 20 else if distance ≤ 50 then 15
      else if distance ≤ 100 then 10 else if distance ≤ 500 then 5 else 0
  else 0

/-- One day in milliseconds. -/
def dayMs : Int := 1000 * 60 * 60 * 24

/-- The activity part of the score; `now` is `Date.now()`. The quotient
`(now - last_active) / dayMs` is compared through its numerator. -/
def activityPoints (now : Int) (user2 : Profile) : Int :=
  match user2.last_active with
  | some lastActive =>
    if now - lastActive ≤ dayMs then 10 else if now - lastActive ≤ 7 * dayMs then 5 else 0
  | none => 0

/-- Function `calculateCompatibilityScore(user1, user2)`, with the clock
(`year`, `now`), the value `jitter` of `Math.random() * 10`, and the two
library functions as parameters. -/
def calculateCompatibilityScore (calculateDistance : ℚ → ℚ → ℚ → ℚ → Option ℚ)
    (toLowerCase : String → String) (year now : Int) (jitter : ℚ)
    (user1 user2 : Profile) : Int :=
  let score := agePoints year user1 user2 + interestPoints toLowerCase user1 user2
    + locationPoints calculateDistance user1 user2 + activityPoints now user2
  min (jsRound ((score : ℚ) + jitter)) 100

/-! ## Call signaling (`socket/socketHandlers.js`) -/

abbrev CallId := Nat

/-- The `callType` of a call. The handlers compare it with `'video'` only, so
every other value behaves as `voice`. -/
inductive CallType where
  | video
  | voice
  deriving DecidableEq, Repr

/-- The socket.io rooms the handlers use: `user_<id>`, `conversation_<id>`
and `call_<callId>` (the call id of the payload, `none` when it has none). -/
inductive Room where
  | user (userId : UserId)
  | conversation (conversationId : ConversationId)
  | call (callId : Option CallId)
  deriving DecidableEq, Repr

/-- A connected socket: its id, the authenticated user, the call fields the
handlers attach to it (`none` when unset) and the rooms it has joined. The
three call fields are the call session. -/
structure Socket where
  id : SocketId
  userId : UserId
  callId : Option CallId
  callType : Option CallType
  callCost : Option Int
  rooms : List Room
  deriving DecidableEq, Repr

/-- The reason carried by a `call_rejected` event. -/
inductive RejectReason where
  | recipientDoesNotAllow (callType : CallType)
  | insufficientCoins
  | given (reason : String)
  deriving DecidableEq, Repr

/-- The reason carried by a `call_ended` event. -/
inductive EndReason where
  | callerHasInsufficientCoins
  | ended_by_user
  | disconnected
  deriving DecidableEq, Repr

/-- The events of the call handlers. -/
inductive Event where
  | error (body : ErrorBody)
  | call_rejected (reason : RejectReason)
  | incoming_call (callId : CallId) (callType : CallType) (conversationId : ConversationId)
      (caller : UserId)
  | call_initiated (callId : CallId) (callType : CallType)
  | call_accepted (callId : Option CallId) (participants : List UserId)
  | call_ended (endedBy : Option UserId) (reason : EndReason)
  deriving DecidableEq, Repr

/-- An emit: to one socket (`socket.emit`) or to a room (`io.to(room).emit`). -/
inductive Emit where
  | toSocket (socketId : SocketId) (event : Event)
  | toRoom (room : Room) (event : Event)
  deriving DecidableEq, Repr

/-- The persistent store together with the connected sockets
(`io.sockets.sockets`). -/
structure Hub where
  store : Store
  sockets : List Socket
  deriving DecidableEq, Repr

/-- An error event with a text only. -/
def plainError (message : String) : Event :=
  Event.error { message := message, required := none, current := none, type := none }

/-- The cost of a call of the given type. -/
def callCostOf (env : Env) : CallType → Int
  | CallType.video => envOr env.VIDEO_CALL_COST_COINS 5
  | CallType.voice => envOr env.VOICE_CALL_COST_COINS 3

/-- Assignment of the three call fields on the socket with the given id. -/
def setCallFields (sockets : List Socket) (socketId : SocketId) (callId : Option CallId)
    (callType : Option CallType) (callCost : Option Int) : List Socket :=
  sockets.map (fun k =>
    if k.id == socketId then
      { k with callId := callId, callType := callType, callCost := callCost }
    else k)

/-- Handler `initiate_video_call` on the socket `socketId`; `callId` is the
uuid the handler generates. A missing recipient or caller row makes the
handler throw (`Failed to initiate call`). -/
def initiate_video_call (env : Env) (h : Hub) (socketId : SocketId)
    (conversationId : ConversationId) (callType : CallType) (callId : CallId) :
    List Emit × Hub :=
  match h.sockets.find? (fun k => k.id == socketId) with
  | none => ([], h)
  | some socket =>
    let userId := socket.userId
    match findOpenConversation h.store conversationId userId with
    | none => ([Emit.toSocket socketId (plainError "Conversation not found")], h)
    | some conversation =>
      let recipientId :=
        if conversation.user1_id = userId then conversation.user2_id else conversation.user1_id
      match findUser h.store recipientId with
      | none => ([Emit.toSocket socketId (plainError "Failed to initiate call")], h)
      | some recipient =>
        let allowsCalls :=
          match callType with
          | CallType.video => recipient.allow_video_calls
          | CallType.voice => recipient.allow_voice_calls
        if !allowsCalls then
          ([Emit.toSocket socketId
              (Event.call_rejected (RejectReason.recipientDoesNotAllow callType))], h)
        else
          let callCost := callCostOf env callType
          match findUser h.store userId with
          | none => ([Emit.toSocket socketId (plainError "Failed to initiate call")], h)
          | some userBalance =>
            if userBalance.coin_balance < callCost then
              ([Emit.toSocket socketId (Event.error
                  { message := "Insufficient coins for call", required := some callCost,
                    current := some userBalance.coin_balance,
                    type := some "insufficient_coins" })], h)
            else
              let sockets :=
                setCallFields h.sockets socketId (some callId) (some callType) (some callCost)
              ([Emit.toRoom (Room.user recipientId)
                  (Event.incoming_call callId callType conversationId userId),
                Emit.toSocket socketId (Event.call_initiated callId callType)],
               { h with sockets := sockets })

/-- The `find` of `accept_call` and `reject_call`: the first connected socket
whose `callId` equals the one of the payload (both may be undefined). -/
def findCallerSocket (h : Hub) (callId : Option CallId) : Option Socket :=
  h.sockets.find? (fun k => k.callId == callId)

/-- The debit of `accept_call`: the caller's user, the cost held by the
caller's socket, the type by its call type. With no cost on the socket the
ledger write is refused and the debit fails. -/
def acceptDebit (s : Store) (callerSocket : Socket) (f : TrxFaults) : Bool × Store :=
  match callerSocket.callCost with
  | some callCost =>
    deductCoins s callerSocket.userId callCost
      (if callerSocket.callType = some CallType.video then TxType.video_call_cost
       else TxType.voice_call_cost)
      Metadata.empty f
  | none => (false, s)

/-- Handler `accept_call` on the socket `socketId`. -/
def accept_call (h : Hub) (socketId : SocketId) (callId : Option CallId) (f : TrxFaults) :
    List Emit × Hub :=
  match h.sockets.find? (fun k => k.id == socketId) with
  | none => ([], h)
  | some socket =>
    match findCallerSocket h callId with
    | none => ([Emit.toSocket socketId (plainError "Call not found")], h)
    | some callerSocket =>
      let debit := acceptDebit h.store callerSocket f
      if !debit.1 then
        ([Emit.toSocket callerSocket.id (Event.call_rejected RejectReason.insufficientCoins),
          Emit.toSocket socketId
            (Event.call_ended none EndReason.callerHasInsufficientCoins)],
         { h with store := debit.2 })
      else
        let callRoom := Room.call callId
        ([Emit.toRoom callRoom
            (Event.call_accepted callId [callerSocket.userId, socket.userId])],
         { store := debit.2,
           sockets := h.sockets.map (fun k =>
             if k.id == socketId || k.id == callerSocket.id then
               { k with rooms := sAdd k.rooms callRoom }
             else k) })

/-- Handler `reject_call`. -/
def reject_call (h : Hub) (callId : Option CallId) (reason : String) : List Emit × Hub :=
  match findCallerSocket h callId with
  | none => ([], h)
  | some callerSocket =>
    ([Emit.toSocket callerSocket.id (Event.call_rejected (RejectReason.given reason))],
     { h with sockets := setCallFields h.sockets callerSocket.id none none none })

/-- Handler `end_call` on the socket `socketId`: every socket in the call
room leaves it and loses its call fields. -/
def end_call (h : Hub) (socketId : SocketId) (callId : Option CallId) : List Emit × Hub :=
  match h.sockets.find? (fun k => k.id == socketId) with
  | none => ([], h)
  | some socket =>
    let callRoom := Room.call callId
    ([Emit.toRoom callRoom (Event.call_ended (some socket.userId) EndReason.ended_by_user)],
     { h with sockets := h.sockets.map (fun k =>
        if callRoom ∈ k.rooms then
          { k with rooms := sRem k.rooms callRoom, callId := none, callType := none,
                   callCost := none }
        else k) })

/-- The `disconnect` of the socket `socketId`. The socket has left
`io.sockets.sockets` when the handler runs; the handler itself deletes no call
field. Its presence calls act on the key-value store and are left out. -/
def disconnect (h : Hub) (socketId : SocketId) : List Emit × Hub :=
  match h.sockets.find? (fun k => k.id == socketId) with
  | none => ([], h)
  | some socket =>
    ((if socket.callId.isSome then
        [Emit.toRoom (Room.call socket.callId)
          (Event.call_ended (some socket.userId) EndReason.disconnected)]
      else []),
     { h with sockets := h.sockets.filter (fun k => k.id != socketId) })

/-- Whether an emit is an `incoming_call`. -/
def Emit.isIncomingCall : Emit → Bool
  | Emit.toRoom _ (Event.incoming_call _ _ _ _) => true
  | Emit.toSocket _ (Event.incoming_call _ _ _ _) => true
  | _ => false

/-- Whether an emit is a `call_accepted`. -/
def Emit.isCallAccepted : Emit → Bool
  | Emit.toRoom _ (Event.call_accepted _ _) => true
  | Emit.toSocket _ (Event.call_accepted _ _) => true
  | _ => false

/-! ## Sample data -/

/-- An active user with the given key, e-mail and balance. -/
def sampleUser (id : UserId) (email : String) (balance : Int) : User :=
  { id := id, email := email, is_active := true, is_banned := false,
    coin_balance := balance, total_coins_earned := balance, total_coins_spent := 0,
    login_streak := 0, last_login := none, last_active := none,
    last_daily_reward := none, allow_video_calls := true, allow_voice_calls := true }

/-- Two users: user 1 holds 100 coins, user 2 holds 5. -/
def sampleStore : Store :=
  { Store.empty with
    users := [sampleUser 1 "a@example.com" 100, sampleUser 2 "b@example.com" 5] }

/-- Three calls on user 1 of the sample store (balance 100): a debit of 30, a
debit of 500 that fails, a credit of 7. -/
def sampleCalls : List LedgerCall :=
  [LedgerCall.debit 30 TxType.message_cost Metadata.empty TrxFaults.ok,
   LedgerCall.debit 500 TxType.gift_cost Metadata.empty TrxFaults.ok,
   LedgerCall.credit 7 TxType.ad_reward Metadata.empty TrxFaults.ok]

/-- The row of user 1 as the login request reads it from the sample store. -/
def loginSnapshot : User := sampleUser 1 "a@example.com" 100

/-- The sample store after user 1 was debited 10 coins for a message. -/
def storeAfterDebit : Store :=
  (deductCoins sampleStore 1 10 TxType.message_cost Metadata.empty TrxFaults.ok).2

/-- The store after the login request that read `loginSnapshot` from the
sample store writes its daily reward, the debit above committed in between. -/
def storeAfterLogin : Store := loginWrites Env.unset storeAfterDebit loginSnapshot 1000

/-- A Stripe payment intent of user 1 for 300 coins. -/
def samplePaymentIntent : PaymentIntent := { id := "pi_1", user_id := 1, coins := 300 }

/-- The sample store after user 1 confirmed the purchase `GPA.1234`. -/
def storeAfterPurchase : Store :=
  (purchaseConfirm sampleStore 1 CoinPackage.medium "google_play" "GPA.1234" TrxFaults.ok).2

/-- The sample store after user 1 liked user 2. -/
def storeAfterFirstLike : Store :=
  (matchAction Env.unset sampleStore 1 2 Action.like 1000 50 ActFaults.ok).2

/-- User 1 likes user 2. -/
def likeOf1 : ActRequest :=
  { actor := 1, target := 2, action := Action.like, now := 1000, score := 50,
    faults := ActFaults.ok }

/-- User 2 likes user 1. -/
def likeOf2 : ActRequest :=
  { actor := 2, target := 1, action := Action.like, now := 2000, score := 50,
    faults := ActFaults.ok }

/-- User 2 likes user 1; the insert of the conversation is refused. -/
def likeOf2NoConversation : ActRequest :=
  { likeOf2 with faults := { ActFaults.ok with conversation_insert_fails := true } }

/-- Three match actions on the sample store: 1 likes 2, 2 likes 1, 1 passes
on 2. -/
def sampleActions : List ActRequest :=
  [{ actor := 1, target := 2, action := Action.like, now := 1000, score := 50,
     faults := ActFaults.ok },
   { actor := 2, target := 1, action := Action.like, now := 2000, score := 50,
     faults := ActFaults.ok },
   { actor := 1, target := 2, action := Action.pass, now := 3000, score := 50,
     faults := ActFaults.ok }]

/-- The match-insert of the action throws; every other write goes through. -/
def matchInsertFails : ActFaults := { ActFaults.ok with match_insert_fails := true }

/-- Users A (key 1, 10 coins) and B (key 2, 50 coins). -/
def scenarioStore : Store :=
  { Store.empty with
    users := [sampleUser 1 "a@example.com" 10, sampleUser 2 "b@example.com" 50] }

/-- The scenario store after B liked A. -/
def storeAfterBLikesA : Store :=
  (matchAction Env.unset scenarioStore 2 1 Action.like 1000 50 ActFaults.ok).2

/-- An active conversation with the given key between two users. -/
def sampleConversation (id : ConversationId) (user1 user2 : UserId) : Conversation :=
  { id := id, match_id := 0, user1_id := user1, user2_id := user2,
    status := ConversationStatus.active, last_message := none, last_message_at := none,
    last_message_by := none, unread_count_user1 := 0, unread_count_user2 := 0,
    is_blocked := false }

/-- Users 1 (10 coins), 2 (0 coins) and 3 (10 coins); conversation 7 between
users 1 and 2; conversation 8 between users 1 and 3, blocked. -/
def chatStore : Store :=
  { Store.empty with
    users := [sampleUser 1 "a@example.com" 10, sampleUser 2 "b@example.com" 0,
              sampleUser 3 "c@example.com" 10],
    conversations := [sampleConversation 7 1 2,
                      { sampleConversation 8 1 3 with is_blocked := true }],
    next_id := 100 }

/-- The status of the first message with the given key. -/
def statusOf (s : Store) (messageId : MessageId) : Option MessageStatus :=
  (s.messages.find? (fun m => m.id == messageId)).map (fun m => m.status)

/-- The chat store after user 1's `send_message` inserted message 100 and
updated the conversation, before its delivery update. -/
def storeAfterInsert : Store :=
  (sendMessageWrites Env.unset chatStore 1 7 (some "hi") MessageType.text 1000 SendFaults.ok).2

/-- Then user 2, who received `new_message`, marks message 100 read. -/
def storeAfterRead : Store :=
  (mark_messages_read storeAfterInsert 2 7 [100] 2000 MarkReadFaults.ok).2

/-- Then the delivery update of user 1's `send_message` runs. -/
def storeAfterDelivery : Store := markDelivered storeAfterRead 100 3000

/-- A text message created at time 0, with the given key, conversation,
sender, recipient and status. -/
def sampleMessage (id : MessageId) (conversationId : ConversationId)
    (sender recipient : UserId) (status : MessageStatus) : Message :=
  { id := id, conversation_id := conversationId, sender_id := sender,
    recipient_id := recipient, content := some "hello", type := MessageType.text,
    status := status, delivered_at := none, read_at := none, reactions := [],
    is_edited := false, edited_at := none, edit_history := none, is_deleted := false,
    deleted_at := none, coins_cost := 1, created_at := 0 }

/-- Conversation 7 between users 1 and 2 with two unread messages for user 2
and one for user 1: messages 11 (delivered) and 12 (already read) from 1 to 2,
message 13 (delivered) from 2 to 1. -/
def inboxStore : Store :=
  { Store.empty with
    users := [sampleUser 1 "a@example.com" 10, sampleUser 2 "b@example.com" 0],
    conversations :=
      [{ sampleConversation 7 1 2 with unread_count_user1 := 1, unread_count_user2 := 2 }],
    messages := [sampleMessage 11 7 1 2 MessageStatus.delivered,
                 sampleMessage 12 7 1 2 MessageStatus.read,
                 sampleMessage 13 7 2 1 MessageStatus.delivered],
    next_id := 100 }

/-- The message query of the edit route: key `messageId`, sender `userId`,
not deleted. -/
def findEditableMessage (s : Store) (userId : UserId) (messageId : MessageId) :
    Option Message :=
  s.messages.find? (fun m => m.id == messageId && m.sender_id == userId && !m.is_deleted)

/-- The inbox store with reactions on message 11: a thumb from users 1 and
2, a heart from user 1. -/
def reactionStore : Store :=
  { inboxStore with
    messages := [{ sampleMessage 11 7 1 2 MessageStatus.delivered with
                   reactions := [("thumb", [1, 2]), ("heart", [1])] }] }

/-- A connected socket of a user, with no call fields, in its user room. -/
def sampleSocket (id : SocketId) (userId : UserId) : Socket :=
  { id := id, userId := userId, callId := none, callType := none, callCost := none,
    rooms := [Room.user userId] }

/-- The chat store (users 1, 2, 3 with 10, 0, 10 coins; conversation 7
between users 1 and 2) with one socket per user: 11, 12, 13. -/
def callHub : Hub :=
  { store := chatStore,
    sockets := [sampleSocket 11 1, sampleSocket 12 2, sampleSocket 13 3] }

/-- A user with a login streak of 30 who has never claimed a reward. -/
def streakStore : Store :=
  { Store.empty with
    users := [{ sampleUser 1 "a@example.com" 100 with login_streak := 30 }] }

/-- A profile born in 1990 with two interests, located, active at time 0. -/
def profileA : Profile :=
  { birth_year := some 1990, interests := some ["Music", "Chess"], latitude := some 1,
    longitude := some 36, last_active := some 0 }

/-- A profile born in 1993 sharing one interest up to case, located, active
at time 0. -/
def profileB : Profile :=
  { birth_year := some 1993, interests := some ["music", "golf"], latitude := some 2,
    longitude := some 37, last_active := some 0 }

/-- Lower-casing on the interests of the sample profiles. -/
def lowerSample (x : String) : String :=
  if x = "Music" then "music" else if x = "Chess" then "chess" else x

/-- A distance function answering 40 km for every pair of points. -/
def fortyKm : ℚ → ℚ → ℚ → ℚ → Option ℚ := fun _ _ _ _ => some 40

/-- The call hub after user 1 (socket 11, 10 coins) rang user 2 with a video
call (cost 5) in conversation 7; the call id is 500. -/
def ringingHub : Hub :=
  (initiate_video_call Env.unset callHub 11 7 CallType.video 500).2

/-- The ringing hub after user 1 spent 8 of the 10 coins on something else. -/
def spentHub : Hub :=
  { ringingHub with
    store := (deductCoins ringingHub.store 1 8 TxType.gift_cost Metadata.empty
      TrxFaults.ok).2 }

/-- Then user 2 (socket 12) accepts: the debit of 5 is refused. -/
def refusedHub : Hub := (accept_call spentHub 12 (some 500) TrxFaults.ok).2

/-- Then user 1 is credited 10 coins. -/
def refilledHub : Hub :=
  { refusedHub with
    store := (addCoins refusedHub.store 1 10 TxType.purchase Metadata.empty
      TrxFaults.ok).2 }

/-- The ringing hub after user 2 (socket 12) accepted call 500. -/
def acceptedHub : Hub := (accept_call ringingHub 12 (some 500) TrxFaults.ok).2

/-- The call fields of the first socket holding the given call id. -/
def sessionOf (h : Hub) (callId : Option CallId) :
    Option (SocketId × Option CallType × Option Int) :=
  (findCallerSocket h callId).map (fun k => (k.id, k.callType, k.callCost))

/-- The type and amount of every row of the transaction history. -/
def ledgerRows (s : Store) : List (UserId × TxType × Int) :=
  s.coin_transactions.map (fun t => (t.user_id, t.type, t.amount))

/-! ## Lemmas on the store -/

theorem find_map_update (l : List User) (userId : UserId) (g : User → User)
    (hg : ∀ u, (g u).id = u.id) (user : User)
    (h : l.find? (fun u => u.id == userId) = some user) :
    (l.map (fun u => if u.id == userId then g u else u)).find? (fun u => u.id == userId)
      = some (g user) := by
  induction l with
  | nil => simp at h
  | cons x xs ih =>
    rw [List.map_cons, List.find?_cons]
    by_cases hx : (x.id == userId) = true
    · rw [List.find?_cons, hx] at h
      rw [if_pos hx]
      have hgx : ((g x).id == userId) = true := by rw [hg]; exact hx
      rw [hgx]
      injection h with h
      rw [h]
    · have hx2 : (x.id == userId) = false := Bool.eq_false_iff.mpr hx
      rw [List.find?_cons, hx2] at h
      rw [if_neg hx, hx2]
      exact ih h

theorem find_map_none (l : List User) (userId : UserId) (g : User → User)
    (h : l.find? (fun u => u.id == userId) = none) :
    (l.map (fun u => if u.id == userId then g u else u)).find? (fun u => u.id == userId)
      = none := by
  induction l with
  | nil => rfl
  | cons x xs ih =>
    rw [List.map_cons, List.find?_cons]
    by_cases hx : (x.id == userId) = true
    · rw [List.find?_cons, hx] at h
      exact absurd h (by simp)
    · have hx2 : (x.id == userId) = false := Bool.eq_false_iff.mpr hx
      rw [List.find?_cons, hx2] at h
      rw [if_neg hx, hx2]
      exact ih h

/-- A failed debit leaves the store as it was. -/
theorem deductCoins_false (s : Store) (userId : UserId) (amount : Int) (type : TxType)
    (metadata : Metadata) (f : TrxFaults)
    (h : (deductCoins s userId amount type metadata f).1 = false) :
    (deductCoins s userId amount type metadata f).2 = s := by
  unfold deductCoins at h ⊢
  split
  · rfl
  · split
    · rfl
    · split
      · rfl
      · split
        · rfl
        · split
          · rfl
          · simp_all

/-- A failed credit leaves the store as it was. -/
theorem addCoins_false (s : Store) (userId : UserId) (amount : Int) (type : TxType)
    (metadata : Metadata) (f : TrxFaults)
    (h : (addCoins s userId amount type metadata f).1 = false) :
    (addCoins s userId amount type metadata f).2 = s := by
  unfold addCoins at h ⊢
  split
  · rfl
  · split
    · rfl
    · split
      · rfl
      · split
        · rfl
        · simp_all

/-- What a successful debit did. -/
theorem deductCoins_true (s : Store) (userId : UserId) (amount : Int) (type : TxType)
    (metadata : Metadata) (f : TrxFaults)
    (h : (deductCoins s userId amount type metadata f).1 = true) :
    ∃ user, findUser s userId = some user ∧ amount ≤ user.coin_balance
      ∧ (deductCoins s userId amount type metadata f).2 =
          { s with
            users := debitUsers s.users userId (user.coin_balance - amount) amount,
            coin_transactions :=
              s.coin_transactions ++ [debitRow userId user amount type metadata] } := by
  unfold deductCoins at h ⊢
  split at h
  · simp at h
  · rename_i user hu
    rw [hu]
    by_cases hlt : user.coin_balance < amount
    · simp [hlt] at h
    · by_cases h1 : f.update_fails = true
      · simp [hlt, h1] at h
      · by_cases h2 : f.insert_fails = true
        · simp [hlt, h1, h2] at h
        · by_cases h3 : f.commit_fails = true
          · simp [hlt, h1, h2, h3] at h
          · refine ⟨user, rfl, not_lt.mp hlt, ?_⟩
            simp only [hlt, h1, h2, h3]
            rfl

/-- What a successful credit did. -/
theorem addCoins_true (s : Store) (userId : UserId) (amount : Int) (type : TxType)
    (metadata : Metadata) (f : TrxFaults)
    (h : (addCoins s userId amount type metadata f).1 = true) :
    ∃ user, findUser s userId = some user
      ∧ (addCoins s userId amount type metadata f).2 =
          { s with
            users := creditUsers s.users userId (user.coin_balance + amount) amount,
            coin_transactions :=
              s.coin_transactions ++ [creditRow userId user amount type metadata] } := by
  unfold addCoins at h ⊢
  split at h
  · simp at h
  · rename_i user hu
    rw [hu]
    by_cases h1 : f.update_fails = true
    · simp [h1] at h
    · by_cases h2 : f.insert_fails = true
      · simp [h1, h2] at h
      · by_cases h3 : f.commit_fails = true
        · simp [h1, h2, h3] at h
        · refine ⟨user, rfl, ?_⟩
          simp only [h1, h2, h3]
          rfl

theorem getCoinBalance_debitUsers (s s1 : Store) (userId : UserId) (user : User)
    (newBalance amount : Int) (hu : findUser s userId = some user)
    (h1 : s1.users = debitUsers s.users userId newBalance amount) :
    getCoinBalance s1 userId = some newBalance := by
  unfold getCoinBalance findUser
  unfold findUser at hu
  rw [h1]
  unfold debitUsers
  rw [find_map_update s.users userId
    (fun u => { u with coin_balance := newBalance,
                       total_coins_spent := u.total_coins_spent + amount })
    (fun _ => rfl) user hu]
  rfl

theorem getCoinBalance_creditUsers (s s1 : Store) (userId : UserId) (user : User)
    (newBalance amount : Int) (hu : findUser s userId = some user)
    (h1 : s1.users = creditUsers s.users userId newBalance amount) :
    getCoinBalance s1 userId = some newBalance := by
  unfold getCoinBalance findUser
  unfold findUser at hu
  rw [h1]
  unfold creditUsers
  rw [find_map_update s.users userId
    (fun u => { u with coin_balance := newBalance,
                       total_coins_earned := u.total_coins_earned + amount })
    (fun _ => rfl) user hu]
  rfl

/-! ## Coin ledger: properties -/

/-- C1: for every user and amount, when the user's `coin_balance` is below
the amount, `deductCoins` returns failure and leaves the store as it was: the
user's row (balance and `total_coins_spent` included) is unchanged and the
`coin_transactions` table has no new row. -/
theorem deductCoins_insufficient_funds (s : Store) (userId : UserId) (user : User)
    (amount : Int) (type : TxType) (metadata : Metadata) (f : TrxFaults)
    (hu : findUser s userId = some user) (hlt : user.coin_balance < amount) :
    (deductCoins s userId amount type metadata f).1 = false
      ∧ (deductCoins s userId amount type metadata f).2 = s
      ∧ findUser (deductCoins s userId amount type metadata f).2 userId = some user
      ∧ (deductCoins s userId amount type metadata f).2.coin_transactions
          = s.coin_transactions := by
  have h : deductCoins s userId amount type metadata f = (false, s) := by
    unfold deductCoins
    rw [hu]
    simp [hlt]
  rw [h]
  exact ⟨rfl, rfl, hu, rfl⟩

theorem deductCoins_insufficient_funds_witness :
    (sampleUser 2 "b@example.com" 5).coin_balance < 10
      ∧ (deductCoins sampleStore 2 10 TxType.message_cost Metadata.empty TrxFaults.ok).1 = false
      ∧ (deductCoins sampleStore 2 10 TxType.message_cost Metadata.empty TrxFaults.ok).2
          = sampleStore :=
  have h := deductCoins_insufficient_funds sampleStore 2 (sampleUser 2 "b@example.com" 5) 10
    TxType.message_cost Metadata.empty TrxFaults.ok (by decide) (by decide)
  ⟨by decide, h.1, h.2.1⟩

/-- C2: every successful `deductCoins` or `addCoins` call appends exactly one
`coin_transactions` row, for that user, with `amount` the signed amount
(`-amount` for a debit, `amount` for a credit), `balance_before` the user's
`coin_balance` before the call, `balance_after = balance_before + amount`,
and `balance_after` the user's `coin_balance` after the call. -/
theorem ledger_success_appends_one_row (s : Store) (userId : UserId) (amount : Int)
    (type : TxType) (metadata : Metadata) (f : TrxFaults) :
    ((deductCoins s userId amount type metadata f).1 = true →
      ∃ row : CoinTransaction,
        (deductCoins s userId amount type metadata f).2.coin_transactions
            = s.coin_transactions ++ [row]
          ∧ row.user_id = userId ∧ row.amount = -amount
          ∧ getCoinBalance s userId = some row.balance_before
          ∧ row.balance_after = row.balance_before + row.amount
          ∧ getCoinBalance (deductCoins s userId amount type metadata f).2 userId
              = some row.balance_after)
    ∧ ((addCoins s userId amount type metadata f).1 = true →
      ∃ row : CoinTransaction,
        (addCoins s userId amount type metadata f).2.coin_transactions
            = s.coin_transactions ++ [row]
          ∧ row.user_id = userId ∧ row.amount = amount
          ∧ getCoinBalance s userId = some row.balance_before
          ∧ row.balance_after = row.balance_before + row.amount
          ∧ getCoinBalance (addCoins s userId amount type metadata f).2 userId
              = some row.balance_after) := by
  constructor
  · intro h
    obtain ⟨user, hu, _, hs⟩ := deductCoins_true s userId amount type metadata f h
    refine ⟨debitRow userId user amount type metadata, ?_, rfl, rfl, ?_, ?_, ?_⟩
    · rw [hs]
    · unfold getCoinBalance
      rw [hu]
      rfl
    · show user.coin_balance - amount = user.coin_balance + -amount
      ring
    · exact getCoinBalance_debitUsers s _ userId user _ amount hu (by rw [hs]; rfl)
  · intro h
    obtain ⟨user, hu, hs⟩ := addCoins_true s userId amount type metadata f h
    refine ⟨creditRow userId user amount type metadata, ?_, rfl, rfl, ?_, rfl, ?_⟩
    · rw [hs]
    · unfold getCoinBalance
      rw [hu]
      rfl
    · exact getCoinBalance_creditUsers s _ userId user _ amount hu (by rw [hs]; rfl)

theorem ledger_success_appends_one_row_witness :
    (∃ row : CoinTransaction,
        (deductCoins sampleStore 1 10 TxType.message_cost Metadata.empty
            TrxFaults.ok).2.coin_transactions = sampleStore.coin_transactions ++ [row]
          ∧ row.user_id = 1 ∧ row.amount = -10
          ∧ getCoinBalance sampleStore 1 = some row.balance_before
          ∧ row.balance_after = row.balance_before + row.amount
          ∧ getCoinBalance (deductCoins sampleStore 1 10 TxType.message_cost Metadata.empty
              TrxFaults.ok).2 1 = some row.balance_after)
    ∧ (∃ row : CoinTransaction,
        (addCoins sampleStore 1 10 TxType.ad_reward Metadata.empty
            TrxFaults.ok).2.coin_transactions = sampleStore.coin_transactions ++ [row]
          ∧ row.user_id = 1 ∧ row.amount = 10
          ∧ getCoinBalance sampleStore 1 = some row.balance_before
          ∧ row.balance_after = row.balance_before + row.amount
          ∧ getCoinBalance (addCoins sampleStore 1 10 TxType.ad_reward Metadata.empty
              TrxFaults.ok).2 1 = some row.balance_after) :=
  ⟨(ledger_success_appends_one_row sampleStore 1 10 TxType.message_cost Metadata.empty
      TrxFaults.ok).1 (by decide),
   (ledger_success_appends_one_row sampleStore 1 10 TxType.ad_reward Metadata.empty
      TrxFaults.ok).2 (by decide)⟩

/-- Appending a row of the user that starts at the stored balance and ends
at the new stored balance keeps the history consistent. -/
theorem historyConsistent_append (s s1 : Store) (userId : UserId) (b : Int)
    (row : CoinTransaction) (hb : getCoinBalance s userId = some b)
    (hc : historyConsistent s userId) (hrow : row.user_id = userId)
    (hbefore : row.balance_before = b)
    (hct : s1.coin_transactions = s.coin_transactions ++ [row])
    (hafter : getCoinBalance s1 userId = some row.balance_after) :
    historyConsistent s1 userId := by
  have hh : historyOf s1 userId = historyOf s userId ++ [row] := by
    unfold historyOf
    rw [hct, List.filter_append]
    have : (row.user_id == userId) = true := by simp [hrow]
    simp [List.filter_cons, this]
  unfold historyConsistent
  rw [hh]
  constructor
  · refine List.Chain'.append hc.1 (List.chain'_singleton row) ?_
    intro x hx y hy
    have hx2 := hc.2 x hx
    rw [hb] at hx2
    simp at hy
    injection hx2 with hx2
    rw [← hy, hbefore, hx2]
  · intro t ht
    rw [List.getLast?_concat] at ht
    simp at ht
    rw [← ht]
    exact hafter

/-- One ledger call: the balance moves by the signed amount exactly when the
call succeeds, and a consistent history stays consistent. -/
theorem ledgerCall_step (s : Store) (userId : UserId) (c : LedgerCall) (b : Int)
    (hb : getCoinBalance s userId = some b) (hc : historyConsistent s userId) :
    getCoinBalance (c.run s userId).2 userId
        = some (b + (if (c.run s userId).1 then c.signedAmount else 0))
      ∧ historyConsistent (c.run s userId).2 userId := by
  cases c with
  | debit amount type metadata f =>
    show getCoinBalance (deductCoins s userId amount type metadata f).2 userId
        = some (b + (if (deductCoins s userId amount type metadata f).1 then -amount else 0))
      ∧ historyConsistent (deductCoins s userId amount type metadata f).2 userId
    cases hres : (deductCoins s userId amount type metadata f).1 with
    | false =>
      rw [deductCoins_false s userId amount type metadata f hres]
      simpa using ⟨hb, hc⟩
    | true =>
      obtain ⟨user, hu, _, hs⟩ := deductCoins_true s userId amount type metadata f hres
      have hbu : b = user.coin_balance := by
        unfold getCoinBalance at hb
        rw [hu] at hb
        simp at hb
        exact hb.symm
      have hafter : getCoinBalance (deductCoins s userId amount type metadata f).2 userId
          = some (user.coin_balance - amount) :=
        getCoinBalance_debitUsers s _ userId user _ amount hu (by rw [hs])
      constructor
      · rw [hafter, hbu]
        simp
        ring
      · exact historyConsistent_append s _ userId b (debitRow userId user amount type metadata)
          hb hc rfl hbu.symm (by rw [hs]) hafter
  | credit amount type metadata f =>
    show getCoinBalance (addCoins s userId amount type metadata f).2 userId
        = some (b + (if (addCoins s userId amount type metadata f).1 then amount else 0))
      ∧ historyConsistent (addCoins s userId amount type metadata f).2 userId
    cases hres : (addCoins s userId amount type metadata f).1 with
    | false =>
      rw [addCoins_false s userId amount type metadata f hres]
      simpa using ⟨hb, hc⟩
    | true =>
      obtain ⟨user, hu, hs⟩ := addCoins_true s userId amount type metadata f hres
      have hbu : b = user.coin_balance := by
        unfold getCoinBalance at hb
        rw [hu] at hb
        simp at hb
        exact hb.symm
      have hafter : getCoinBalance (addCoins s userId amount type metadata f).2 userId
          = some (user.coin_balance + amount) :=
        getCoinBalance_creditUsers s _ userId user _ amount hu (by rw [hs])
      constructor
      · rw [hafter, hbu]
        simp
      · exact historyConsistent_append s _ userId b (creditRow userId user amount type metadata)
          hb hc rfl hbu.symm (by rw [hs]) hafter

/-- C3: for any sequence of `deductCoins` / `addCoins` calls on one user, run
in serial order from a store where the user has balance `b` and a consistent
history, the final `coin_balance` is `b` plus the sum of the signed amounts of
the calls that succeeded, and in the resulting history every row's
`balance_after` equals the next row's `balance_before` (the last one being the
final balance). -/
theorem ledger_sequence_balance (calls : List LedgerCall) (s : Store) (userId : UserId)
    (b : Int) (hb : getCoinBalance s userId = some b) (hc : historyConsistent s userId) :
    getCoinBalance (runCalls s userId calls) userId
        = some (b + successfulSum s userId calls)
      ∧ List.Chain' (fun x y : CoinTransaction => x.balance_after = y.balance_before)
          (historyOf (runCalls s userId calls) userId)
      ∧ historyConsistent (runCalls s userId calls) userId := by
  induction calls generalizing s b with
  | nil =>
    simp only [runCalls, successfulSum, add_zero]
    exact ⟨hb, hc.1, hc⟩
  | cons c cs ih =>
    obtain ⟨h1, h2⟩ := ledgerCall_step s userId c b hb hc
    obtain ⟨h3, h4, h5⟩ := ih (c.run s userId).2 _ h1 h2
    refine ⟨?_, h4, h5⟩
    simp only [runCalls, successfulSum]
    rw [h3, add_assoc]

theorem sampleStore_historyConsistent : historyConsistent sampleStore 1 := by
  constructor
  · exact List.chain'_nil
  · intro t ht
    simp [historyOf, sampleStore, Store.empty] at ht

theorem ledger_sequence_balance_witness :
    getCoinBalance sampleStore 1 = some 100
      ∧ getCoinBalance (runCalls sampleStore 1 sampleCalls) 1
          = some (100 + successfulSum sampleStore 1 sampleCalls)
      ∧ successfulSum sampleStore 1 sampleCalls = -23
      ∧ (historyOf (runCalls sampleStore 1 sampleCalls) 1).length = 2 :=
  ⟨by decide,
   (ledger_sequence_balance sampleCalls sampleStore 1 100 (by decide)
      sampleStore_historyConsistent).1,
   by decide, by decide⟩

/-- C4: when a store write inside `deductCoins` or `addCoins` fails (the
balance update, the row insert or the commit), the call returns failure and
the store is exactly the one before the call; and whatever the cause, a call
that returns failure has left the store unchanged, so no balance change
exists without its row and no row without its balance change. -/
theorem ledger_write_failure_rolls_back (s : Store) (userId : UserId) (amount : Int)
    (type : TxType) (metadata : Metadata) (f : TrxFaults) :
    ((f.update_fails = true ∨ f.insert_fails = true ∨ f.commit_fails = true) →
        deductCoins s userId amount type metadata f = (false, s)
          ∧ addCoins s userId amount type metadata f = (false, s))
      ∧ ((deductCoins s userId amount type metadata f).1 = false →
          (deductCoins s userId amount type metadata f).2 = s)
      ∧ ((addCoins s userId amount type metadata f).1 = false →
          (addCoins s userId amount type metadata f).2 = s) := by
  refine ⟨?_, deductCoins_false s userId amount type metadata f,
    addCoins_false s userId amount type metadata f⟩
  intro hf
  constructor
  · unfold deductCoins
    rcases hf with h | h | h <;> (repeat' split) <;> simp_all
  · unfold addCoins
    rcases hf with h | h | h <;> (repeat' split) <;> simp_all

theorem ledger_write_failure_rolls_back_witness :
    (deductCoins sampleStore 1 10 TxType.message_cost Metadata.empty
        { update_fails := false, insert_fails := true, commit_fails := false }
        = (false, sampleStore)
      ∧ addCoins sampleStore 1 10 TxType.message_cost Metadata.empty
        { update_fails := false, insert_fails := true, commit_fails := false }
        = (false, sampleStore))
      ∧ (deductCoins sampleStore 1 10 TxType.message_cost Metadata.empty
          { update_fails := true, insert_fails := false, commit_fails := false }).2
          = sampleStore
      ∧ (addCoins sampleStore 1 10 TxType.ad_reward Metadata.empty
          { update_fails := false, insert_fails := false, commit_fails := true }).2
          = sampleStore :=
  ⟨(ledger_write_failure_rolls_back sampleStore 1 10 TxType.message_cost Metadata.empty
      { update_fails := false, insert_fails := true, commit_fails := false }).1
      (Or.inr (Or.inl rfl)),
   (ledger_write_failure_rolls_back sampleStore 1 10 TxType.message_cost Metadata.empty
      { update_fails := true, insert_fails := false, commit_fails := false }).2.1
      (by decide),
   (ledger_write_failure_rolls_back sampleStore 1 10 TxType.ad_reward Metadata.empty
      { update_fails := false, insert_fails := false, commit_fails := true }).2.2
      (by decide)⟩

/-- C5: the login route writes the coin fields itself, from the row it read
at the start of the request, without calling `addCoins`: a login on the
sample store takes user 1 from 100 to 112 coins. When a debit of 10 commits
between that read (balance 100) and the write, login still stores
`100 + 12 = 112` although the balance was 90: the debit is lost, where
`addCoins` on the same store gives 102, and the history holds a row whose
`balance_after` (90) is not the next row's `balance_before` (100). -/
theorem login_reward_overwrites_balance :
    loginFindUser sampleStore "a@example.com" = some loginSnapshot
      ∧ getCoinBalance (login Env.unset sampleStore "a@example.com" true 1000).2 1 = some 112
      ∧ getCoinBalance storeAfterDebit 1 = some 90
      ∧ getCoinBalance storeAfterLogin 1 = some 112
      ∧ getCoinBalance (addCoins storeAfterDebit 1 12 TxType.daily_reward Metadata.empty
          TrxFaults.ok).2 1 = some 102
      ∧ (historyOf storeAfterLogin 1).map (fun t => (t.amount, t.balance_before, t.balance_after))
          = [(-10, 100, 90), (12, 100, 112)]
      ∧ ¬ historyConsistent storeAfterLogin 1 := by
  have hrows : (historyOf storeAfterLogin 1).map
      (fun t => (t.amount, t.balance_before, t.balance_after))
        = [(-10, 100, 90), (12, 100, 112)] := by decide
  refine ⟨by decide, by decide, by decide, by decide, by decide, hrows, ?_⟩
  intro h
  have hchain := (List.chain'_map (R := fun x y : Int × Int × Int => x.2.2 = y.2.1)
    (fun t : CoinTransaction => (t.amount, t.balance_before, t.balance_after))).2 h.1
  rw [hrows] at hchain
  simp at hchain

/-! ## Coin purchase: properties -/

/-- A purchase that went through left a row carrying its transaction id. -/
theorem processCoinPurchase_leaves_row (s : Store) (userId : UserId) (coinAmount : Int)
    (paymentProvider transactionId : String) (f : TrxFaults) (hid : transactionId ≠ "")
    (h : (processCoinPurchase s userId coinAmount paymentProvider transactionId f).1 = true) :
    (findPaymentTransaction
      (processCoinPurchase s userId coinAmount paymentProvider transactionId f).2
      transactionId).isSome = true := by
  unfold processCoinPurchase at h ⊢
  obtain ⟨user, _, hs⟩ := addCoins_true _ _ _ _ _ _ h
  rw [hs]
  unfold findPaymentTransaction
  rw [List.find?_isSome]
  refine ⟨creditRow userId user coinAmount TxType.purchase
    { recipientId := none, messageId := none, matchId := none,
      paymentProvider := some paymentProvider,
      paymentTransactionId := some transactionId,
      paymentStatus := some "completed" }, ?_, ?_⟩
  · simp
  · simp [creditRow, orNull, hid]

/-- Once a row carries the transaction id, the confirmation route changes
nothing and never answers 200. -/
theorem purchaseConfirm_already_processed (s : Store) (userId : UserId) (pkg : CoinPackage)
    (payment_method transaction_id : String) (f : TrxFaults)
    (h : (findPaymentTransaction s transaction_id).isSome = true) :
    (purchaseConfirm s userId pkg payment_method transaction_id f).2 = s
      ∧ ((purchaseConfirm s userId pkg payment_method transaction_id f).1 = 409
          ∨ (purchaseConfirm s userId pkg payment_method transaction_id f).1 = 400) := by
  unfold purchaseConfirm
  split
  · exact ⟨rfl, Or.inr rfl⟩
  · split
    · exact ⟨rfl, Or.inr rfl⟩
    · split
      · exact ⟨rfl, Or.inl rfl⟩
      · rename_i hnone
        rw [hnone] at h
        simp at h

/-- Once a row carries the payment intent id, the Stripe webhook changes
nothing. -/
theorem stripeWebhook_already_processed (s : Store) (secretConfigured : Bool)
    (paymentIntent : PaymentIntent) (f : TrxFaults)
    (h : (findPaymentTransaction s paymentIntent.id).isSome = true) :
    (stripeWebhook s secretConfigured
      (some (StripeEvent.payment_intent_succeeded paymentIntent)) f).2 = s := by
  cases hfind : findPaymentTransaction s paymentIntent.id with
  | none => rw [hfind] at h; simp at h
  | some t =>
    unfold stripeWebhook
    cases secretConfigured <;> simp [hfind]

/-- C6: replaying a purchase with a payment transaction id that was already
credited never credits a second time. After a confirmation that answered 200,
the same confirmation answers 409 (conflict) and leaves the store (balances
and transaction history) unchanged; after a Stripe `payment_intent.succeeded`
event that changed the store, the same event leaves the store unchanged; and
in general, once a `coin_transactions` row carries the id, neither route
changes the store. -/
theorem purchase_replay_never_credits_twice (s : Store) (userId : UserId)
    (pkg : CoinPackage) (payment_method transaction_id : String)
    (paymentIntent : PaymentIntent) (f1 f2 : TrxFaults) :
    ((purchaseConfirm s userId pkg payment_method transaction_id f1).1 = 200 →
        purchaseConfirm (purchaseConfirm s userId pkg payment_method transaction_id f1).2
            userId pkg payment_method transaction_id f2
          = (409, (purchaseConfirm s userId pkg payment_method transaction_id f1).2))
      ∧ (paymentIntent.id ≠ "" →
          (stripeWebhook s true
              (some (StripeEvent.payment_intent_succeeded paymentIntent)) f1).2 ≠ s →
          stripeWebhook
              (stripeWebhook s true
                (some (StripeEvent.payment_intent_succeeded paymentIntent)) f1).2
              true (some (StripeEvent.payment_intent_succeeded paymentIntent)) f2
            = (200, (stripeWebhook s true
                (some (StripeEvent.payment_intent_succeeded paymentIntent)) f1).2))
      ∧ ((findPaymentTransaction s transaction_id).isSome = true →
          (purchaseConfirm s userId pkg payment_method transaction_id f2).2 = s
            ∧ (stripeWebhook s true (some (StripeEvent.payment_intent_succeeded
                { paymentIntent with id := transaction_id })) f2).2 = s) := by
  refine ⟨?_, ?_, ?_⟩
  · intro h
    unfold purchaseConfirm at h
    by_cases hpm : payment_method = "google_play" ∨ payment_method = "app_store"
    · by_cases hid : transaction_id = ""
      · simp [hpm, hid] at h
      · cases hfind : findPaymentTransaction s transaction_id with
        | some t => simp [hpm, hid, hfind] at h
        | none =>
          cases hr : (processCoinPurchase s userId (pkg.coins + pkg.bonus) payment_method
              transaction_id f1).1 with
          | false => simp [hpm, hid, hfind, hr] at h
          | true =>
            have hrow := processCoinPurchase_leaves_row s userId (pkg.coins + pkg.bonus)
              payment_method transaction_id f1 hid hr
            have hs1 : (purchaseConfirm s userId pkg payment_method transaction_id f1).2
                = (processCoinPurchase s userId (pkg.coins + pkg.bonus) payment_method
                    transaction_id f1).2 := by
              unfold purchaseConfirm
              simp [hpm, hid, hfind, hr]
            rw [hs1]
            generalize (processCoinPurchase s userId (pkg.coins + pkg.bonus) payment_method
              transaction_id f1).2 = s1 at hrow
            unfold purchaseConfirm
            cases hfind1 : findPaymentTransaction s1 transaction_id with
            | none => rw [hfind1] at hrow; simp at hrow
            | some t => simp [hpm, hid]
    · simp [hpm] at h
  · intro hid hchanged
    unfold stripeWebhook at hchanged
    cases hfind : findPaymentTransaction s paymentIntent.id with
    | some t => simp [hfind] at hchanged
    | none =>
      cases hr : (processCoinPurchase s paymentIntent.user_id paymentIntent.coins "stripe"
          paymentIntent.id f1).1 with
      | false =>
        exfalso
        apply hchanged
        simp only [hfind, Bool.not_true, Bool.false_eq_true, if_false]
        unfold processCoinPurchase at hr ⊢
        exact addCoins_false _ _ _ _ _ _ hr
      | true =>
        have hrow := processCoinPurchase_leaves_row s paymentIntent.user_id
          paymentIntent.coins "stripe" paymentIntent.id f1 hid hr
        have hs1 : (stripeWebhook s true
            (some (StripeEvent.payment_intent_succeeded paymentIntent)) f1).2
              = (processCoinPurchase s paymentIntent.user_id paymentIntent.coins "stripe"
                  paymentIntent.id f1).2 := by
          unfold stripeWebhook
          simp [hfind]
        rw [hs1]
        generalize (processCoinPurchase s paymentIntent.user_id paymentIntent.coins "stripe"
          paymentIntent.id f1).2 = s1 at hrow
        unfold stripeWebhook
        cases hfind1 : findPaymentTransaction s1 paymentIntent.id with
        | none => rw [hfind1] at hrow; simp at hrow
        | some t => simp [hfind1]
  · intro h
    exact ⟨(purchaseConfirm_already_processed s userId pkg payment_method transaction_id f2 h).1,
      stripeWebhook_already_processed s true { paymentIntent with id := transaction_id } f2 h⟩

theorem purchase_replay_never_credits_twice_witness :
    ((purchaseConfirm sampleStore 1 CoinPackage.medium "google_play" "GPA.1234" TrxFaults.ok).1
        = 200
      ∧ getCoinBalance
          (purchaseConfirm sampleStore 1 CoinPackage.medium "google_play" "GPA.1234"
            TrxFaults.ok).2 1 = some 400
      ∧ purchaseConfirm
          (purchaseConfirm sampleStore 1 CoinPackage.medium "google_play" "GPA.1234"
            TrxFaults.ok).2 1 CoinPackage.medium "google_play" "GPA.1234" TrxFaults.ok
        = (409, (purchaseConfirm sampleStore 1 CoinPackage.medium "google_play" "GPA.1234"
            TrxFaults.ok).2))
      ∧ (getCoinBalance (stripeWebhook sampleStore true
            (some (StripeEvent.payment_intent_succeeded samplePaymentIntent))
            TrxFaults.ok).2 1 = some 400
        ∧ stripeWebhook
            (stripeWebhook sampleStore true
              (some (StripeEvent.payment_intent_succeeded samplePaymentIntent))
              TrxFaults.ok).2
            true (some (StripeEvent.payment_intent_succeeded samplePaymentIntent))
            TrxFaults.ok
          = (200, (stripeWebhook sampleStore true
              (some (StripeEvent.payment_intent_succeeded samplePaymentIntent))
              TrxFaults.ok).2))
      ∧ ((purchaseConfirm storeAfterPurchase 2 CoinPackage.mega "app_store" "GPA.1234"
            TrxFaults.ok).2 = storeAfterPurchase
        ∧ (stripeWebhook storeAfterPurchase true (some (StripeEvent.payment_intent_succeeded
            { samplePaymentIntent with id := "GPA.1234" })) TrxFaults.ok).2
            = storeAfterPurchase) :=
  ⟨⟨by decide, by decide,
    (purchase_replay_never_credits_twice sampleStore 1 CoinPackage.medium "google_play"
      "GPA.1234" samplePaymentIntent TrxFaults.ok TrxFaults.ok).1 (by decide)⟩,
   ⟨by decide,
    (purchase_replay_never_credits_twice sampleStore 1 CoinPackage.medium "google_play"
      "GPA.1234" samplePaymentIntent TrxFaults.ok TrxFaults.ok).2.1 (by decide) (by decide)⟩,
   (purchase_replay_never_credits_twice storeAfterPurchase 2 CoinPackage.mega "app_store"
      "GPA.1234" samplePaymentIntent TrxFaults.ok TrxFaults.ok).2.2 (by decide)⟩

/-- C7 as stated fails: `deductCoins` gives the caller the same answer,
`false`, for a user that does not exist (user 99) and for an existing user
whose balance is below the amount (user 2, balance 5, amount 10), and on
success it answers `true`, not the new balance. -/
theorem deductCoins_failures_same_answer :
    findUser sampleStore 99 = none
      ∧ findUser sampleStore 2 = some (sampleUser 2 "b@example.com" 5)
      ∧ deductCoins sampleStore 99 10 TxType.message_cost Metadata.empty TrxFaults.ok
          = (false, sampleStore)
      ∧ deductCoins sampleStore 2 10 TxType.message_cost Metadata.empty TrxFaults.ok
          = (false, sampleStore)
      ∧ (deductCoins sampleStore 1 10 TxType.message_cost Metadata.empty TrxFaults.ok).1
          = true := by
  decide

/-- C7 amended: `deductCoins` returns a success flag only. For a user that
does not exist and for an existing user whose balance is below the amount it
returns `false` with the store unchanged, the same answer in both cases; when
it returns `true` the user existed with a balance of at least the amount and
the stored balance is the old one minus the amount. -/
theorem deductCoins_returns_flag (s : Store) (userId : UserId) (amount : Int)
    (type : TxType) (metadata : Metadata) (f : TrxFaults) :
    (findUser s userId = none →
        deductCoins s userId amount type metadata f = (false, s))
      ∧ (∀ user, findUser s userId = some user → user.coin_balance < amount →
          deductCoins s userId amount type metadata f = (false, s))
      ∧ ((deductCoins s userId amount type metadata f).1 = true →
          ∃ user, findUser s userId = some user ∧ amount ≤ user.coin_balance
            ∧ getCoinBalance (deductCoins s userId amount type metadata f).2 userId
                = some (user.coin_balance - amount)) := by
  refine ⟨?_, ?_, ?_⟩
  · intro hu
    unfold deductCoins
    rw [hu]
  · intro user hu hlt
    unfold deductCoins
    rw [hu]
    simp [hlt]
  · intro h
    obtain ⟨user, hu, hle, hs⟩ := deductCoins_true s userId amount type metadata f h
    exact ⟨user, hu, hle, getCoinBalance_debitUsers s _ userId user _ amount hu (by rw [hs])⟩

theorem deductCoins_returns_flag_witness :
    deductCoins sampleStore 99 10 TxType.message_cost Metadata.empty TrxFaults.ok
        = (false, sampleStore)
      ∧ deductCoins sampleStore 2 10 TxType.message_cost Metadata.empty TrxFaults.ok
        = (false, sampleStore)
      ∧ ∃ user, findUser sampleStore 1 = some user ∧ (10 : Int) ≤ user.coin_balance
          ∧ getCoinBalance (deductCoins sampleStore 1 10 TxType.message_cost Metadata.empty
              TrxFaults.ok).2 1 = some (user.coin_balance - 10) :=
  ⟨(deductCoins_returns_flag sampleStore 99 10 TxType.message_cost Metadata.empty
      TrxFaults.ok).1 (by decide),
   (deductCoins_returns_flag sampleStore 2 10 TxType.message_cost Metadata.empty
      TrxFaults.ok).2.1 (sampleUser 2 "b@example.com" 5) (by decide) (by decide),
   (deductCoins_returns_flag sampleStore 1 10 TxType.message_cost Metadata.empty
      TrxFaults.ok).2.2 (by decide)⟩

/-! ## Match engine: properties -/

/-- The debit touches the `users` and `coin_transactions` tables only. -/
theorem deductCoins_frame (s : Store) (userId : UserId) (amount : Int) (type : TxType)
    (metadata : Metadata) (f : TrxFaults) :
    (deductCoins s userId amount type metadata f).2.matches_ = s.matches_
      ∧ (deductCoins s userId amount type metadata f).2.conversations = s.conversations
      ∧ (deductCoins s userId amount type metadata f).2.next_id = s.next_id := by
  cases h : (deductCoins s userId amount type metadata f).1 with
  | false =>
    rw [deductCoins_false s userId amount type metadata f h]
    exact ⟨rfl, rfl, rfl⟩
  | true =>
    obtain ⟨user, _, _, hs⟩ := deductCoins_true s userId amount type metadata f h
    rw [hs]
    exact ⟨rfl, rfl, rfl⟩

/-- The reciprocal query looks among the rows the guard query already looked
at: when the guard found none, it finds none. -/
theorem findReciprocalMatch_none (s s1 : Store) (actor target : UserId)
    (hm : s1.matches_ = s.matches_) (h : findExistingMatch s actor target = none) :
    findReciprocalMatch s1 actor target = none := by
  unfold findReciprocalMatch
  unfold findExistingMatch at h
  rw [hm]
  rw [List.find?_eq_none] at h ⊢
  intro m hmem hp
  apply h m hmem
  simp only [Bool.and_eq_true, Bool.or_eq_true] at hp ⊢
  exact Or.inr hp.1

/-- The like branch with no reciprocal row: nothing changes or one row from
the actor to the target is appended; conversations are untouched. -/
theorem likeBranch_no_reciprocal (s1 : Store) (actor target : UserId) (action : Action)
    (now : Int) (score : Nat) (f : ActFaults)
    (h : findReciprocalMatch s1 actor target = none) :
    (likeBranch s1 actor target action now score f = (ActResult.failed, s1)
      ∨ ∃ row : Match, row.user1_id = actor ∧ row.user2_id = target
          ∧ row.status = MatchStatus.pending
          ∧ likeBranch s1 actor target action now score f
              = (ActResult.ok false none,
                  { s1 with matches_ := s1.matches_ ++ [row], next_id := s1.next_id + 1 })) := by
  unfold likeBranch
  simp only [h]
  cases hfu : findUser s1 actor with
  | none => exact Or.inl rfl
  | some u =>
    by_cases hf : f.match_insert_fails = true
    · left
      simp [hf]
    · right
      refine ⟨{ id := s1.next_id, user1_id := actor, user2_id := target,
                status := MatchStatus.pending, compatibility_score := some score,
                matched_at := none, is_super_match := action == Action.super_like,
                initiated_by := some actor }, rfl, rfl, rfl, ?_⟩
      simp [hf]

/-- What one match action does to the store: nothing, or only the debit of a
super like, or the debit (if any) and one new row from the actor to the
target, which exists only when the pair had no row. -/
theorem matchAction_effect (env : Env) (s : Store) (actor target : UserId) (action : Action)
    (now : Int) (score : Nat) (f : ActFaults) :
    ((matchAction env s actor target action now score f).2.matches_ = s.matches_
        ∧ (matchAction env s actor target action now score f).2.conversations
            = s.conversations)
      ∨ (target ≠ actor ∧ findExistingMatch s actor target = none
          ∧ (matchAction env s actor target action now score f).2.conversations
              = s.conversations
          ∧ ∃ row : Match, row.user1_id = actor ∧ row.user2_id = target
              ∧ (matchAction env s actor target action now score f).2.matches_
                  = s.matches_ ++ [row]) := by
  unfold matchAction
  by_cases hself : target = actor
  · left
    simp [hself]
  · simp only [hself, if_false]
    cases htarget : s.users.find? (fun u => u.id == target && u.is_active && !u.is_banned) with
    | none => exact Or.inl ⟨rfl, rfl⟩
    | some t =>
      cases hex : findExistingMatch s actor target with
      | some m => exact Or.inl ⟨rfl, rfl⟩
      | none =>
        simp only
        generalize hd : (if action = Action.super_like then
            deductCoins s actor (envOr env.SUPER_MATCH_COST_COINS 10) TxType.super_match_cost
              Metadata.empty f.debit
          else (true, s)) = debit
        have hframe : debit.2.matches_ = s.matches_ ∧ debit.2.conversations = s.conversations := by
          rw [← hd]
          split
          · exact ⟨(deductCoins_frame _ _ _ _ _ _).1, (deductCoins_frame _ _ _ _ _ _).2.1⟩
          · exact ⟨rfl, rfl⟩
        cases hd1 : debit.1 with
        | false => exact Or.inl hframe
        | true =>
          simp only [Bool.not_true, Bool.false_eq_true, if_false]
          have hrec := findReciprocalMatch_none s debit.2 actor target hframe.1 hex
          cases action with
          | pass =>
            simp only
            by_cases hp : f.pass_insert_fails = true
            · left
              simp [hp, hframe]
            · right
              refine ⟨hself, by trivial, ?_, ?_⟩
              · simp [hp, hframe]
              · exact ⟨{ id := debit.2.next_id, user1_id := actor, user2_id := target,
                         status := MatchStatus.rejected, compatibility_score := none,
                         matched_at := none, is_super_match := false,
                         initiated_by := some actor }, rfl, rfl, by simp [hp, hframe]⟩
          | like =>
            simp only
            rcases likeBranch_no_reciprocal debit.2 actor target Action.like now score f hrec
              with hl | ⟨row, h1, h2, _, hl⟩
            · rw [hl]
              exact Or.inl hframe
            · rw [hl]
              exact Or.inr ⟨hself, by trivial, hframe.2, row, h1, h2, by simp [hframe]⟩
          | super_like =>
            simp only
            rcases likeBranch_no_reciprocal debit.2 actor target Action.super_like now score f
              hrec with hl | ⟨row, h1, h2, _, hl⟩
            · rw [hl]
              exact Or.inl hframe
            · rw [hl]
              exact Or.inr ⟨hself, by trivial, hframe.2, row, h1, h2, by simp [hframe]⟩

/-- One match action keeps at most one row per unordered pair. -/
theorem matchAction_pair_unique (env : Env) (s : Store) (actor target : UserId)
    (action : Action) (now : Int) (score : Nat) (f : ActFaults)
    (h : ∀ a b, (pairRows s a b).length ≤ 1) (a b : UserId) :
    (pairRows (matchAction env s actor target action now score f).2 a b).length ≤ 1 := by
  rcases matchAction_effect env s actor target action now score f with
    ⟨hm, _⟩ | ⟨_, hex, _, row, h1, h2, hm⟩
  · unfold pairRows
    rw [hm]
    exact h a b
  · unfold pairRows
    rw [hm, List.filter_append]
    by_cases hp : ((row.user1_id == a && row.user2_id == b)
        || (row.user1_id == b && row.user2_id == a)) = true
    · have hnil : s.matches_.filter (fun m =>
          (m.user1_id == a && m.user2_id == b) || (m.user1_id == b && m.user2_id == a)) = [] := by
        rw [List.filter_eq_nil_iff]
        intro m hmem hpm
        unfold findExistingMatch at hex
        rw [List.find?_eq_none] at hex
        apply hex m hmem
        rw [h1, h2] at hp
        simp only [Bool.and_eq_true, Bool.or_eq_true, beq_iff_eq] at hp hpm ⊢
        rcases hp with ⟨ha, hb⟩ | ⟨hb, ha⟩
        · rw [ha, hb]
          exact hpm
        · rw [ha, hb]
          exact hpm.symm
      rw [hnil]
      simp [List.filter_cons]
      split <;> simp
    · have hrow : [row].filter (fun m =>
          (m.user1_id == a && m.user2_id == b) || (m.user1_id == b && m.user2_id == a)) = [] := by
        simp only [List.filter_cons, hp]
        rfl
      rw [hrow, List.append_nil]
      exact h a b

/-- C8 fails on the code: after user 1 likes user 2 (one pending row), the
like of user 2 on user 1 is answered `409 Action already taken on this user`
by the guard on existing rows, and the store is unchanged: the pair has one
row, still `pending`, and no conversation, where the claim says one `matched`
row and one conversation. -/
theorem reciprocal_like_is_rejected :
    (matchAction Env.unset sampleStore 1 2 Action.like 1000 50 ActFaults.ok).1
        = ActResult.ok false none
      ∧ matchAction Env.unset storeAfterFirstLike 2 1 Action.like 2000 50 ActFaults.ok
          = (ActResult.alreadyTaken, storeAfterFirstLike)
      ∧ (pairRows storeAfterFirstLike 1 2).map (fun m => (m.user1_id, m.user2_id, m.status))
          = [(1, 2, MatchStatus.pending)]
      ∧ storeAfterFirstLike.conversations = [] := by
  decide

/-- Requests served one after the other: after any such sequence of match
actions (like, pass, super_like, by any users, with any write failures), run
from a store whose matches table holds at most one row per unordered pair,
the table still holds at most one row per unordered pair. -/
theorem matches_one_row_per_pair (env : Env) (reqs : List ActRequest) (s : Store)
    (h : ∀ a b, (pairRows s a b).length ≤ 1) (a b : UserId) :
    (pairRows (runActions env s reqs) a b).length ≤ 1 := by
  induction reqs generalizing s with
  | nil => exact h a b
  | cons r rs ih =>
    exact ih _ (matchAction_pair_unique env s r.actor r.target r.action r.now r.score
      r.faults h)

theorem matches_one_row_per_pair_witness :
    (pairRows (runActions Env.unset sampleStore sampleActions) 1 2).length ≤ 1
      ∧ (pairRows (runActions Env.unset sampleStore sampleActions) 2 1).length = 1 :=
  ⟨matches_one_row_per_pair Env.unset sampleActions sampleStore
      (fun _ _ => Nat.zero_le 1) 1 2,
   by decide⟩

/-- The route is its checks followed, on the same store, by its writes. -/
theorem matchAction_guards_then_writes (env : Env) (s : Store) (actor target : UserId)
    (action : Action) (now : Int) (score : Nat) (f : ActFaults) :
    matchAction env s actor target action now score f
      = match actionGuards s actor target with
        | some r => (r, s)
        | none => actionWrites env s actor target action now score f := by
  unfold matchAction actionGuards actionWrites
  by_cases hself : target = actor
  · rw [if_pos hself, if_pos hself]
  · rw [if_neg hself, if_neg hself]
    cases s.users.find? (fun u => u.id == target && u.is_active && !u.is_banned) with
    | none => rfl
    | some targetUser =>
      simp only
      cases findExistingMatch s actor target with
      | none => rfl
      | some existingMatch => rfl

/-- C9: two likes whose handlers overlap, on the sample store (users 1 and 2,
no match row). The checks of user 2's like on user 1 read the table before
user 1's like on user 2 has inserted its row, so they pass; user 1's like then
inserts the pending row `(1, 2)`; user 2's handler goes on, finds that row as
the reciprocal like, sets it to `matched` and inserts its own row `(2, 1)`,
which the unique index on the ordered pair accepts since no row holds the key
`(2, 1)`. The table then holds two rows for the unordered pair of users 1 and
2, whether or not the insert of the conversation that follows goes through.
Served one after the other, the same two requests leave one row. -/
theorem overlapping_likes_leave_two_rows :
    pairRows sampleStore 1 2 = []
    ∧ actionGuards sampleStore 2 1 = none
    ∧ (pairRows storeAfterFirstLike 1 2).map (fun m => (m.user1_id, m.user2_id, m.status))
        = [(1, 2, MatchStatus.pending)]
    ∧ indexedRows storeAfterFirstLike 2 1 = []
    ∧ (pairRows (overlappedActions Env.unset sampleStore likeOf1 likeOf2).2 1 2).map
          (fun m => (m.user1_id, m.user2_id, m.status))
        = [(1, 2, MatchStatus.matched), (2, 1, MatchStatus.matched)]
    ∧ (pairRows (overlappedActions Env.unset sampleStore likeOf1 likeOf2NoConversation).2
          1 2).map (fun m => (m.user1_id, m.user2_id, m.status))
        = [(1, 2, MatchStatus.matched), (2, 1, MatchStatus.matched)]
    ∧ (pairRows (runActions Env.unset sampleStore [likeOf1, likeOf2]) 1 2).map
          (fun m => (m.user1_id, m.user2_id, m.status))
        = [(1, 2, MatchStatus.pending)] := by
  refine ⟨by decide, by decide, by decide, by decide, by decide, by decide, by decide⟩

/-- C10: when the actor is the target, or a match row exists for the pair in
either direction (whatever its status), the match action is rejected (the
answer is 400, 404 or 409) and the store is unchanged: no match row, no
conversation and no debit. -/
theorem matchAction_rejected (env : Env) (s : Store) (actor target : UserId)
    (action : Action) (now : Int) (score : Nat) (f : ActFaults)
    (h : target = actor ∨ ∃ m ∈ s.matches_,
        (m.user1_id = actor ∧ m.user2_id = target)
          ∨ (m.user1_id = target ∧ m.user2_id = actor)) :
    (matchAction env s actor target action now score f).2 = s
      ∧ ((matchAction env s actor target action now score f).1 = ActResult.cannotActOnSelf
          ∨ (matchAction env s actor target action now score f).1 = ActResult.targetNotFound
          ∨ (matchAction env s actor target action now score f).1 = ActResult.alreadyTaken) := by
  unfold matchAction
  by_cases hself : target = actor
  · simp [hself]
  · simp only [hself, if_false]
    rcases h with h | ⟨m, hmem, hm⟩
    · exact absurd h hself
    · cases htarget : s.users.find? (fun u => u.id == target && u.is_active && !u.is_banned) with
      | none => simp
      | some t =>
        cases hex : findExistingMatch s actor target with
        | some m2 => simp
        | none =>
          exfalso
          unfold findExistingMatch at hex
          rw [List.find?_eq_none] at hex
          apply hex m hmem
          simp only [Bool.and_eq_true, Bool.or_eq_true, beq_iff_eq]
          exact hm

theorem matchAction_rejected_witness :
    (matchAction Env.unset storeAfterFirstLike 2 1 Action.super_like 2000 50 ActFaults.ok).2
        = storeAfterFirstLike
      ∧ (matchAction Env.unset storeAfterFirstLike 2 1 Action.super_like 2000 50
          ActFaults.ok).1 = ActResult.alreadyTaken :=
  ⟨(matchAction_rejected Env.unset storeAfterFirstLike 2 1 Action.super_like 2000 50
      ActFaults.ok
      (Or.inr ⟨{ id := 0, user1_id := 1, user2_id := 2, status := MatchStatus.pending,
                 compatibility_score := some 50, matched_at := none,
                 is_super_match := false, initiated_by := some 1 },
        by decide, Or.inr ⟨rfl, rfl⟩⟩)).1,
   by decide⟩

/-- A debit above the balance fails and changes nothing. -/
theorem deductCoins_of_lt (s : Store) (userId : UserId) (user : User) (amount : Int)
    (type : TxType) (metadata : Metadata) (f : TrxFaults)
    (hu : findUser s userId = some user) (hlt : user.coin_balance < amount) :
    deductCoins s userId amount type metadata f = (false, s) := by
  unfold deductCoins
  rw [hu]
  simp [hlt]

/-- A debit within the balance, with no failing write, goes through. -/
theorem deductCoins_of_le (s : Store) (userId : UserId) (user : User) (amount : Int)
    (type : TxType) (metadata : Metadata)
    (hu : findUser s userId = some user) (hle : amount ≤ user.coin_balance) :
    deductCoins s userId amount type metadata TrxFaults.ok
      = (true, { s with
          users := debitUsers s.users userId (user.coin_balance - amount) amount,
          coin_transactions :=
            s.coin_transactions ++ [debitRow userId user amount type metadata] }) := by
  unfold deductCoins
  rw [hu]
  simp [not_lt.mpr hle, TrxFaults.ok]

/-- The like branch with no reciprocal row and a failing insert stops with
the store it was given. -/
theorem likeBranch_insert_fails (s1 : Store) (actor target : UserId) (action : Action)
    (now : Int) (score : Nat) (f : ActFaults)
    (h : findReciprocalMatch s1 actor target = none) (hins : f.match_insert_fails = true) :
    likeBranch s1 actor target action now score f = (ActResult.failed, s1) := by
  unfold likeBranch
  simp only [h]
  cases findUser s1 actor with
  | none => rfl
  | some u => simp [hins]

/-- C11: a super_like by an actor whose `coin_balance` is below the
super-match cost changes nothing (no match row, no conversation, balance and
transaction history as before) and is never answered with success; when the
action reaches the debit (the target is another, active user and the pair has
no row) the answer is the insufficient-coins error carrying the cost. -/
theorem super_like_insufficient_coins (env : Env) (s : Store) (actor target : UserId)
    (user : User) (now : Int) (score : Nat) (f : ActFaults)
    (hu : findUser s actor = some user)
    (hlt : user.coin_balance < envOr env.SUPER_MATCH_COST_COINS 10) :
    (matchAction env s actor target Action.super_like now score f).2 = s
      ∧ (∀ is_match conversation_id,
          (matchAction env s actor target Action.super_like now score f).1
            ≠ ActResult.ok is_match conversation_id)
      ∧ (target ≠ actor →
          (s.users.find? (fun u => u.id == target && u.is_active && !u.is_banned)).isSome = true →
          findExistingMatch s actor target = none →
          (matchAction env s actor target Action.super_like now score f).1
            = ActResult.insufficientCoins (envOr env.SUPER_MATCH_COST_COINS 10)) := by
  have hd := deductCoins_of_lt s actor user (envOr env.SUPER_MATCH_COST_COINS 10)
    TxType.super_match_cost Metadata.empty f.debit hu hlt
  unfold matchAction
  by_cases hself : target = actor
  · simp [hself]
  · simp only [hself, if_false]
    cases htarget : s.users.find? (fun u => u.id == target && u.is_active && !u.is_banned) with
    | none => simp
    | some t =>
      cases hex : findExistingMatch s actor target with
      | some m => simp
      | none => simp [hd]

theorem super_like_insufficient_coins_witness :
    (matchAction Env.unset sampleStore 2 1 Action.super_like 1000 50 ActFaults.ok).2
        = sampleStore
      ∧ (matchAction Env.unset sampleStore 2 1 Action.super_like 1000 50 ActFaults.ok).1
        = ActResult.insufficientCoins 10 :=
  have h := super_like_insufficient_coins Env.unset sampleStore 2 1
    (sampleUser 2 "b@example.com" 5) 1000 50 ActFaults.ok (by decide) (by decide)
  ⟨h.1, h.2.2 (by decide) (by decide) (by decide)⟩

/-- C12 fails on the code: user 1 (100 coins) super-likes user 2 and the
insert of the match row throws. The action answers 500, no match row exists,
and the debit stays: the balance is 90 and the history holds the
`super_match_cost` row. -/
theorem super_like_debit_survives_failed_insert :
    (matchAction Env.unset sampleStore 1 2 Action.super_like 1000 50 matchInsertFails).1
        = ActResult.failed
      ∧ (matchAction Env.unset sampleStore 1 2 Action.super_like 1000 50
          matchInsertFails).2.matches_ = []
      ∧ getCoinBalance sampleStore 1 = some 100
      ∧ getCoinBalance (matchAction Env.unset sampleStore 1 2 Action.super_like 1000 50
          matchInsertFails).2 1 = some 90
      ∧ (historyOf (matchAction Env.unset sampleStore 1 2 Action.super_like 1000 50
          matchInsertFails).2 1).map (fun t => (t.type, t.amount, t.balance_before, t.balance_after))
          = [(TxType.super_match_cost, -10, 100, 90)] := by
  decide

/-- C12 amended: the super_like debit is committed by `deductCoins` before
the match rows are written and nothing undoes it. When the action reaches the
debit, the actor can pay, the debit goes through and the insert of the match
row then fails, the action answers 500 and leaves exactly the store the debit
produced: the balance is the old one minus the cost, the history has the
`super_match_cost` row appended, and no match row or conversation is added. -/
theorem super_like_failure_keeps_debit (env : Env) (s : Store) (actor target : UserId)
    (user : User) (now : Int) (score : Nat) (f : ActFaults)
    (hself : target ≠ actor)
    (htarget : (s.users.find? (fun u => u.id == target && u.is_active && !u.is_banned)).isSome
      = true)
    (hex : findExistingMatch s actor target = none)
    (hu : findUser s actor = some user)
    (hle : envOr env.SUPER_MATCH_COST_COINS 10 ≤ user.coin_balance)
    (hdebit : f.debit = TrxFaults.ok) (hins : f.match_insert_fails = true) :
    (matchAction env s actor target Action.super_like now score f).1 = ActResult.failed
      ∧ getCoinBalance (matchAction env s actor target Action.super_like now score f).2 actor
          = some (user.coin_balance - envOr env.SUPER_MATCH_COST_COINS 10)
      ∧ (matchAction env s actor target Action.super_like now score f).2.coin_transactions
          = s.coin_transactions ++ [debitRow actor user (envOr env.SUPER_MATCH_COST_COINS 10)
              TxType.super_match_cost Metadata.empty]
      ∧ (matchAction env s actor target Action.super_like now score f).2.matches_ = s.matches_
      ∧ (matchAction env s actor target Action.super_like now score f).2.conversations
          = s.conversations := by
  have hd := deductCoins_of_le s actor user (envOr env.SUPER_MATCH_COST_COINS 10)
    TxType.super_match_cost Metadata.empty hu hle
  have hres : matchAction env s actor target Action.super_like now score f
      = (ActResult.failed, { s with
          users := debitUsers s.users actor
            (user.coin_balance - envOr env.SUPER_MATCH_COST_COINS 10)
            (envOr env.SUPER_MATCH_COST_COINS 10),
          coin_transactions := s.coin_transactions ++
            [debitRow actor user (envOr env.SUPER_MATCH_COST_COINS 10)
              TxType.super_match_cost Metadata.empty] }) := by
    unfold matchAction
    cases ht : s.users.find? (fun u => u.id == target && u.is_active && !u.is_banned) with
    | none => rw [ht] at htarget; simp at htarget
    | some t =>
      simp only [hself, if_false, hex, hdebit, hd, if_true, Bool.not_true, Bool.false_eq_true]
      exact likeBranch_insert_fails _ actor target Action.super_like now score f
        (findReciprocalMatch_none s _ actor target rfl hex) hins
  rw [hres]
  refine ⟨rfl, ?_, rfl, rfl, rfl⟩
  exact getCoinBalance_debitUsers s _ actor user _ _ hu rfl

theorem super_like_failure_keeps_debit_witness :
    (matchAction Env.unset sampleStore 1 2 Action.super_like 1000 50 matchInsertFails).1
        = ActResult.failed
      ∧ getCoinBalance (matchAction Env.unset sampleStore 1 2 Action.super_like 1000 50
          matchInsertFails).2 1 = some ((sampleUser 1 "a@example.com" 100).coin_balance - 10) :=
  have h := super_like_failure_keeps_debit Env.unset sampleStore 1 2
    (sampleUser 1 "a@example.com" 100) 1000 50 matchInsertFails
    (by decide) (by decide) (by decide) (by decide) (by decide) (by decide) (by decide)
  ⟨h.1, h.2.1⟩

/-- C13 fails on the code (the defect of C8): B has a pending like on A, and
A (balance 10) super-likes B at cost 10. The guard on existing rows answers
`409 Action already taken on this user`: no match is reported, the only row
of the pair is B's, still `pending` with `is_super_match` false, there is no
conversation, and A's balance is still 10. -/
theorem super_like_after_pending_like_is_rejected :
    (pairRows storeAfterBLikesA 1 2).map
        (fun m => (m.user1_id, m.user2_id, m.status, m.is_super_match))
        = [(2, 1, MatchStatus.pending, false)]
      ∧ getCoinBalance storeAfterBLikesA 1 = some 10
      ∧ matchAction Env.unset storeAfterBLikesA 1 2 Action.super_like 2000 50 ActFaults.ok
          = (ActResult.alreadyTaken, storeAfterBLikesA)
      ∧ storeAfterBLikesA.conversations = [] := by
  decide

/-! ## Messaging channel: properties -/

/-- C14: `send_message` by a user who is not a participant of the
conversation, or on a conversation whose `is_blocked` flag is set (or on a
key with no conversation), is denied and leaves the store as it was: no
debit, no message row, no change to the conversation. -/
theorem send_message_denied (env : Env) (s : Store) (userId : UserId)
    (conversationId : ConversationId) (content : Option String) (type : MessageType)
    (now : Int) (f : SendFaults)
    (h : ∀ c ∈ s.conversations, c.id = conversationId →
      (c.user1_id ≠ userId ∧ c.user2_id ≠ userId) ∨ c.is_blocked = true) :
    send_message env s userId conversationId content type now f = (SendResult.denied, s) := by
  have hnone : findOpenConversation s conversationId userId = none := by
    unfold findOpenConversation
    rw [List.find?_eq_none]
    intro c hc hp
    simp only [Bool.and_eq_true, Bool.or_eq_true, beq_iff_eq, Bool.not_eq_true'] at hp
    rcases h c hc hp.1.1 with ⟨h1, h2⟩ | hb
    · rcases hp.1.2 with h3 | h3
      · exact h1 h3
      · exact h2 h3
    · rw [hb] at hp
      exact absurd hp.2 (by simp)
  unfold send_message sendMessageWrites
  rw [hnone]

theorem send_message_denied_witness :
    send_message Env.unset chatStore 3 7 (some "hi") MessageType.text 1000 SendFaults.ok
        = (SendResult.denied, chatStore)
      ∧ send_message Env.unset chatStore 1 8 (some "hi") MessageType.text 1000 SendFaults.ok
        = (SendResult.denied, chatStore) :=
  ⟨send_message_denied Env.unset chatStore 3 7 (some "hi") MessageType.text 1000 SendFaults.ok
      (by decide),
   send_message_denied Env.unset chatStore 1 8 (some "hi") MessageType.text 1000 SendFaults.ok
      (by decide)⟩

/-- C15: a non-system message sent by a participant of an unblocked
conversation whose `coin_balance` is below the message cost fails with the
insufficient-coins error (carrying the cost) and leaves the store as it was:
no message row, no `coin_transactions` row, conversation unchanged. -/
theorem send_message_insufficient_coins (env : Env) (s : Store) (userId : UserId)
    (conversationId : ConversationId) (content : Option String) (type : MessageType)
    (now : Int) (f : SendFaults) (c : Conversation) (user : User)
    (hconv : findOpenConversation s conversationId userId = some c)
    (htype : type ≠ MessageType.system)
    (hu : findUser s userId = some user)
    (hlt : user.coin_balance < envOr env.MESSAGE_COST_COINS 1) :
    send_message env s userId conversationId content type now f
      = (SendResult.insufficientCoins (envOr env.MESSAGE_COST_COINS 1), s) := by
  have hd := deductCoins_of_lt s userId user (envOr env.MESSAGE_COST_COINS 1)
    TxType.message_cost (messageMetadata (otherParticipant c userId)) f.debit hu hlt
  unfold messageMetadata otherParticipant at hd
  unfold send_message sendMessageWrites
  rw [hconv]
  simp [htype, hd]

theorem send_message_insufficient_coins_witness :
    send_message Env.unset chatStore 2 7 (some "hi") MessageType.text 1000 SendFaults.ok
      = (SendResult.insufficientCoins 1, chatStore) :=
  send_message_insufficient_coins Env.unset chatStore 2 7 (some "hi") MessageType.text 1000
    SendFaults.ok (sampleConversation 7 1 2) (sampleUser 2 "b@example.com" 0)
    (by decide) (by decide) (by decide) (by decide)

/-- The delivery update leaves the rows with another key as they are. -/
theorem markDelivered_fresh (messages : List Message) (messageId : MessageId) (now : Int)
    (hfresh : ∀ m ∈ messages, m.id ≠ messageId) :
    messages.map (fun m =>
      if m.id == messageId then
        { m with status := MessageStatus.delivered, delivered_at := some now }
      else m) = messages := by
  induction messages with
  | nil => rfl
  | cons x xs ih =>
    have hx : (x.id == messageId) = false := by
      simpa using hfresh x (List.mem_cons_self x xs)
    rw [List.map_cons, hx, ih (fun m hm => hfresh m (List.mem_cons_of_mem x hm))]
    rfl

/-- What `send_message` does up to its delivery update when the sender is a
participant of an unblocked conversation, can pay, and no step fails. -/
theorem sendMessageWrites_ok (env : Env) (s : Store) (userId : UserId)
    (conversationId : ConversationId) (text : String) (type : MessageType) (now : Int)
    (c : Conversation) (user : User)
    (hconv : findOpenConversation s conversationId userId = some c)
    (htype : type ≠ MessageType.system)
    (hu : findUser s userId = some user)
    (hle : envOr env.MESSAGE_COST_COINS 1 ≤ user.coin_balance) :
    sendMessageWrites env s userId conversationId (some text) type now SendFaults.ok
      = (SendProgress.inserted s.next_id,
          { s with
            users := debitUsers s.users userId
              (user.coin_balance - envOr env.MESSAGE_COST_COINS 1)
              (envOr env.MESSAGE_COST_COINS 1),
            coin_transactions := s.coin_transactions ++
              [debitRow userId user (envOr env.MESSAGE_COST_COINS 1) TxType.message_cost
                (messageMetadata (otherParticipant c userId))],
            messages := s.messages ++
              [newMessage s.next_id conversationId userId (otherParticipant c userId)
                (some text) type (envOr env.MESSAGE_COST_COINS 1) now],
            conversations := touchConversation s.conversations conversationId userId
              (decide (c.user1_id = userId)) text now,
            next_id := s.next_id + 1 }) := by
  have hd := deductCoins_of_le s userId user (envOr env.MESSAGE_COST_COINS 1)
    TxType.message_cost (messageMetadata (otherParticipant c userId)) hu hle
  unfold messageMetadata otherParticipant at hd
  unfold sendMessageWrites
  rw [hconv]
  simp only [htype, ne_eq, not_false_eq_true, if_true, hd, SendFaults.ok, Bool.not_true,
    Bool.false_eq_true, if_false]
  rfl

/-- C16: a non-system message sent by a participant of an unblocked
conversation with balance `b` at least the cost `c`, no step failing, is
answered `message_sent`. Exactly one message row is created, first with status
`sent`, then set to `delivered`, with `coins_cost = c`, `sender_id` the sender
and `recipient_id` the other participant; the sender's balance becomes
`b - c`; and exactly one `coin_transactions` row is added, of type
`message_cost`, amount `-c`, `balance_before = b`, `balance_after = b - c`.
The key given to the new row is one no stored message has. -/
theorem send_message_success (env : Env) (s : Store) (userId : UserId)
    (conversationId : ConversationId) (text : String) (type : MessageType) (now : Int)
    (c : Conversation) (user : User)
    (hconv : findOpenConversation s conversationId userId = some c)
    (htype : type ≠ MessageType.system)
    (hu : findUser s userId = some user)
    (hle : envOr env.MESSAGE_COST_COINS 1 ≤ user.coin_balance)
    (hfresh : ∀ m ∈ s.messages, m.id ≠ s.next_id) :
    (send_message env s userId conversationId (some text) type now SendFaults.ok).1
        = SendResult.message_sent s.next_id
      ∧ (∃ row : Message,
          (sendMessageWrites env s userId conversationId (some text) type now
              SendFaults.ok).2.messages = s.messages ++ [row]
            ∧ (send_message env s userId conversationId (some text) type now
                SendFaults.ok).2.messages
              = s.messages ++
                  [{ row with status := MessageStatus.delivered, delivered_at := some now }]
            ∧ row.id = s.next_id
            ∧ row.status = MessageStatus.sent
            ∧ row.coins_cost = envOr env.MESSAGE_COST_COINS 1
            ∧ row.sender_id = userId
            ∧ row.recipient_id = otherParticipant c userId
            ∧ row.conversation_id = conversationId
            ∧ row.content = some text)
      ∧ getCoinBalance
          (send_message env s userId conversationId (some text) type now SendFaults.ok).2 userId
          = some (user.coin_balance - envOr env.MESSAGE_COST_COINS 1)
      ∧ (∃ tx : CoinTransaction,
          (send_message env s userId conversationId (some text) type now
              SendFaults.ok).2.coin_transactions = s.coin_transactions ++ [tx]
            ∧ tx.user_id = userId
            ∧ tx.type = TxType.message_cost
            ∧ tx.amount = -(envOr env.MESSAGE_COST_COINS 1)
            ∧ tx.balance_before = user.coin_balance
            ∧ tx.balance_after = user.coin_balance - envOr env.MESSAGE_COST_COINS 1) := by
  have hw := sendMessageWrites_ok env s userId conversationId text type now c user
    hconv htype hu hle
  have hsend : send_message env s userId conversationId (some text) type now SendFaults.ok
      = (SendResult.message_sent s.next_id,
          markDelivered (sendMessageWrites env s userId conversationId (some text) type now
            SendFaults.ok).2 s.next_id now) := by
    unfold send_message
    rw [hw]
    simp [SendFaults.ok]
  rw [hsend, hw]
  refine ⟨rfl, ⟨newMessage s.next_id conversationId userId (otherParticipant c userId)
      (some text) type (envOr env.MESSAGE_COST_COINS 1) now, rfl, ?_, rfl, rfl, ?_, rfl, rfl,
      rfl, rfl⟩, ?_, ⟨_, rfl, rfl, rfl, rfl, rfl, rfl⟩⟩
  · show (s.messages ++ [_]).map _ = _
    rw [List.map_append, markDelivered_fresh s.messages s.next_id now hfresh]
    simp [newMessage]
  · simp [newMessage, htype]
  · exact getCoinBalance_debitUsers s _ userId user _ _ hu rfl

theorem send_message_success_witness :
    (send_message Env.unset chatStore 1 7 (some "hi") MessageType.text 1000 SendFaults.ok).1
        = SendResult.message_sent 100
      ∧ getCoinBalance
          (send_message Env.unset chatStore 1 7 (some "hi") MessageType.text 1000
            SendFaults.ok).2 1
          = some ((sampleUser 1 "a@example.com" 10).coin_balance - 1)
      ∧ (send_message Env.unset chatStore 1 7 (some "hi") MessageType.text 1000
            SendFaults.ok).2.messages.map
              (fun m => (m.id, m.sender_id, m.recipient_id, m.status, m.coins_cost))
          = [(100, 1, 2, MessageStatus.delivered, 1)] :=
  have h := send_message_success Env.unset chatStore 1 7 "hi" MessageType.text 1000
    (sampleConversation 7 1 2) (sampleUser 1 "a@example.com" 10)
    (by decide) (by decide) (by decide) (by decide) (by decide)
  ⟨h.1, h.2.2.1, by decide⟩

/-- C17 fails on the code: the delivery update of `send_message` sets
`delivered` whatever the status is. User 1 sends message 100 (status `sent`);
user 2 receives `new_message` and marks it read (status `read`) before the
sender's delivery update runs; that update then sets the message back to
`delivered`. The statuses taken are sent, read, delivered. -/
theorem delivered_update_overwrites_read :
    (sendMessageWrites Env.unset chatStore 1 7 (some "hi") MessageType.text 1000
        SendFaults.ok).1 = SendProgress.inserted 100
      ∧ statusOf storeAfterInsert 100 = some MessageStatus.sent
      ∧ (mark_messages_read storeAfterInsert 2 7 [100] 2000 MarkReadFaults.ok).1
          = MarkReadResult.messages_marked_read
      ∧ statusOf storeAfterRead 100 = some MessageStatus.read
      ∧ statusOf storeAfterDelivery 100 = some MessageStatus.delivered := by
  decide

/-- A row update that keeps what the query looks at keeps the row found. -/
theorem find_map_preserve {α : Type} (l : List α) (p : α → Bool) (g : α → α)
    (hp : ∀ x, p (g x) = p x) (x : α) (h : l.find? p = some x) :
    (l.map g).find? p = some (g x) := by
  induction l with
  | nil => simp at h
  | cons y ys ih =>
    rw [List.map_cons, List.find?_cons, hp]
    rw [List.find?_cons] at h
    cases hy : p y with
    | true =>
      rw [hy] at h
      injection h with h
      rw [h]
    | false =>
      rw [hy] at h
      exact ih h

/-- The `where` clause of the read update, spelled out. -/
theorem readable_iff (userId : UserId) (messageIds : List MessageId) (m : Message) :
    readable userId messageIds m = true
      ↔ m.id ∈ messageIds ∧ m.recipient_id = userId ∧ m.status ≠ MessageStatus.read := by
  unfold readable
  simp [and_assoc]

/-- C18: `mark_messages_read` by a participant `u` of the conversation, with
message ids `M` and no failing write, sets status `read` (and `read_at`)
exactly on the messages whose key is in `M`, whose `recipient_id` is `u` and
whose status is not already `read`, and leaves every other message as it was;
in the conversation it sets `u`'s own unread counter to 0 and leaves the other
counter, and every other conversation, unchanged. Users and transactions are
untouched. -/
theorem mark_messages_read_effect (s : Store) (userId : UserId)
    (conversationId : ConversationId) (messageIds : List MessageId) (now : Int)
    (c : Conversation)
    (hconv : findParticipantConversation s conversationId userId = some c) :
    (mark_messages_read s userId conversationId messageIds now MarkReadFaults.ok).1
        = MarkReadResult.messages_marked_read
      ∧ (mark_messages_read s userId conversationId messageIds now MarkReadFaults.ok).2.messages
          = s.messages.map (fun m =>
              if m.id ∈ messageIds ∧ m.recipient_id = userId ∧ m.status ≠ MessageStatus.read then
                { m with status := MessageStatus.read, read_at := some now }
              else m)
      ∧ (mark_messages_read s userId conversationId messageIds now
            MarkReadFaults.ok).2.conversations
          = s.conversations.map (fun x =>
              if x.id = conversationId then
                if c.user1_id = userId then { x with unread_count_user1 := 0 }
                else { x with unread_count_user2 := 0 }
              else x)
      ∧ findParticipantConversation
          (mark_messages_read s userId conversationId messageIds now MarkReadFaults.ok).2
          conversationId userId
          = some (if c.user1_id = userId then { c with unread_count_user1 := 0 }
                  else { c with unread_count_user2 := 0 })
      ∧ (mark_messages_read s userId conversationId messageIds now MarkReadFaults.ok).2.users
          = s.users
      ∧ (mark_messages_read s userId conversationId messageIds now
            MarkReadFaults.ok).2.coin_transactions = s.coin_transactions := by
  have hres : mark_messages_read s userId conversationId messageIds now MarkReadFaults.ok
      = (MarkReadResult.messages_marked_read,
          { s with
            messages := markRead s.messages userId messageIds now,
            conversations := resetUnread s.conversations conversationId
              (decide (c.user1_id = userId)) }) := by
    unfold mark_messages_read
    rw [hconv]
    simp [MarkReadFaults.ok]
  have hcid : c.id = conversationId := by
    unfold findParticipantConversation at hconv
    have := List.find?_some hconv
    simp only [Bool.and_eq_true, beq_iff_eq] at this
    exact this.1
  rw [hres]
  refine ⟨rfl, ?_, ?_, ?_, rfl, rfl⟩
  · show markRead s.messages userId messageIds now = _
    unfold markRead
    apply List.map_congr_left
    intro m _
    by_cases hr : readable userId messageIds m = true
    · rw [if_pos hr, if_pos ((readable_iff userId messageIds m).1 hr)]
    · rw [if_neg hr, if_neg (fun h => hr ((readable_iff userId messageIds m).2 h))]
  · show resetUnread s.conversations conversationId (decide (c.user1_id = userId)) = _
    unfold resetUnread
    apply List.map_congr_left
    intro x _
    by_cases hx : x.id = conversationId <;> by_cases h1 : c.user1_id = userId <;>
      simp [hx, h1]
  · unfold findParticipantConversation at hconv ⊢
    show (resetUnread s.conversations conversationId (decide (c.user1_id = userId))).find? _ = _
    unfold resetUnread
    rw [find_map_preserve s.conversations _ _ ?_ c hconv]
    · by_cases h1 : c.user1_id = userId <;> simp [hcid, h1]
    · intro x
      by_cases hx : (x.id == conversationId) = true <;>
        by_cases h1 : c.user1_id = userId <;> simp [hx, h1]

theorem mark_messages_read_effect_witness :
    (mark_messages_read inboxStore 2 7 [11, 12, 13] 2000 MarkReadFaults.ok).1
        = MarkReadResult.messages_marked_read
      ∧ (mark_messages_read inboxStore 2 7 [11, 12, 13] 2000
          MarkReadFaults.ok).2.messages.map (fun m => (m.id, m.status, m.read_at))
          = [(11, MessageStatus.read, some 2000), (12, MessageStatus.read, none),
             (13, MessageStatus.delivered, none)]
      ∧ (mark_messages_read inboxStore 2 7 [11, 12, 13] 2000
          MarkReadFaults.ok).2.conversations.map
            (fun x => (x.id, x.unread_count_user1, x.unread_count_user2)) = [(7, 1, 0)] :=
  ⟨(mark_messages_read_effect inboxStore 2 7 [11, 12, 13] 2000
      { sampleConversation 7 1 2 with unread_count_user1 := 1, unread_count_user2 := 2 }
      (by decide)).1,
   by decide, by decide⟩

/-! ## Message routes: properties -/

/-- The edit route answers 200 exactly in one case; otherwise it changes
nothing. -/
theorem editMessage_cases (s : Store) (userId : UserId) (messageId : MessageId)
    (content : String) (now : Int) (update_fails : Bool) :
    ((editMessage s userId messageId content now update_fails).1 ≠ 200
        ∧ (editMessage s userId messageId content now update_fails).2 = s)
      ∨ (∃ m, findEditableMessage s userId messageId = some m
          ∧ validText content 1000 = true
          ∧ now - m.created_at ≤ maxEditTime
          ∧ update_fails = false
          ∧ editMessage s userId messageId content now update_fails
              = (200, { s with messages := s.messages.map (fun x =>
                  if x.id == messageId then
                    { x with content := some content, is_edited := true,
                             edited_at := some now,
                             edit_history := some (parseEditHistory m ++
                               [{ content := m.content, edited_at := now }]) }
                  else x) })) := by
  unfold editMessage findEditableMessage
  by_cases hv : validText content 1000 = true
  · cases hfind : s.messages.find? (fun m =>
        m.id == messageId && m.sender_id == userId && !m.is_deleted) with
    | none => left; simp [hv]
    | some m =>
      by_cases hage : now - m.created_at > maxEditTime
      · left; simp [hv, hage]
      · cases update_fails with
        | true => left; simp [hv, hage]
        | false =>
          right
          exact ⟨m, rfl, hv, not_lt.mp hage, rfl, by simp [hv, hage]⟩
  · left; simp [hv]

/-- C19: editing a message succeeds (200) only if the editor is the
message's sender, the message is not deleted and its age does not exceed the
edit window of one hour; with a valid text and no failing write these
conditions are also enough. On success the rows with that key get the new
content, `is_edited` set, and as edit history the previous history followed by
exactly one new entry holding the prior content; every other row is unchanged.
On any other answer the store is unchanged. A message its sender has deleted
can no longer be edited. -/
theorem editMessage_spec (s : Store) (userId : UserId) (messageId : MessageId)
    (content : String) (now : Int) (update_fails : Bool) :
    ((editMessage s userId messageId content now update_fails).1 = 200 →
        ∃ m ∈ s.messages, m.id = messageId ∧ m.sender_id = userId ∧ m.is_deleted = false
          ∧ now - m.created_at ≤ maxEditTime
          ∧ findEditableMessage s userId messageId = some m
          ∧ (editMessage s userId messageId content now update_fails).2.messages
              = s.messages.map (fun x =>
                  if x.id = messageId then
                    { x with content := some content, is_edited := true,
                             edited_at := some now,
                             edit_history := some (parseEditHistory m ++
                               [{ content := m.content, edited_at := now }]) }
                  else x))
      ∧ (∀ m, findEditableMessage s userId messageId = some m →
          validText content 1000 = true → now - m.created_at ≤ maxEditTime →
          (editMessage s userId messageId content now false).1 = 200)
      ∧ ((editMessage s userId messageId content now update_fails).1 ≠ 200 →
          (editMessage s userId messageId content now update_fails).2 = s)
      ∧ (∀ deletedAt, (deleteMessage s userId messageId deletedAt false).1 = 200 →
          (editMessage (deleteMessage s userId messageId deletedAt false).2 userId messageId
            content now update_fails).1 ≠ 200) := by
  refine ⟨?_, ?_, ?_, ?_⟩
  · intro h200
    rcases editMessage_cases s userId messageId content now update_fails with
      ⟨hne, _⟩ | ⟨m, hfind, _, hage, _, hres⟩
    · exact absurd h200 hne
    · have hmem := List.mem_of_find?_eq_some hfind
      have hp := List.find?_some hfind
      simp only [Bool.and_eq_true, beq_iff_eq, Bool.not_eq_true'] at hp
      refine ⟨m, hmem, hp.1.1, hp.1.2, hp.2, hage, hfind, ?_⟩
      rw [hres]
      apply List.map_congr_left
      intro x _
      by_cases hx : x.id = messageId <;> simp [hx]
  · intro m hfind hv hage
    unfold findEditableMessage at hfind
    unfold editMessage
    simp [hv, hfind, not_lt.mpr hage]
  · intro hne
    rcases editMessage_cases s userId messageId content now update_fails with
      ⟨_, hs⟩ | ⟨m, _, _, _, _, hres⟩
    · exact hs
    · rw [hres] at hne
      exact absurd rfl hne
  · intro deletedAt hdel h200
    have hstore : (deleteMessage s userId messageId deletedAt false).2.messages
        = s.messages.map (fun m =>
            if m.id == messageId then
              { m with is_deleted := true, deleted_at := some deletedAt, content := none }
            else m) := by
      unfold deleteMessage at hdel ⊢
      cases hf : s.messages.find? (fun m => m.id == messageId && m.sender_id == userId) with
      | none => rw [hf] at hdel; simp at hdel
      | some m => simp
    rcases editMessage_cases (deleteMessage s userId messageId deletedAt false).2 userId
        messageId content now update_fails with ⟨hne, _⟩ | ⟨m, hfind, _, _, _, _⟩
    · exact hne h200
    · unfold findEditableMessage at hfind
      have hmem := List.mem_of_find?_eq_some hfind
      have hp := List.find?_some hfind
      simp only [Bool.and_eq_true, beq_iff_eq, Bool.not_eq_true'] at hp
      rw [hstore, List.mem_map] at hmem
      obtain ⟨x, _, hx⟩ := hmem
      by_cases hxid : (x.id == messageId) = true
      · rw [if_pos hxid] at hx
        rw [← hx] at hp
        simp at hp
      · rw [if_neg hxid] at hx
        rw [hx] at hxid
        exact hxid (by simpa using hp.1.1)

theorem editMessage_spec_witness :
    (editMessage inboxStore 1 11 "hello there" 1000 false).1 = 200
      ∧ (editMessage inboxStore 1 11 "hello there" 1000 false).2.messages.map
          (fun m => (m.id, m.content, m.is_edited, m.edit_history))
          = [(11, some "hello there", true, some [{ content := some "hello", edited_at := 1000 }]),
             (12, some "hello", false, none), (13, some "hello", false, none)]
      ∧ editMessage inboxStore 2 11 "hello there" 1000 false = (404, inboxStore)
      ∧ editMessage inboxStore 1 11 "hello there" 3600001 false = (400, inboxStore)
      ∧ (editMessage (deleteMessage inboxStore 1 11 500 false).2 1 11 "hello there" 1000
          false).1 = 404 :=
  ⟨(editMessage_spec inboxStore 1 11 "hello there" 1000 false).2.1
      (sampleMessage 11 7 1 2 MessageStatus.delivered) (by decide) (by decide) (by decide),
   by decide, by decide, by decide, by decide⟩

theorem reactionsGet_set_same (r : Reactions) (e : String) (users : List UserId) :
    reactionsGet (reactionsSet r e users) e = some users := by
  unfold reactionsSet
  cases hget : r.find? (fun kv => kv.1 == e) with
  | none =>
    have h1 : (reactionsGet r e).isSome = false := by simp [reactionsGet, hget]
    rw [h1]
    simp [reactionsGet, List.find?_append, hget]
  | some x =>
    have h1 : (reactionsGet r e).isSome = true := by simp [reactionsGet, hget]
    rw [h1]
    simp only [if_true]
    unfold reactionsGet
    rw [find_map_preserve r (fun kv => kv.1 == e)
      (fun kv => if kv.1 == e then (kv.1, users) else kv) ?_ x hget]
    · have hx := List.find?_some hget
      simp only [hx, if_true, Option.map_some']
    · intro y
      by_cases hy : (y.1 == e) = true <;> simp [hy]

theorem find_map_other (r : Reactions) (e e' : String) (users : List UserId) (h : e' ≠ e) :
    (r.map (fun kv => if kv.1 == e then (kv.1, users) else kv)).find? (fun kv => kv.1 == e')
      = r.find? (fun kv => kv.1 == e') := by
  induction r with
  | nil => rfl
  | cons x xs ih =>
    rw [List.map_cons, List.find?_cons, List.find?_cons, ih]
    by_cases hx : x.1 = e
    · have h2 : (x.1 == e') = false := by
        rw [hx]
        simpa using Ne.symm h
      have h3 : (x.1 == e) = true := by simpa using hx
      simp only [h3, if_true, h2]
    · have h3 : (x.1 == e) = false := by simpa using hx
      simp only [h3, Bool.false_eq_true, if_false]

theorem reactionsGet_set_other (r : Reactions) (e e' : String) (users : List UserId)
    (h : e' ≠ e) : reactionsGet (reactionsSet r e users) e' = reactionsGet r e' := by
  unfold reactionsSet
  split
  · unfold reactionsGet
    rw [find_map_other r e e' users h]
  · unfold reactionsGet
    rw [List.find?_append]
    have h3 : (e == e') = false := by simpa using Ne.symm h
    have h2 : [(e, users)].find? (fun kv => kv.1 == e') = none := by
      simp only [List.find?_cons, h3, List.find?_nil]
    rw [h2]
    simp

theorem reactionsGet_delete_same (r : Reactions) (e : String) :
    reactionsGet (reactionsDelete r e) e = none := by
  unfold reactionsGet reactionsDelete
  have : (r.filter (fun kv => kv.1 != e)).find? (fun kv => kv.1 == e) = none := by
    rw [List.find?_eq_none]
    intro x hx
    rw [List.mem_filter] at hx
    simpa using hx.2
  rw [this]
  rfl

theorem reactionsGet_delete_other (r : Reactions) (e e' : String) (h : e' ≠ e) :
    reactionsGet (reactionsDelete r e) e' = reactionsGet r e' := by
  unfold reactionsGet reactionsDelete
  have : (r.filter (fun kv => kv.1 != e)).find? (fun kv => kv.1 == e')
      = r.find? (fun kv => kv.1 == e') := by
    induction r with
    | nil => rfl
    | cons x xs ih =>
      by_cases hx : x.1 = e
      · have h2 : (x.1 == e') = false := by
          rw [hx]
          simpa using Ne.symm h
        have h3 : (x.1 != e) = false := by simpa using hx
        simp only [List.filter_cons, h3, Bool.false_eq_true, if_false, List.find?_cons, h2]
        exact ih
      · have h3 : (x.1 != e) = true := by simpa using hx
        simp only [List.filter_cons, h3, if_true, List.find?_cons]
        rw [ih]
  rw [this]

/-- The users under the toggled emoji after a toggle: the user is removed
when present and added when absent. -/
theorem reactors_toggle_same (r : Reactions) (e : String) (u : UserId) :
    reactors (toggleReaction r e u) e
      = if u ∈ reactors r e then (reactors r e).erase u else reactors r e ++ [u] := by
  have h1 : reactors (if (reactionsGet r e).isNone then reactionsSet r e [] else r) e
      = reactors r e := by
    split
    · rename_i hnone
      unfold reactors
      rw [reactionsGet_set_same]
      rw [Option.isNone_iff_eq_none] at hnone
      rw [hnone]
      rfl
    · rfl
  unfold toggleReaction
  simp only [h1]
  by_cases hu : u ∈ reactors r e
  · simp only [hu, if_true]
    by_cases hlen : ((reactors r e).erase u).length = 0
    · simp only [hlen, if_true]
      unfold reactors at hlen ⊢
      rw [reactionsGet_delete_same]
      rw [List.length_eq_zero] at hlen
      rw [hlen]
      rfl
    · simp only [hlen, if_false]
      show (reactionsGet (reactionsSet _ e _) e).getD [] = _
      rw [reactionsGet_set_same]
      rfl
  · simp only [hu, if_false]
    show (reactionsGet (reactionsSet _ e _) e).getD [] = _
    rw [reactionsGet_set_same]
    rfl

/-- A toggle leaves the users under every other emoji as they are. -/
theorem reactors_toggle_other (r : Reactions) (e e' : String) (u : UserId) (h : e' ≠ e) :
    reactors (toggleReaction r e u) e' = reactors r e' := by
  have h1 : reactionsGet (if (reactionsGet r e).isNone then reactionsSet r e [] else r) e'
      = reactionsGet r e' := by
    split
    · exact reactionsGet_set_other r e e' [] h
    · rfl
  unfold toggleReaction reactors
  simp only
  generalize (if (reactionsGet r e).isNone then reactionsSet r e [] else r) = r1 at h1 ⊢
  by_cases hu : u ∈ (reactionsGet r1 e).getD []
  · simp only [hu, if_true]
    by_cases hlen : (((reactionsGet r1 e).getD []).erase u).length = 0
    · simp only [hlen, if_true]
      rw [reactionsGet_delete_other _ e e' h, h1]
    · simp only [hlen, if_false]
      rw [reactionsGet_set_other _ e e' _ h, h1]
  · simp only [hu, if_false]
    rw [reactionsGet_set_other _ e e' _ h, h1]

/-- A reaction with a valid emoji on a message the user can reach, the
update going through: the rows with that key get the toggled reactions, and
the message found afterwards is the same message with the toggled
reactions. -/
theorem reactToMessage_ok (s : Store) (userId : UserId) (messageId : MessageId)
    (emoji : String) (m : Message)
    (hvalid : validText emoji 10 = true) (hname : emoji ∉ inheritedNames)
    (hfind : findReactableMessage s userId messageId = some m) :
    reactToMessage s userId messageId emoji false
        = (200, { s with messages := s.messages.map (fun x =>
            if x.id == messageId then
              { x with reactions := toggleReaction m.reactions emoji userId }
            else x) })
      ∧ findReactableMessage (reactToMessage s userId messageId emoji false).2 userId messageId
          = some { m with reactions := toggleReaction m.reactions emoji userId } := by
  have hres : reactToMessage s userId messageId emoji false
      = (200, { s with messages := s.messages.map (fun x =>
          if x.id == messageId then
            { x with reactions := toggleReaction m.reactions emoji userId }
          else x) }) := by
    unfold reactToMessage
    rw [hfind]
    simp [hvalid, hname]
  refine ⟨hres, ?_⟩
  rw [hres]
  unfold findReactableMessage at hfind ⊢
  have hid : (m.id == messageId) = true := by
    have := List.find?_some hfind
    simp only [Bool.and_eq_true] at this
    exact this.1.1
  show (s.messages.map _).find? _ = _
  rw [find_map_preserve s.messages _ _ ?_ m hfind]
  · simp only [hid, if_true]
  · intro x
    by_cases hx : (x.id == messageId) = true
    · simp only [hx, if_true]
    · rw [if_neg hx]

/-- Reactions toggle for every emoji that is not an inherited property name.
For a message the user can reach, whose users under the emoji form a set (no
user twice), a reaction with a valid emoji (one to ten characters, not a
property name objects inherit) is answered 200 and stores the toggled
reactions: the user is added under the
emoji when absent and removed when present; every other user under that emoji
and the users under every other emoji are unchanged; the users under the
emoji still form a set; and reacting a second time gives a message whose
emoji-to-user-set mapping is the original one. -/
theorem reaction_toggle (s : Store) (userId : UserId) (messageId : MessageId)
    (emoji : String) (m : Message)
    (hvalid : validText emoji 10 = true) (hname : emoji ∉ inheritedNames)
    (hfind : findReactableMessage s userId messageId = some m)
    (hnodup : (reactors m.reactions emoji).Nodup) :
    (reactToMessage s userId messageId emoji false).1 = 200
      ∧ findReactableMessage (reactToMessage s userId messageId emoji false).2 userId messageId
          = some { m with reactions := toggleReaction m.reactions emoji userId }
      ∧ (userId ∉ reactors m.reactions emoji →
          reactors (toggleReaction m.reactions emoji userId) emoji
            = reactors m.reactions emoji ++ [userId])
      ∧ (userId ∈ reactors m.reactions emoji →
          reactors (toggleReaction m.reactions emoji userId) emoji
              = (reactors m.reactions emoji).erase userId
            ∧ userId ∉ reactors (toggleReaction m.reactions emoji userId) emoji)
      ∧ (∀ other, other ≠ userId →
          (other ∈ reactors (toggleReaction m.reactions emoji userId) emoji
            ↔ other ∈ reactors m.reactions emoji))
      ∧ (∀ e, e ≠ emoji →
          reactors (toggleReaction m.reactions emoji userId) e = reactors m.reactions e)
      ∧ (reactors (toggleReaction m.reactions emoji userId) emoji).Nodup
      ∧ ∃ m2, findReactableMessage
            (reactToMessage (reactToMessage s userId messageId emoji false).2 userId messageId
              emoji false).2 userId messageId = some m2
          ∧ ∀ e other, other ∈ reactors m2.reactions e ↔ other ∈ reactors m.reactions e := by
  have h1 := reactToMessage_ok s userId messageId emoji m hvalid hname hfind
  have hsame := reactors_toggle_same m.reactions emoji userId
  have hadd : userId ∉ reactors m.reactions emoji →
      reactors (toggleReaction m.reactions emoji userId) emoji
        = reactors m.reactions emoji ++ [userId] := by
    intro hu
    rw [hsame, if_neg hu]
  have hrem : userId ∈ reactors m.reactions emoji →
      reactors (toggleReaction m.reactions emoji userId) emoji
        = (reactors m.reactions emoji).erase userId := by
    intro hu
    rw [hsame, if_pos hu]
  have hmem : ∀ other, other ≠ userId →
      (other ∈ reactors (toggleReaction m.reactions emoji userId) emoji
        ↔ other ∈ reactors m.reactions emoji) := by
    intro other hne
    by_cases hu : userId ∈ reactors m.reactions emoji
    · rw [hrem hu, hnodup.mem_erase_iff]
      exact ⟨fun h => h.2, fun h => ⟨hne, h⟩⟩
    · rw [hadd hu, List.mem_append]
      constructor
      · rintro (h | h)
        · exact h
        · exact absurd (List.mem_singleton.1 h) hne
      · exact fun h => Or.inl h
  have hnodup2 : (reactors (toggleReaction m.reactions emoji userId) emoji).Nodup := by
    by_cases hu : userId ∈ reactors m.reactions emoji
    · rw [hrem hu]
      exact hnodup.erase userId
    · rw [hadd hu]
      exact List.Nodup.append hnodup (List.nodup_singleton userId)
        (by
          intro a ha hb
          rw [List.mem_singleton] at hb
          exact hu (hb ▸ ha))
  refine ⟨by rw [h1.1], h1.2, hadd, ?_, hmem, ?_, hnodup2, ?_⟩
  · intro hu
    refine ⟨hrem hu, ?_⟩
    rw [hrem hu, hnodup.mem_erase_iff]
    exact fun h => h.1 rfl
  · intro e he
    exact reactors_toggle_other m.reactions emoji e userId he
  · have h2 := reactToMessage_ok (reactToMessage s userId messageId emoji false).2 userId
      messageId emoji { m with reactions := toggleReaction m.reactions emoji userId }
      hvalid hname h1.2
    refine ⟨_, h2.2, ?_⟩
    intro e other
    show other ∈ reactors (toggleReaction (toggleReaction m.reactions emoji userId) emoji userId) e
      ↔ other ∈ reactors m.reactions e
    by_cases he : e = emoji
    · subst he
      rw [reactors_toggle_same (toggleReaction m.reactions e userId) e userId]
      by_cases hu : userId ∈ reactors m.reactions e
      · have hnot : userId ∉ reactors (toggleReaction m.reactions e userId) e := by
          rw [hrem hu, hnodup.mem_erase_iff]
          exact fun h => h.1 rfl
        rw [if_neg hnot, hrem hu, List.mem_append, hnodup.mem_erase_iff, List.mem_singleton]
        constructor
        · rintro (h | h)
          · exact h.2
          · exact h ▸ hu
        · intro h
          by_cases ho : other = userId
          · exact Or.inr ho
          · exact Or.inl ⟨ho, h⟩
      · have hin : userId ∈ reactors (toggleReaction m.reactions e userId) e := by
          rw [hadd hu]
          simp
        rw [if_pos hin, hadd hu, List.erase_append_right _ hu]
        simp
    · rw [reactors_toggle_other _ emoji e userId he, reactors_toggle_other _ emoji e userId he]

theorem reaction_toggle_witness :
    (reactToMessage reactionStore 2 11 "thumb" false).1 = 200
      ∧ (reactToMessage reactionStore 2 11 "thumb" false).2.messages.map
          (fun x => x.reactions) = [[("thumb", [1]), ("heart", [1])]]
      ∧ (reactToMessage (reactToMessage reactionStore 2 11 "thumb" false).2 2 11 "thumb"
          false).2.messages.map (fun x => x.reactions)
          = [[("thumb", [1, 2]), ("heart", [1])]]
      ∧ (reactToMessage reactionStore 2 11 "heart" false).2.messages.map
          (fun x => x.reactions) = [[("thumb", [1, 2]), ("heart", [1, 2])]]
      ∧ reactToMessage reactionStore 2 11 "toString" false = (500, reactionStore) :=
  ⟨(reaction_toggle reactionStore 2 11 "thumb"
      { sampleMessage 11 7 1 2 MessageStatus.delivered with
        reactions := [("thumb", [1, 2]), ("heart", [1])] }
      (by decide) (by decide) (by decide) (by decide)).1,
   by decide, by decide, by decide, by decide⟩

/-- C20: a reaction whose emoji is a property name every object inherits
(`toString`, `valueOf`, `__proto__`) and is not a key of the message's
reactions. The validator admits the emoji (one to ten characters), the message
is found, and the route answers 500 and leaves the store as it was: the user
is not added under the emoji, so the reaction does not toggle. -/
theorem reaction_inherited_name_fails (s : Store) (userId : UserId) (messageId : MessageId)
    (emoji : String) (m : Message) (update_fails : Bool)
    (hname : emoji ∈ inheritedNames)
    (hfind : findReactableMessage s userId messageId = some m)
    (hkey : reactionsGet m.reactions emoji = none) :
    validText emoji 10 = true
      ∧ reactToMessage s userId messageId emoji update_fails = (500, s)
      ∧ (reactToMessage s userId messageId emoji update_fails).2.messages = s.messages := by
  have hvalid : validText emoji 10 = true := by
    unfold inheritedNames at hname
    simp only [List.mem_cons, List.mem_singleton, List.not_mem_nil, or_false] at hname
    rcases hname with h | h | h
    · rw [h]
      decide
    · rw [h]
      decide
    · rw [h]
      decide
  have hrun : reactToMessage s userId messageId emoji update_fails = (500, s) := by
    unfold reactToMessage
    rw [hfind]
    simp [hvalid, hkey, hname]
  refine ⟨hvalid, hrun, ?_⟩
  rw [hrun]

theorem reaction_inherited_name_fails_witness :
    validText "toString" 10 = true
      ∧ reactToMessage reactionStore 2 11 "toString" false = (500, reactionStore)
      ∧ (reactToMessage reactionStore 2 11 "toString" false).2.messages.map
          (fun x => reactors x.reactions "toString") = [[]] :=
  ⟨(reaction_inherited_name_fails reactionStore 2 11 "toString"
      { sampleMessage 11 7 1 2 MessageStatus.delivered with
        reactions := [("thumb", [1, 2]), ("heart", [1])] }
      false (by decide) (by decide) (by decide)).1,
   (reaction_inherited_name_fails reactionStore 2 11 "toString"
      { sampleMessage 11 7 1 2 MessageStatus.delivered with
        reactions := [("thumb", [1, 2]), ("heart", [1])] }
      false (by decide) (by decide) (by decide)).2.1,
   by decide⟩

/-! ## Daily reward and error payloads: properties -/

/-- C28: `getDailyRewardAmount(streak)` is the base reward plus
`min(2 * streak, 50)`; the streak bonus never exceeds 50; the reward is
non-decreasing in the streak; and a daily-reward claim that answers 200
credits the user exactly `getDailyRewardAmount` of the stored login streak
(one `daily_reward` row of that amount, balance raised by it). A user who can
claim gets 200 when no write fails. -/
theorem daily_reward_amount (env : Env) (streak streak2 : Int) (s : Store)
    (userId : UserId) (now : Int) (f : DailyRewardFaults) :
    getDailyRewardAmount env streak = envOr env.DAILY_LOGIN_COINS 10 + min (2 * streak) 50
      ∧ min (2 * streak) 50 ≤ 50
      ∧ (streak ≤ streak2 →
          getDailyRewardAmount env streak ≤ getDailyRewardAmount env streak2)
      ∧ ((dailyReward env s userId now f).1 = 200 →
          ∃ user row, findUser s userId = some user
            ∧ (dailyReward env s userId now f).2.coin_transactions
                = s.coin_transactions ++ [row]
            ∧ row.type = TxType.daily_reward
            ∧ row.amount = getDailyRewardAmount env user.login_streak
            ∧ getCoinBalance (dailyReward env s userId now f).2 userId
                = some (user.coin_balance + getDailyRewardAmount env user.login_streak))
      ∧ (∀ user, findUser s userId = some user → canClaimDailyReward user now = true →
          (dailyReward env s userId now DailyRewardFaults.ok).1 = 200) := by
  refine ⟨?_, min_le_right _ _, ?_, ?_, ?_⟩
  · unfold getDailyRewardAmount
    rw [mul_comm]
  · intro hle
    unfold getDailyRewardAmount
    have : min (streak * 2) 50 ≤ min (streak2 * 2) 50 :=
      min_le_min (by omega) (le_refl _)
    simp only
    omega
  · intro h200
    unfold dailyReward at h200 ⊢
    cases hu : findUser s userId with
    | none => rw [hu] at h200; simp at h200
    | some user =>
      rw [hu] at h200
      simp only at h200 ⊢
      by_cases hclaim : canClaimDailyReward user now = true
      · cases hr : (addCoins s userId
            (envOr env.DAILY_LOGIN_COINS 10 + min (user.login_streak * 2) 50)
            TxType.daily_reward Metadata.empty f.credit).1 with
        | false => simp [hclaim, hr] at h200
        | true =>
          by_cases hf : f.update_fails = true
          · simp [hclaim, hr, hf] at h200
          · obtain ⟨user2, hu2, hs⟩ := addCoins_true s userId _ TxType.daily_reward
              Metadata.empty f.credit hr
            rw [hu] at hu2
            injection hu2 with hu2
            subst hu2
            refine ⟨user, creditRow userId user
              (envOr env.DAILY_LOGIN_COINS 10 + min (user.login_streak * 2) 50)
              TxType.daily_reward Metadata.empty, rfl, ?_, rfl, rfl, ?_⟩
            · simp only [hclaim, hr, hf, Bool.not_true, Bool.false_eq_true, if_false]
              rw [hs]
            · simp only [hclaim, hr, hf, Bool.not_true, Bool.false_eq_true, if_false]
              have hb := getCoinBalance_creditUsers s
                (addCoins s userId
                  (envOr env.DAILY_LOGIN_COINS 10 + min (user.login_streak * 2) 50)
                  TxType.daily_reward Metadata.empty f.credit).2 userId user _ _ hu
                (by rw [hs])
              unfold getCoinBalance findUser at hb ⊢
              cases hfind : (addCoins s userId
                  (envOr env.DAILY_LOGIN_COINS 10 + min (user.login_streak * 2) 50)
                  TxType.daily_reward Metadata.empty f.credit).2.users.find?
                  (fun u => u.id == userId) with
              | none => rw [hfind] at hb; simp at hb
              | some x =>
                rw [hfind] at hb
                show Option.map _ ((List.map _ _).find? _) = _
                rw [find_map_preserve _ (fun u => u.id == userId) _ ?_ x hfind]
                · have hx : (x.id == userId) = true :=
                    List.find?_some (p := fun u : User => u.id == userId) hfind
                  simp only [hx, if_true, Option.map_some'] at hb ⊢
                  exact hb
                · intro y
                  by_cases hy : (y.id == userId) = true
                  · simp only [hy, if_true]
                  · rw [if_neg hy]
      · simp [hclaim] at h200
  · intro user hu hclaim
    unfold dailyReward
    rw [hu]
    have hadd : (addCoins s userId
        (envOr env.DAILY_LOGIN_COINS 10 + min (user.login_streak * 2) 50)
        TxType.daily_reward Metadata.empty TrxFaults.ok).1 = true := by
      unfold addCoins
      rw [hu]
      simp [TrxFaults.ok]
    simp [hclaim, DailyRewardFaults.ok, hadd]

theorem daily_reward_amount_witness :
    getDailyRewardAmount Env.unset 3 ≤ getDailyRewardAmount Env.unset 30
      ∧ getDailyRewardAmount Env.unset 30 = 60
      ∧ (dailyReward Env.unset streakStore 1 1000 DailyRewardFaults.ok).1 = 200
      ∧ getCoinBalance (dailyReward Env.unset streakStore 1 1000 DailyRewardFaults.ok).2 1
          = some 160 :=
  ⟨(daily_reward_amount Env.unset 3 30 streakStore 1 1000 DailyRewardFaults.ok).2.2.1
      (by decide),
   by decide,
   (daily_reward_amount Env.unset 3 30 streakStore 1 1000 DailyRewardFaults.ok).2.2.2.2
      { sampleUser 1 "a@example.com" 100 with login_streak := 30 } (by decide) (by decide),
   by decide⟩

/-- A message of type `system` never touches the users or the transaction
history, whatever fails. -/
theorem send_message_system_frame (env : Env) (s : Store) (userId : UserId)
    (conversationId : ConversationId) (content : Option String) (now : Int) (f : SendFaults) :
    (send_message env s userId conversationId content MessageType.system now f).2.users
        = s.users
      ∧ (send_message env s userId conversationId content MessageType.system now
          f).2.coin_transactions = s.coin_transactions := by
  unfold send_message sendMessageWrites
  cases hconv : findOpenConversation s conversationId userId with
  | none => exact ⟨rfl, rfl⟩
  | some c =>
    simp only [ne_eq, not_true_eq_false, if_false, Bool.not_true, Bool.false_eq_true]
    by_cases h1 : f.message_insert_fails = true
    · simp [h1]
    · cases content with
      | none => simp [h1]
      | some text =>
        by_cases h2 : f.conversation_update_fails = true
        · simp [h1, h2]
        · by_cases h3 : f.fanout_fails = true
          · simp [h1, h2, h3]
          · by_cases h4 : f.delivered_update_fails = true
            · simp [h1, h2, h3, h4]
            · simp [h1, h2, h3, h4, markDelivered]

/-- A message of type `system` from a participant of an unblocked
conversation, no step failing: it is created with `coins_cost = 0`. -/
theorem send_message_system_ok (env : Env) (s : Store) (userId : UserId)
    (conversationId : ConversationId) (text : String) (now : Int) (c : Conversation)
    (hconv : findOpenConversation s conversationId userId = some c)
    (hfresh : ∀ m ∈ s.messages, m.id ≠ s.next_id) :
    send_message env s userId conversationId (some text) MessageType.system now SendFaults.ok
      = (SendResult.message_sent s.next_id,
          { s with
            messages := s.messages ++
              [{ newMessage s.next_id conversationId userId (otherParticipant c userId)
                  (some text) MessageType.system (envOr env.MESSAGE_COST_COINS 1) now with
                 status := MessageStatus.delivered, delivered_at := some now }],
            conversations := touchConversation s.conversations conversationId userId
              (decide (c.user1_id = userId)) text now,
            next_id := s.next_id + 1 }) := by
  unfold send_message sendMessageWrites
  rw [hconv]
  simp only [ne_eq, not_true_eq_false, if_false, Bool.not_true, Bool.false_eq_true,
    SendFaults.ok]
  unfold markDelivered
  have hm := markDelivered_fresh s.messages s.next_id now hfresh
  simp only [beq_iff_eq] at hm
  simp [newMessage, otherParticipant, hm]

/-- A message of another type: either no message row is created, or the
sender was debited the message cost (one `message_cost` row, balance lowered
by the cost) and the row created records that cost. -/
theorem send_message_paid (env : Env) (s : Store) (userId : UserId)
    (conversationId : ConversationId) (content : Option String) (type : MessageType)
    (now : Int) (f : SendFaults) (htype : type ≠ MessageType.system) :
    (send_message env s userId conversationId content type now f).2.messages = s.messages
      ∨ ∃ user c, findUser s userId = some user
          ∧ findOpenConversation s conversationId userId = some c
          ∧ envOr env.MESSAGE_COST_COINS 1 ≤ user.coin_balance
          ∧ (send_message env s userId conversationId content type now f).2.coin_transactions
              = s.coin_transactions ++
                [debitRow userId user (envOr env.MESSAGE_COST_COINS 1) TxType.message_cost
                  (messageMetadata (otherParticipant c userId))]
          ∧ getCoinBalance (send_message env s userId conversationId content type now f).2
              userId = some (user.coin_balance - envOr env.MESSAGE_COST_COINS 1)
          ∧ ∃ row, (sendMessageWrites env s userId conversationId content type now
                f).2.messages = s.messages ++ [row]
              ∧ row.coins_cost = envOr env.MESSAGE_COST_COINS 1 := by
  cases hconv : findOpenConversation s conversationId userId with
  | none =>
    left
    unfold send_message sendMessageWrites
    rw [hconv]
  | some c =>
    cases hd : (deductCoins s userId (envOr env.MESSAGE_COST_COINS 1) TxType.message_cost
        (messageMetadata (otherParticipant c userId)) f.debit).1 with
    | false =>
      left
      have hs := deductCoins_false _ _ _ _ _ _ hd
      unfold messageMetadata otherParticipant at hd hs
      unfold send_message sendMessageWrites
      rw [hconv]
      simp [htype, hd, hs]
    | true =>
      obtain ⟨user, hu, hle, hs⟩ := deductCoins_true _ _ _ _ _ _ hd
      have hbal : getCoinBalance
          { s with
            users := debitUsers s.users userId
              (user.coin_balance - envOr env.MESSAGE_COST_COINS 1)
              (envOr env.MESSAGE_COST_COINS 1),
            coin_transactions := s.coin_transactions ++
              [debitRow userId user (envOr env.MESSAGE_COST_COINS 1) TxType.message_cost
                (messageMetadata (otherParticipant c userId))] } userId
          = some (user.coin_balance - envOr env.MESSAGE_COST_COINS 1) :=
        getCoinBalance_debitUsers s _ userId user _ _ hu rfl
      unfold getCoinBalance findUser at hbal
      unfold messageMetadata otherParticipant at hd hs
      by_cases h1 : f.message_insert_fails = true
      · left
        unfold send_message sendMessageWrites
        rw [hconv]
        simp [htype, hd, hs, h1]
      · right
        refine ⟨user, c, hu, rfl, hle, ?_, ?_, ?_⟩
        · unfold send_message sendMessageWrites markDelivered
          rw [hconv]
          simp only [htype, ne_eq, not_false_eq_true, if_true, hd, hs, Bool.not_true,
            Bool.false_eq_true, if_false, h1]
          cases content with
          | none => rfl
          | some text =>
            by_cases h2 : f.conversation_update_fails = true
            · simp [h2, messageMetadata, otherParticipant]
            · by_cases h3 : f.fanout_fails = true
              · simp [h2, h3, messageMetadata, otherParticipant]
              · by_cases h4 : f.delivered_update_fails = true
                · simp [h2, h3, h4, messageMetadata, otherParticipant]
                · simp [h2, h3, h4, messageMetadata, otherParticipant]
        · unfold send_message sendMessageWrites markDelivered getCoinBalance findUser
          rw [hconv]
          simp only [htype, ne_eq, not_false_eq_true, if_true, hd, hs, Bool.not_true,
            Bool.false_eq_true, if_false, h1]
          cases content with
          | none => exact hbal
          | some text =>
            by_cases h2 : f.conversation_update_fails = true
            · simp only [h2, if_true]
              exact hbal
            · by_cases h3 : f.fanout_fails = true
              · simp only [h2, h3, if_true, Bool.false_eq_true, if_false]
                exact hbal
              · by_cases h4 : f.delivered_update_fails = true
                · simp only [h2, h3, h4, if_true, Bool.false_eq_true, if_false]
                  exact hbal
                · simp only [h2, h3, h4, Bool.false_eq_true, if_false]
                  exact hbal
        · refine ⟨newMessage s.next_id conversationId userId (otherParticipant c userId)
            content type (envOr env.MESSAGE_COST_COINS 1) now, ?_, by simp [newMessage, htype]⟩
          unfold sendMessageWrites
          rw [hconv]
          simp only [htype, ne_eq, not_false_eq_true, if_true, hd, hs, Bool.not_true,
            Bool.false_eq_true, if_false, h1]
          cases content with
          | none => rfl
          | some text =>
            by_cases h2 : f.conversation_update_fails = true
            · simp [h2, otherParticipant]
            · by_cases h3 : f.fanout_fails = true
              · simp [h2, h3, otherParticipant]
              · simp [h2, h3, otherParticipant]

/-- C27: `send_message` debits the sender exactly when the message type is
not `system`. For type `system` the users and the transaction history are
left as they were, whatever fails, and when nothing fails the message is
created with `coins_cost = 0`. For every other type, whenever a message row
is created the sender has been debited the message cost (one `message_cost`
row appended, balance lowered by the cost) and the row records that cost in
`coins_cost`. -/
theorem send_message_debits_unless_system (env : Env) (s : Store) (userId : UserId)
    (conversationId : ConversationId) (content : Option String) (type : MessageType)
    (now : Int) (f : SendFaults) :
    (type = MessageType.system →
        (send_message env s userId conversationId content type now f).2.users = s.users
        ∧ (send_message env s userId conversationId content type now f).2.coin_transactions
            = s.coin_transactions
        ∧ ∀ c text, findOpenConversation s conversationId userId = some c →
            content = some text → f = SendFaults.ok →
            (∀ m ∈ s.messages, m.id ≠ s.next_id) →
            (send_message env s userId conversationId content type now f).1
                = SendResult.message_sent s.next_id
              ∧ ∃ row, (send_message env s userId conversationId content type now
                    f).2.messages = s.messages ++ [row]
                  ∧ row.id = s.next_id ∧ row.type = MessageType.system
                  ∧ row.coins_cost = 0)
      ∧ (type ≠ MessageType.system →
          (send_message env s userId conversationId content type now f).2.messages
              = s.messages
            ∨ ∃ user c, findUser s userId = some user
                ∧ findOpenConversation s conversationId userId = some c
                ∧ envOr env.MESSAGE_COST_COINS 1 ≤ user.coin_balance
                ∧ (send_message env s userId conversationId content type now
                    f).2.coin_transactions
                    = s.coin_transactions ++
                      [debitRow userId user (envOr env.MESSAGE_COST_COINS 1)
                        TxType.message_cost (messageMetadata (otherParticipant c userId))]
                ∧ getCoinBalance
                    (send_message env s userId conversationId content type now f).2 userId
                    = some (user.coin_balance - envOr env.MESSAGE_COST_COINS 1)
                ∧ ∃ row, (sendMessageWrites env s userId conversationId content type now
                      f).2.messages = s.messages ++ [row]
                    ∧ row.coins_cost = envOr env.MESSAGE_COST_COINS 1) := by
  refine ⟨?_, send_message_paid env s userId conversationId content type now f⟩
  intro htype
  subst htype
  refine ⟨(send_message_system_frame env s userId conversationId content now f).1,
    (send_message_system_frame env s userId conversationId content now f).2, ?_⟩
  intro c text hconv hcontent hf hfresh
  subst hcontent
  subst hf
  rw [send_message_system_ok env s userId conversationId text now c hconv hfresh]
  exact ⟨rfl, _, rfl, rfl, rfl, rfl⟩

theorem send_message_debits_unless_system_witness :
    ((send_message Env.unset chatStore 1 7 (some "hi") MessageType.system 1000
          SendFaults.ok).2.users = chatStore.users
      ∧ (send_message Env.unset chatStore 1 7 (some "hi") MessageType.system 1000
          SendFaults.ok).2.coin_transactions = chatStore.coin_transactions)
    ∧ (send_message Env.unset chatStore 1 7 (some "hi") MessageType.system 1000
          SendFaults.ok).1 = SendResult.message_sent 100
    ∧ getCoinBalance (send_message Env.unset chatStore 1 7 (some "hi") MessageType.text 1000
          SendFaults.ok).2 1 = some 9 :=
  ⟨⟨((send_message_debits_unless_system Env.unset chatStore 1 7 (some "hi")
        MessageType.system 1000 SendFaults.ok).1 rfl).1,
     ((send_message_debits_unless_system Env.unset chatStore 1 7 (some "hi")
        MessageType.system 1000 SendFaults.ok).1 rfl).2.1⟩,
   (((send_message_debits_unless_system Env.unset chatStore 1 7 (some "hi")
        MessageType.system 1000 SendFaults.ok).1 rfl).2.2
      (sampleConversation 7 1 2) "hi" (by decide) rfl rfl (by decide)).1,
   by decide⟩

/-- C24: the insufficient-coins answers of the coin-gated actions, each
evaluated for a user who holds less than the cost. `send_message` (user 2,
balance 0, cost 1) and the `super_like` action (user 2, balance 5, cost 10)
report the required amount and no current balance; the `requireCoins`
middleware and `initiate_video_call` (user 2, balance 0, cost 5) report the
required amount and the current balance. -/
theorem insufficient_coins_payloads :
    (send_message Env.unset chatStore 2 7 (some "hi") MessageType.text 1000
        SendFaults.ok).1.errorBody
      = some { message := "Insufficient coins", required := some 1, current := none,
               type := some "insufficient_coins" }
    ∧ (matchAction Env.unset sampleStore 2 1 Action.super_like 1000 50
        ActFaults.ok).1.errorBody
      = some { message := "Insufficient coins for super like", required := some 10,
               current := none, type := some "insufficient_coins" }
    ∧ requireCoins chatStore (some 2) 1
      = RequireCoinsResult.insufficient
          { message := "Insufficient coins", required := some 1, current := some 0,
            type := none }
    ∧ (initiate_video_call Env.unset callHub 12 7 CallType.video 500).1
      = [Emit.toSocket 12 (Event.error
          { message := "Insufficient coins for call", required := some 5, current := some 0,
            type := some "insufficient_coins" })] := by
  refine ⟨by decide, by decide, by decide, by decide⟩

/-! ## Presence registry: properties -/

theorem mem_sAdd {α : Type} [DecidableEq α] (set : List α) (x y : α) :
    y ∈ sAdd set x ↔ y ∈ set ∨ y = x := by
  unfold sAdd
  by_cases hx : x ∈ set
  · rw [if_pos hx]
    constructor
    · intro h
      exact Or.inl h
    · intro h
      rcases h with h | h
      · exact h
      · rw [h]
        exact hx
  · rw [if_neg hx]
    simp

theorem mem_sRem {α : Type} [DecidableEq α] (set : List α) (x y : α) :
    y ∈ sRem set x ↔ y ∈ set ∧ y ≠ x := by
  unfold sRem
  simp

theorem mem_getRoomUsers (r : Redis) (roomId : ConversationId) (u : UserId) :
    u ∈ getRoomUsers r roomId ↔ (roomId, u) ∈ r.room := by
  unfold getRoomUsers
  simp only [List.mem_map, List.mem_filter, decide_eq_true_eq]
  constructor
  · rintro ⟨p, ⟨hp, h1⟩, h2⟩
    have : p = (roomId, u) := Prod.ext h1 h2
    rw [← this]
    exact hp
  · intro h
    exact ⟨(roomId, u), ⟨h, rfl⟩, rfl⟩

/-- One call and the online test of `u`. -/
theorem isUserOnline_run (r : Redis) (c : PresenceCall) (u : UserId) :
    isUserOnline (c.run r) u = (c.online u).getD (isUserOnline r u) := by
  cases c with
  | setUserOnline v sid =>
    simp only [PresenceCall.run, PresenceCall.online, isUserOnline, ChatApp.setUserOnline]
    by_cases hv : v = u
    · rw [if_pos hv]
      simp [mem_sAdd, hv]
    · rw [if_neg hv]
      have hu : u ≠ v := fun h => hv h.symm
      simp [mem_sAdd, hu]
  | setUserOffline v =>
    simp only [PresenceCall.run, PresenceCall.online, isUserOnline, ChatApp.setUserOffline]
    by_cases hv : v = u
    · rw [if_pos hv]
      simp [mem_sRem, hv]
    · rw [if_neg hv]
      have hu : u ≠ v := fun h => hv h.symm
      simp [mem_sRem, hu]
  | joinRoom v room => rfl
  | leaveRoom v room => rfl

/-- One call and the membership of `u` in `room`. -/
theorem getRoomUsers_run (r : Redis) (c : PresenceCall) (u : UserId)
    (room : ConversationId) :
    decide (u ∈ getRoomUsers (c.run r) room)
      = (c.inRoom u room).getD (decide (u ∈ getRoomUsers r room)) := by
  cases c with
  | setUserOnline v sid => rfl
  | setUserOffline v => rfl
  | joinRoom v room2 =>
    simp only [PresenceCall.run, PresenceCall.inRoom, ChatApp.joinRoom]
    by_cases hv : v = u ∧ room2 = room
    · rw [if_pos hv]
      simp [mem_getRoomUsers, mem_sAdd, hv.1, hv.2]
    · rw [if_neg hv]
      have hne : ¬ (room = room2 ∧ u = v) := fun h => hv ⟨h.2.symm, h.1.symm⟩
      simp [mem_getRoomUsers, mem_sAdd, hne]
  | leaveRoom v room2 =>
    simp only [PresenceCall.run, PresenceCall.inRoom, ChatApp.leaveRoom]
    by_cases hv : v = u ∧ room2 = room
    · rw [if_pos hv]
      simp [mem_getRoomUsers, mem_sRem, hv.1, hv.2]
    · rw [if_neg hv]
      have hne : ¬ (room = room2 ∧ u = v) := fun h => hv ⟨h.2.symm, h.1.symm⟩
      simp only [mem_getRoomUsers, mem_sRem, ne_eq, Prod.mk.injEq, Option.getD_none]
      simp [hne]

/-- A test that each call changes as `about` says is, after a sequence of
calls, what the most recent telling call says, and its old value when no call
tells. -/
theorem runPresence_mostRecent (test : Redis → Bool) (about : PresenceCall → Option Bool)
    (hstep : ∀ r c, test (c.run r) = (about c).getD (test r))
    (calls : List PresenceCall) (r : Redis) :
    test (runPresence r calls) = (mostRecent about calls).getD (test r) := by
  induction calls generalizing r with
  | nil => rfl
  | cons c cs ih =>
    unfold runPresence mostRecent
    rw [ih (c.run r)]
    cases hm : mostRecent about cs with
    | some b => rfl
    | none => exact hstep r c

/-- C25: the presence registry over the key-value model. After every sequence
of calls, `isUserOnline(u)` is what the most recent `setUserOnline` /
`setUserOffline` call for `u` says (true for `setUserOnline`), and `u` is in
`getRoomUsers(room)` exactly when the most recent `joinRoom` / `leaveRoom`
call for `(u, room)` was `joinRoom`; with no such call the answer is the one
of the starting store, which is `false` for the empty store. -/
theorem presence_most_recent_call (r : Redis) (calls : List PresenceCall) (u : UserId)
    (room : ConversationId) :
    isUserOnline (runPresence r calls) u
        = (mostRecent (PresenceCall.online u) calls).getD (isUserOnline r u)
      ∧ (u ∈ getRoomUsers (runPresence r calls) room
          ↔ (mostRecent (PresenceCall.inRoom u room) calls).getD
              (decide (u ∈ getRoomUsers r room)) = true)
      ∧ (isUserOnline (runPresence Redis.empty calls) u = true
          ↔ mostRecent (PresenceCall.online u) calls = some true)
      ∧ (u ∈ getRoomUsers (runPresence Redis.empty calls) room
          ↔ mostRecent (PresenceCall.inRoom u room) calls = some true) := by
  have honline := fun r0 => runPresence_mostRecent (fun x => isUserOnline x u)
    (PresenceCall.online u) (fun x c => isUserOnline_run x c u) calls r0
  have hroom := fun r0 => runPresence_mostRecent
    (fun x => decide (u ∈ getRoomUsers x room))
    (PresenceCall.inRoom u room) (fun x c => getRoomUsers_run x c u room) calls r0
  simp only at honline hroom
  refine ⟨honline r, ?_, ?_, ?_⟩
  · rw [← hroom r]
    simp
  · rw [honline Redis.empty]
    cases mostRecent (PresenceCall.online u) calls with
    | none => simp [isUserOnline, Redis.empty]
    | some b => simp
  · have h := hroom Redis.empty
    have hiff : u ∈ getRoomUsers (runPresence Redis.empty calls) room
        ↔ decide (u ∈ getRoomUsers (runPresence Redis.empty calls) room) = true := by
      simp
    rw [hiff, h]
    cases mostRecent (PresenceCall.inRoom u room) calls with
    | none => simp [getRoomUsers, Redis.empty]
    | some b => simp

/-! ## Compatibility score: properties -/

theorem agePoints_bounds (year : Int) (user1 user2 : Profile) :
    0 ≤ agePoints year user1 user2 ∧ agePoints year user1 user2 ≤ 30 := by
  unfold agePoints
  split
  · simp only
    split_ifs <;> omega
  · omega

theorem interestPoints_bounds (toLowerCase : String → String) (user1 user2 : Profile) :
    0 ≤ interestPoints toLowerCase user1 user2
      ∧ interestPoints toLowerCase user1 user2 ≤ 40 := by
  unfold interestPoints
  split
  · omega
  · omega

theorem locationPoints_bounds (calculateDistance : ℚ → ℚ → ℚ → ℚ → Option ℚ)
    (user1 user2 : Profile) :
    0 ≤ locationPoints calculateDistance user1 user2
      ∧ locationPoints calculateDistance user1 user2 ≤ 20 := by
  unfold locationPoints
  split_ifs
  · split
    · omega
    · split_ifs <;> omega
  · omega

theorem activityPoints_bounds (now : Int) (user2 : Profile) :
    0 ≤ activityPoints now user2 ∧ activityPoints now user2 ≤ 10 := by
  unfold activityPoints
  split
  · split_ifs <;> omega
  · omega

/-- Rounding a sum of an integer and a value in `[0, 10)`. -/
theorem jsRound_add_jitter (score : Int) (jitter : ℚ) (h0 : 0 ≤ jitter) (h1 : jitter < 10) :
    score ≤ jsRound ((score : ℚ) + jitter) ∧ jsRound ((score : ℚ) + jitter) ≤ score + 10 := by
  unfold jsRound
  constructor
  · apply Int.le_floor.mpr
    linarith
  · have h : ⌊(score : ℚ) + jitter + 1 / 2⌋ < score + 11 := by
      apply Int.floor_lt.mpr
      push_cast
      linarith
    omega

/-- C26: `calculateCompatibilityScore`, with the jitter in `[0, 10)` and the
clock as parameters, is a function of the two user snapshots whose value is an
integer between 0 and 100. It is the rounded sum of four parts and the jitter,
capped at 100, so it lies between the sum of the parts (capped) and that sum
plus 10. The parts are bounded: age at most 30, interests at most 40 (10 per
interest of the first user that the second also has after `toLowerCase`),
location at most 20, activity at most 10. -/
theorem compatibility_score_bounds (calculateDistance : ℚ → ℚ → ℚ → ℚ → Option ℚ)
    (toLowerCase : String → String) (year now : Int) (jitter : ℚ) (user1 user2 : Profile)
    (h0 : 0 ≤ jitter) (h1 : jitter < 10) :
    (0 ≤ calculateCompatibilityScore calculateDistance toLowerCase year now jitter user1 user2
      ∧ calculateCompatibilityScore calculateDistance toLowerCase year now jitter user1 user2
          ≤ 100)
    ∧ (min (agePoints year user1 user2 + interestPoints toLowerCase user1 user2
          + locationPoints calculateDistance user1 user2 + activityPoints now user2) 100
        ≤ calculateCompatibilityScore calculateDistance toLowerCase year now jitter user1 user2
      ∧ calculateCompatibilityScore calculateDistance toLowerCase year now jitter user1 user2
        ≤ agePoints year user1 user2 + interestPoints toLowerCase user1 user2
          + locationPoints calculateDistance user1 user2 + activityPoints now user2 + 10)
    ∧ (0 ≤ agePoints year user1 user2 ∧ agePoints year user1 user2 ≤ 30)
    ∧ (0 ≤ interestPoints toLowerCase user1 user2
        ∧ interestPoints toLowerCase user1 user2 ≤ 40
        ∧ ∀ interests1 interests2, user1.interests = some interests1 →
            user2.interests = some interests2 →
            interestPoints toLowerCase user1 user2
              = min (10 * ((commonInterests toLowerCase interests1 interests2).length : Int))
                  40)
    ∧ (0 ≤ locationPoints calculateDistance user1 user2
        ∧ locationPoints calculateDistance user1 user2 ≤ 20)
    ∧ (0 ≤ activityPoints now user2 ∧ activityPoints now user2 ≤ 10) := by
  have ha := agePoints_bounds year user1 user2
  have hi := interestPoints_bounds toLowerCase user1 user2
  have hl := locationPoints_bounds calculateDistance user1 user2
  have hc := activityPoints_bounds now user2
  have hr := jsRound_add_jitter
    (agePoints year user1 user2 + interestPoints toLowerCase user1 user2
      + locationPoints calculateDistance user1 user2 + activityPoints now user2)
    jitter h0 h1
  refine ⟨?_, ?_, ha, ⟨hi.1, hi.2, ?_⟩, hl, hc⟩
  · unfold calculateCompatibilityScore
    simp only
    omega
  · unfold calculateCompatibilityScore
    simp only
    omega
  · intro interests1 interests2 h1 h2
    unfold interestPoints
    rw [h1, h2]
    simp only
    rw [mul_comm]

theorem compatibility_score_bounds_witness :
    (0 ≤ calculateCompatibilityScore fortyKm lowerSample 2024 1000 (7 / 2) profileA profileB
      ∧ calculateCompatibilityScore fortyKm lowerSample 2024 1000 (7 / 2) profileA profileB
          ≤ 100)
    ∧ agePoints 2024 profileA profileB = 20
    ∧ interestPoints lowerSample profileA profileB = 10
    ∧ locationPoints fortyKm profileA profileB = 15
    ∧ activityPoints 1000 profileB = 10 :=
  ⟨(compatibility_score_bounds fortyKm lowerSample 2024 1000 (7 / 2) profileA profileB
      (by norm_num) (by norm_num)).1,
   by decide, by decide, by norm_num [locationPoints, truthy, profileA, profileB, fortyKm],
   by decide⟩

/-! ## Call signaling: properties -/

/-- C23: the call session after each ending event, on the sample hub where
user 1 (socket 11) rang user 2 with video call 500 (cost 5). A `reject_call`
removes the session, and so does an `end_call` once both sockets are in the
call room: a later `accept_call` answers `Call not found` and leaves the store
as it is. A failed accept does not: after the refused debit the caller's
socket still holds the call id, type and cost, a second `accept_call` is not
answered `Call not found`, and once the caller has coins again it is accepted
and debits 5. The session also survives an `end_call` sent while the call is
ringing and the disconnect of the callee. -/
theorem failed_accept_keeps_call_session :
    sessionOf ringingHub (some 500) = some (11, some CallType.video, some 5)
    ∧ accept_call (reject_call ringingHub (some 500) "busy").2 12 (some 500) TrxFaults.ok
        = ([Emit.toSocket 12 (plainError "Call not found")],
           (reject_call ringingHub (some 500) "busy").2)
    ∧ accept_call (end_call acceptedHub 12 (some 500)).2 12 (some 500) TrxFaults.ok
        = ([Emit.toSocket 12 (plainError "Call not found")],
           (end_call acceptedHub 12 (some 500)).2)
    ∧ getCoinBalance spentHub.store 1 = some 2
    ∧ (accept_call spentHub 12 (some 500) TrxFaults.ok).1
        = [Emit.toSocket 11 (Event.call_rejected RejectReason.insufficientCoins),
           Emit.toSocket 12 (Event.call_ended none EndReason.callerHasInsufficientCoins)]
    ∧ sessionOf refusedHub (some 500) = some (11, some CallType.video, some 5)
    ∧ (accept_call refusedHub 12 (some 500) TrxFaults.ok).1
        ≠ [Emit.toSocket 12 (plainError "Call not found")]
    ∧ getCoinBalance refilledHub.store 1 = some 12
    ∧ (accept_call refilledHub 12 (some 500) TrxFaults.ok).1
        = [Emit.toRoom (Room.call (some 500)) (Event.call_accepted (some 500) [1, 2])]
    ∧ getCoinBalance (accept_call refilledHub 12 (some 500) TrxFaults.ok).2.store 1 = some 7
    ∧ sessionOf (end_call ringingHub 11 (some 500)).2 (some 500)
        = some (11, some CallType.video, some 5)
    ∧ sessionOf (disconnect acceptedHub 12).2 (some 500)
        = some (11, some CallType.video, some 5) := by
  refine ⟨by decide, by decide, by decide, by decide, by decide, by decide, by decide,
    by decide, by decide, by decide, by decide, by decide⟩

/-- C29: two `accept_call` events for one call, on the sample hub where user 1
(10 coins) rang user 2 with video call 500 (cost 5). The first accept debits
5; the session stays on the caller's socket; the second accept is answered
`call_accepted` again and debits 5 again, leaving user 1 with 0 coins and two
`video_call_cost` rows. -/
theorem second_accept_debits_again :
    getCoinBalance ringingHub.store 1 = some 10
    ∧ (accept_call ringingHub 12 (some 500) TrxFaults.ok).1
        = [Emit.toRoom (Room.call (some 500)) (Event.call_accepted (some 500) [1, 2])]
    ∧ getCoinBalance acceptedHub.store 1 = some 5
    ∧ sessionOf acceptedHub (some 500) = some (11, some CallType.video, some 5)
    ∧ (accept_call acceptedHub 12 (some 500) TrxFaults.ok).1
        = [Emit.toRoom (Room.call (some 500)) (Event.call_accepted (some 500) [1, 2])]
    ∧ getCoinBalance (accept_call acceptedHub 12 (some 500) TrxFaults.ok).2.store 1 = some 0
    ∧ ledgerRows (accept_call acceptedHub 12 (some 500) TrxFaults.ok).2.store
        = [(1, TxType.video_call_cost, -5), (1, TxType.video_call_cost, -5)] := by
  refine ⟨by decide, by decide, by decide, by decide, by decide, by decide, by decide⟩

/-- C30: an `accept_call` by a user the call was not made to, on the sample
hub where user 1 rang user 2 in conversation 7 (the `incoming_call` went to
the room of user 2). User 3, who takes no part in conversation 7, sends
`accept_call` with the call id from socket 13: the handler answers
`call_accepted` with participants 1 and 3, user 1 is debited 5 coins, and
socket 13 joins the call room. -/
theorem accept_call_by_outsider :
    (initiate_video_call Env.unset callHub 11 7 CallType.video 500).1
      = [Emit.toRoom (Room.user 2) (Event.incoming_call 500 CallType.video 7 1),
         Emit.toSocket 11 (Event.call_initiated 500 CallType.video)]
    ∧ findParticipantConversation ringingHub.store 7 3 = none
    ∧ (accept_call ringingHub 13 (some 500) TrxFaults.ok).1
        = [Emit.toRoom (Room.call (some 500)) (Event.call_accepted (some 500) [1, 3])]
    ∧ getCoinBalance ringingHub.store 1 = some 10
    ∧ getCoinBalance (accept_call ringingHub 13 (some 500) TrxFaults.ok).2.store 1 = some 5
    ∧ ledgerRows (accept_call ringingHub 13 (some 500) TrxFaults.ok).2.store
        = [(1, TxType.video_call_cost, -5)]
    ∧ ((accept_call ringingHub 13 (some 500) TrxFaults.ok).2.sockets.filter
          (fun k => decide (Room.call (some 500) ∈ k.rooms))).map (fun k => k.userId)
        = [1, 3] := by
  refine ⟨by decide, by decide, by decide, by decide, by decide, by decide, by decide⟩

/-- The handler `initiate_video_call` hands back the store it was given. -/
theorem initiate_video_call_store (env : Env) (h : Hub) (socketId : SocketId)
    (conversationId : ConversationId) (callType : CallType) (callId : CallId) :
    (initiate_video_call env h socketId conversationId callType callId).2.store = h.store := by
  unfold initiate_video_call
  cases h.sockets.find? (fun k => k.id == socketId) with
  | none => rfl
  | some socket =>
    simp only
    cases findOpenConversation h.store conversationId socket.userId with
    | none => rfl
    | some conversation =>
      simp only
      cases findUser h.store
          (if conversation.user1_id = socket.userId then conversation.user2_id
           else conversation.user1_id) with
      | none => rfl
      | some recipient =>
        cases findUser h.store socket.userId with
        | none => cases callType <;> simp only <;> split <;> rfl
        | some userBalance =>
          cases callType <;> simp only <;> split <;> first | rfl | (split <;> rfl)

/-- C21: `initiate_video_call` never changes the store, so no coin balance
and no transaction history. When the caller's balance is below the cost of
the call type, the hub is left as it was (no socket gets call fields), no
`incoming_call` is emitted, and, the conversation being open to the caller and
the recipient allowing the call type, the one event emitted is the
insufficient-coins error to the caller, with the required cost and the current
balance. -/
theorem initiate_video_call_checks_balance (env : Env) (h : Hub) (socketId : SocketId)
    (conversationId : ConversationId) (callType : CallType) (callId : CallId) :
    (initiate_video_call env h socketId conversationId callType callId).2.store = h.store
    ∧ ∀ socket caller, h.sockets.find? (fun k => k.id == socketId) = some socket →
        findUser h.store socket.userId = some caller →
        caller.coin_balance < callCostOf env callType →
        (initiate_video_call env h socketId conversationId callType callId).2 = h
        ∧ (∀ e ∈ (initiate_video_call env h socketId conversationId callType callId).1,
            e.isIncomingCall = false)
        ∧ ∀ c recipient,
            findOpenConversation h.store conversationId socket.userId = some c →
            findUser h.store (otherParticipant c socket.userId) = some recipient →
            (match callType with
              | CallType.video => recipient.allow_video_calls
              | CallType.voice => recipient.allow_voice_calls) = true →
            (initiate_video_call env h socketId conversationId callType callId).1
              = [Emit.toSocket socketId (Event.error
                  { message := "Insufficient coins for call",
                    required := some (callCostOf env callType),
                    current := some caller.coin_balance,
                    type := some "insufficient_coins" })] := by
  refine ⟨initiate_video_call_store env h socketId conversationId callType callId, ?_⟩
  intro socket caller hs hu hlt
  unfold initiate_video_call
  rw [hs]
  simp only
  cases hconv : findOpenConversation h.store conversationId socket.userId with
  | none =>
    refine ⟨rfl, ?_, ?_⟩
    · intro e he
      simp only [List.mem_singleton] at he
      rw [he]
      rfl
    · intro c recipient hc
      exact absurd hc (by simp)
  | some conversation =>
    simp only
    cases hrec : findUser h.store
        (if conversation.user1_id = socket.userId then conversation.user2_id
         else conversation.user1_id) with
    | none =>
      refine ⟨rfl, ?_, ?_⟩
      · intro e he
        simp only [List.mem_singleton] at he
        rw [he]
        rfl
      · intro c recipient hc hr
        injection hc with hc
        subst hc
        unfold otherParticipant at hr
        rw [hrec] at hr
        exact absurd hr (by simp)
    | some recipient0 =>
      cases callType with
      | video =>
        simp only
        cases hallow : recipient0.allow_video_calls with
        | true =>
          simp only [Bool.not_true, Bool.false_eq_true, if_false, hu, hlt, if_true]
          refine ⟨by trivial, ?_, ?_⟩
          · intro e he
            simp only [List.mem_singleton] at he
            rw [he]
            rfl
          · intro c recipient hc hr _
            trivial
        | false =>
          simp only [Bool.not_false, if_true]
          refine ⟨by trivial, ?_, ?_⟩
          · intro e he
            simp only [List.mem_singleton] at he
            rw [he]
            rfl
          · intro c recipient hc hr ha
            injection hc with hc
            subst hc
            unfold otherParticipant at hr
            rw [hrec] at hr
            injection hr with hr
            subst hr
            simp [hallow] at ha
      | voice =>
        simp only
        cases hallow : recipient0.allow_voice_calls with
        | true =>
          simp only [Bool.not_true, Bool.false_eq_true, if_false, hu, hlt, if_true]
          refine ⟨by trivial, ?_, ?_⟩
          · intro e he
            simp only [List.mem_singleton] at he
            rw [he]
            rfl
          · intro c recipient hc hr _
            trivial
        | false =>
          simp only [Bool.not_false, if_true]
          refine ⟨by trivial, ?_, ?_⟩
          · intro e he
            simp only [List.mem_singleton] at he
            rw [he]
            rfl
          · intro c recipient hc hr ha
            injection hc with hc
            subst hc
            unfold otherParticipant at hr
            rw [hrec] at hr
            injection hr with hr
            subst hr
            simp [hallow] at ha

theorem initiate_video_call_checks_balance_witness :
    (initiate_video_call Env.unset callHub 12 7 CallType.video 500).2 = callHub
    ∧ (initiate_video_call Env.unset callHub 12 7 CallType.video 500).1
        = [Emit.toSocket 12 (Event.error
            { message := "Insufficient coins for call",
              required := some (callCostOf Env.unset CallType.video),
              current := some (sampleUser 2 "b@example.com" 0).coin_balance,
              type := some "insufficient_coins" })] :=
  ⟨((initiate_video_call_checks_balance Env.unset callHub 12 7 CallType.video 500).2
      (sampleSocket 12 2) (sampleUser 2 "b@example.com" 0) (by decide) (by decide)
      (by decide)).1,
   ((initiate_video_call_checks_balance Env.unset callHub 12 7 CallType.video 500).2
      (sampleSocket 12 2) (sampleUser 2 "b@example.com" 0) (by decide) (by decide)
      (by decide)).2.2
      (sampleConversation 7 1 2) (sampleUser 1 "a@example.com" 10) (by decide) (by decide)
      (by decide)⟩

/-- An update of the rows with key `userId` leaves the row found for another
key as it was. -/
theorem find_map_other_user (l : List User) (userId u : UserId) (g : User → User)
    (hg : ∀ x, (g x).id = x.id) (hne : u ≠ userId) :
    (l.map (fun x => if x.id == userId then g x else x)).find? (fun x => x.id == u)
      = l.find? (fun x => x.id == u) := by
  induction l with
  | nil => rfl
  | cons x xs ih =>
    rw [List.map_cons, List.find?_cons, List.find?_cons, ih]
    by_cases hx : (x.id == userId) = true
    · rw [if_pos hx]
      have hxu : (x.id == u) = false := by
        have h1 : x.id = userId := by simpa using hx
        simp [h1, hne.symm]
      have hgu : ((g x).id == u) = false := by rw [hg]; exact hxu
      rw [hxu, hgu]
    · rw [if_neg hx]

/-- A debit of `userId` leaves the row of every other user as it was. -/
theorem deductCoins_other (s : Store) (userId u : UserId) (amount : Int) (type : TxType)
    (metadata : Metadata) (f : TrxFaults) (hne : u ≠ userId) :
    findUser (deductCoins s userId amount type metadata f).2 u = findUser s u := by
  cases hd : (deductCoins s userId amount type metadata f).1 with
  | false => rw [deductCoins_false s userId amount type metadata f hd]
  | true =>
    obtain ⟨user, _, _, hs⟩ := deductCoins_true s userId amount type metadata f hd
    rw [hs]
    unfold findUser debitUsers
    exact find_map_other_user s.users userId u _ (fun _ => rfl) hne

/-- C22: `accept_call`, the acceptor's socket and the caller's socket (the
one holding the call id, with the cost `callCost` stored at initiate) being
connected. The row of every user other than the caller stays as it was. With
the caller's balance at least the cost and no ledger write failing, the call
is accepted (`call_accepted` to the call room), the caller's balance is
lowered by the cost and one row of type `video_call_cost` or
`voice_call_cost` (by the call type stored at initiate) is appended. With the
balance below the cost the hub is left as it was (no balance changes, no
socket joins the call room), no `call_accepted` is emitted, and the caller and
the acceptor are told. The cost a successful `initiate_video_call` stores on
the caller's socket is the cost of the call type. -/
theorem accept_call_debits_caller (h : Hub) (socketId : SocketId) (callId : Option CallId)
    (f : TrxFaults) (socket callerSocket : Socket) (callCost : Int) (caller : User)
    (hs : h.sockets.find? (fun k => k.id == socketId) = some socket)
    (hc : findCallerSocket h callId = some callerSocket)
    (hcost : callerSocket.callCost = some callCost)
    (hu : findUser h.store callerSocket.userId = some caller) :
    (∀ u, u ≠ callerSocket.userId →
        findUser (accept_call h socketId callId f).2.store u = findUser h.store u)
    ∧ (callCost ≤ caller.coin_balance → f = TrxFaults.ok →
        (accept_call h socketId callId f).1
            = [Emit.toRoom (Room.call callId)
                (Event.call_accepted callId [callerSocket.userId, socket.userId])]
          ∧ getCoinBalance (accept_call h socketId callId f).2.store callerSocket.userId
            = some (caller.coin_balance - callCost)
          ∧ (accept_call h socketId callId f).2.store.coin_transactions
            = h.store.coin_transactions ++
              [debitRow callerSocket.userId caller callCost
                (if callerSocket.callType = some CallType.video then TxType.video_call_cost
                 else TxType.voice_call_cost) Metadata.empty])
    ∧ (caller.coin_balance < callCost →
        (accept_call h socketId callId f).2 = h
          ∧ (accept_call h socketId callId f).1
            = [Emit.toSocket callerSocket.id
                (Event.call_rejected RejectReason.insufficientCoins),
               Emit.toSocket socketId
                (Event.call_ended none EndReason.callerHasInsufficientCoins)]
          ∧ ∀ e ∈ (accept_call h socketId callId f).1, e.isCallAccepted = false)
    ∧ (∀ env h0 sid conversationId callType cid k,
        Emit.toSocket sid (Event.call_initiated cid callType)
            ∈ (initiate_video_call env h0 sid conversationId callType cid).1 →
        k ∈ (initiate_video_call env h0 sid conversationId callType cid).2.sockets →
        k.id = sid →
        k.callId = some cid ∧ k.callType = some callType
          ∧ k.callCost = some (callCostOf env callType)) := by
  refine ⟨?_, ?_, ?_, ?_⟩
  · intro u hne
    unfold accept_call
    rw [hs, hc]
    simp only [acceptDebit, hcost]
    have hother := fun t =>
      deductCoins_other h.store callerSocket.userId u callCost t Metadata.empty f hne
    split <;> split <;> exact hother _
  · intro hle hf
    subst hf
    have hd := deductCoins_of_le h.store callerSocket.userId caller callCost
      (if callerSocket.callType = some CallType.video then TxType.video_call_cost
       else TxType.voice_call_cost) Metadata.empty hu hle
    unfold accept_call
    rw [hs, hc]
    simp only [acceptDebit, hcost, hd, Bool.not_true, Bool.false_eq_true, if_false]
    refine ⟨by trivial, ?_, by trivial⟩
    exact getCoinBalance_debitUsers h.store _ callerSocket.userId caller _ _ hu rfl
  · intro hlt
    have hd := deductCoins_of_lt h.store callerSocket.userId caller callCost
      (if callerSocket.callType = some CallType.video then TxType.video_call_cost
       else TxType.voice_call_cost) Metadata.empty f hu hlt
    unfold accept_call
    rw [hs, hc]
    simp only [acceptDebit, hcost, hd, Bool.not_false, if_true]
    refine ⟨by trivial, by trivial, ?_⟩
    intro e he
    simp only [List.mem_cons, List.mem_singleton, List.not_mem_nil, or_false] at he
    rcases he with he | he
    · rw [he]
      rfl
    · rw [he]
      rfl
  · intro env h0 sid conversationId callType cid k hemit hk hid
    unfold initiate_video_call at hemit hk
    cases hfind : h0.sockets.find? (fun k => k.id == sid) with
    | none =>
      rw [hfind] at hemit
      simp at hemit
    | some socket0 =>
      rw [hfind] at hemit hk
      simp only at hemit hk
      cases hconv : findOpenConversation h0.store conversationId socket0.userId with
      | none =>
        rw [hconv] at hemit
        simp [plainError] at hemit
      | some conversation =>
        rw [hconv] at hemit hk
        simp only at hemit hk
        cases hrec : findUser h0.store
            (if conversation.user1_id = socket0.userId then conversation.user2_id
             else conversation.user1_id) with
        | none =>
          rw [hrec] at hemit
          simp [plainError] at hemit
        | some recipient =>
          rw [hrec] at hemit hk
          simp only at hemit hk
          split at hemit
          · simp at hemit
          · rename_i hallow
            rw [if_neg hallow] at hk
            cases hbal : findUser h0.store socket0.userId with
            | none =>
              rw [hbal] at hemit
              simp [plainError] at hemit
            | some userBalance =>
              rw [hbal] at hemit hk
              simp only at hemit hk
              split at hemit
              · simp at hemit
              · rename_i hlt
                rw [if_neg hlt] at hk
                simp only [setCallFields, List.mem_map] at hk
                obtain ⟨k0, _, hk0⟩ := hk
                by_cases hk0id : (k0.id == sid) = true
                · rw [if_pos hk0id] at hk0
                  rw [← hk0]
                  exact ⟨rfl, rfl, rfl⟩
                · rw [if_neg hk0id] at hk0
                  rw [hk0] at hk0id
                  simp [hid] at hk0id

theorem accept_call_debits_caller_witness :
    (accept_call ringingHub 12 (some 500) TrxFaults.ok).1
        = [Emit.toRoom (Room.call (some 500)) (Event.call_accepted (some 500) [1, 2])]
    ∧ getCoinBalance (accept_call ringingHub 12 (some 500) TrxFaults.ok).2.store 1 = some 5
    ∧ findUser (accept_call ringingHub 12 (some 500) TrxFaults.ok).2.store 2
        = findUser ringingHub.store 2 :=
  ⟨((accept_call_debits_caller ringingHub 12 (some 500) TrxFaults.ok (sampleSocket 12 2)
      { sampleSocket 11 1 with callId := some 500, callType := some CallType.video,
                               callCost := some 5 }
      5 (sampleUser 1 "a@example.com" 10) (by decide) (by decide) (by decide)
      (by decide)).2.1 (by decide) rfl).1,
   ((accept_call_debits_caller ringingHub 12 (some 500) TrxFaults.ok (sampleSocket 12 2)
      { sampleSocket 11 1 with callId := some 500, callType := some CallType.video,
                               callCost := some 5 }
      5 (sampleUser 1 "a@example.com" 10) (by decide) (by decide) (by decide)
      (by decide)).2.1 (by decide) rfl).2.1,
   (accept_call_debits_caller ringingHub 12 (some 500) TrxFaults.ok (sampleSocket 12 2)
      { sampleSocket 11 1 with callId := some 500, callType := some CallType.video,
                               callCost := some 5 }
      5 (sampleUser 1 "a@example.com" 10) (by decide) (by decide) (by decide)
      (by decide)).1 2 (by decide)⟩

end ChatApp
